import Mathlib

/-!
# vmdisp9x: command-buffer submission engine (`vxd_svga_cb.c`)

A shallow embedding of the SVGA-II command-buffer queue, the fence tracker, the
dual-transport submission routine and the context life cycle, followed by the
properties established about them.

Conventions of the embedding

* A command buffer is one page-locked block `[cb_queue_t | SVGACBHeader | payload]`.
  The three parts are addressed by one `Ptr` (the block), so that the C pointer
  arithmetic `(cb_queue_t*)(cb-1)`, `(SVGACBHeader*)(item+1)` and `cb+1` is the
  identity on `Ptr`.  `NULL` is `none`.
* `DWORD`/`uint32` values are `Nat`; wrap-around is written `% 2^32` where the C
  arithmetic can overflow.
* Consecutive assignments to fields of one structure (`cb->status = ...;
  cb->errorOffset = ...;`) are one record update.
* Loops whose termination depends on the heap or on the device take a `fuel`
  argument and return `none` when it is exhausted.
* Functions and constants that the file only imports (`SVGA_WriteReg`, `SVGA_Sync`,
  `SVGA_fence_get`, the `SVGA_CB_STATUS_*` codes, ...) are a trace of events, a
  device script `Env` and a record of constants `Consts`.
-/

namespace Vmdisp9x

/-! ## Constants -/

/-- Address of a command buffer block; see the conventions above. -/
abbrev Ptr := Nat

/-- Constants used by `vxd_svga_cb.c` whose defining headers (`svga_all.h`, and the
revision of `3d_accel.h` that declares the category flags) are not part of the
sources: they are parameters of the embedding. -/
structure Consts where
  SVGA_CB_PRESENT : Nat
  SVGA_CB_RENDER : Nat
  SVGA_CB_UPDATE : Nat
  SVGA_CB_DIRTY_SURFACE : Nat
  SVGA_CB_FLAG_NO_IRQ : Nat
  SVGA_CB_FLAG_DX_CONTEXT : Nat
  SVGA_CB_STATUS_NONE : Nat
  SVGA_CB_STATUS_COMPLETED : Nat
  SVGA_CB_STATUS_QUEUE_FULL : Nat
  SVGA_CB_CONTEXT_0 : Nat
  SVGA_CB_CONTEXT_DEVICE : Nat
  SVGA_CMD_FENCE : Nat
  SVGA_DC_CMD_START_STOP_CONTEXT : Nat
  SVGA_REG_COMMAND_LOW : Nat
  SVGA_REG_COMMAND_HIGH : Nat
  SVGA_FIFO_MIN : Nat
  SVGA_FIFO_MAX : Nat
  SVGA_FIFO_NEXT_CMD : Nat
  SVGA_CB_MAX_SIZE : Nat
  sizeof_SVGACBHeader : Nat
  sizeof_cb_enable_t : Nat

/-- One instance of the constants, used to run the model on concrete inputs: the
device constants as the VMware SVGA-II headers define them, and the category flags
as high bits of the flags word, below `SVGA_CB_FORCE_FENCE`. -/
def svga : Consts where
  SVGA_CB_PRESENT := 0x08000000
  SVGA_CB_RENDER := 0x02000000
  SVGA_CB_UPDATE := 0x01000000
  SVGA_CB_DIRTY_SURFACE := 0x04000000
  SVGA_CB_FLAG_NO_IRQ := 1
  SVGA_CB_FLAG_DX_CONTEXT := 2
  SVGA_CB_STATUS_NONE := 0
  SVGA_CB_STATUS_COMPLETED := 1
  SVGA_CB_STATUS_QUEUE_FULL := 2
  SVGA_CB_CONTEXT_0 := 0
  SVGA_CB_CONTEXT_DEVICE := 0x3f
  SVGA_CMD_FENCE := 30
  SVGA_DC_CMD_START_STOP_CONTEXT := 1
  SVGA_REG_COMMAND_LOW := 48
  SVGA_REG_COMMAND_HIGH := 49
  SVGA_FIFO_MIN := 0
  SVGA_FIFO_MAX := 1
  SVGA_FIFO_NEXT_CMD := 2
  SVGA_CB_MAX_SIZE := 524288
  sizeof_SVGACBHeader := 64
  sizeof_cb_enable_t := 12

def CBQ_PRESENT : Nat := 0x01
def CBQ_RENDER : Nat := 0x02
def CBQ_UPDATE : Nat := 0x04

def SVGA_CB_USE_CONTEXT_DEVICE : Nat := 0x80000000
def SVGA_CB_SYNC : Nat := 0x40000000
def SVGA_CB_FORCE_FIFO : Nat := 0x20000000
def SVGA_CB_FORCE_FENCE : Nat := 0x10000000

def SVGA_PROC_NONE : Nat := 0
def SVGA_PROC_COMPLETED : Nat := 1
def SVGA_PROC_ERROR : Nat := 3
def SVGA_PROC_FENCE : Nat := 0xFF

/-- Size in bytes of `DWORD` and `uint32`. -/
def sizeof_DWORD : Nat := 4

/-! ## Data model -/

/-- The queue link placed in front of every descriptor (`struct _cb_queue_t`). -/
structure cb_queue_t where
  next : Option Ptr
  flags : Nat
  data_size : Nat
deriving DecidableEq, Repr

/-- The fields of the device descriptor `SVGACBHeader` that the file touches. -/
structure SVGACBHeader where
  status : Nat
  errorOffset : Nat
  id_low : Nat
  id_hi : Nat
  flags : Nat
  length : Nat
  ptr_pa_low : Nat
  ptr_pa_hi : Nat
  offset : Nat
  dxContext : Nat
  mustBeZero : Nat
deriving DecidableEq, Repr

/-- Head and tail of the in-flight chain (`struct _cb_queue_info_t`). -/
structure cb_queue_info_t where
  first : Option Ptr
  last : Option Ptr
deriving DecidableEq, Repr

/-- The 64-bit submission counter, kept as two dwords as in the source. -/
structure uint64 where
  low : Nat
  hi : Nat
deriving DecidableEq, Repr

/-- The caller-owned status handle (`SVGA_CMB_status_t`); `qStatus` points at the
status word of a descriptor. -/
structure SVGA_CMB_status_t where
  qStatus : Option Ptr
  sStatus : Nat
  fifo_fence_used : Nat
  fifo_fence_last : Nat
deriving DecidableEq, Repr

/-- Calls into the rest of the driver and stores into the shared FIFO memory, in
the order in which they happen. -/
inductive Event where
  | WriteReg (reg val : Nat)
  | Sync
  | FenceGet (token : Nat)
  | FenceWait (token : Nat)
  | FifoStore (index val : Nat)
  | Flush
deriving DecidableEq, Repr

/-- The behaviour of the device and of the imported fence primitives, as a script
indexed by the number of interactions so far. -/
structure Env where
  /-- Status the device has stored into a descriptor at a given interaction
  (`none`: it leaves the descriptor alone). -/
  dev_status : Nat → Ptr → Option Nat
  /-- Value returned by `SVGA_fence_get`. -/
  fence_get : Nat → Nat
  /-- Value returned by `SVGA_fence_passed`. -/
  fence_passed : Nat → Nat
  /-- Carry flag of the processor when `SVGA_cb_id_inc` is entered. -/
  carry_flag : Nat → Bool
  /-- Result of `_PageAllocate`: the block and its physical address, or `none` when
  the allocation fails. -/
  page_alloc : Nat → Option (Ptr × Nat)

/-- Globals of `vxd_svga_cb.c`, the memory of the command buffers, the FIFO memory
and the record of the interactions with the device. -/
structure State where
  node : Ptr → cb_queue_t
  hdr : Ptr → SVGACBHeader
  cmb : Ptr → Nat → Nat
  cb_queue_info : cb_queue_info_t
  cb_next_id : uint64
  cb_support : Bool
  cb_context0 : Bool
  ST_FB_invalid : Bool
  fence_present : Nat
  fence_render : Nat
  fence_update : Nat
  fifoMem : Nat → Nat
  ctlbuf : Ptr
  cmdbuf : Ptr
  /-- Nesting depth of the critical section (`Begin_Critical_Section` /
  `End_Critical_Section`); an integer, so that a release without a claim shows. -/
  critical : Int
  tick : Nat
  trace : List Event

/-- Store into the queue link of block `p`. -/
def State.setNode (s : State) (p : Ptr) (n : cb_queue_t) : State :=
  { s with node := fun q => if q = p then n else s.node q }

/-- Store into the descriptor of block `p`. -/
def State.setHdr (s : State) (p : Ptr) (h : SVGACBHeader) : State :=
  { s with hdr := fun q => if q = p then h else s.hdr q }

/-- Store into payload word `i` of block `p`. -/
def State.setCmb (s : State) (p : Ptr) (i v : Nat) : State :=
  { s with cmb := fun q j => if q = p ∧ j = i then v else s.cmb q j }

/-- Append an event to the trace (most recent first). -/
def State.log (s : State) (e : Event) : State :=
  { s with trace := e :: s.trace }

/-- Store into word `i` of `gSVGA.fifoMem`; the store is visible to the device and
is recorded. -/
def State.fifoStore (s : State) (i v : Nat) : State :=
  { s with fifoMem := fun j => if j = i then v else s.fifoMem j,
           trace := Event.FifoStore i v :: s.trace }

/-! ## Imported primitives -/

/-- One interaction with the device: it stores the statuses its script prescribes. -/
def device_step (E : Env) (s : State) : State :=
  { s with
    hdr := fun p => match E.dev_status s.tick p with
      | some v => { s.hdr p with status := v }
      | none => s.hdr p
    tick := s.tick + 1 }

def SVGA_WriteReg (reg val : Nat) (s : State) : State :=
  s.log (Event.WriteReg reg val)

def SVGA_Sync (E : Env) (s : State) : State :=
  device_step E (s.log Event.Sync)

def SVGA_Flush (E : Env) (s : State) : State :=
  device_step E (s.log Event.Flush)

def SVGA_fence_get (E : Env) (s : State) : Nat × State :=
  (E.fence_get s.tick, { s.log (Event.FenceGet (E.fence_get s.tick)) with tick := s.tick + 1 })

def SVGA_fence_passed (E : Env) (s : State) : Nat :=
  E.fence_passed s.tick

def SVGA_fence_wait (E : Env) (fence_id : Nat) (s : State) : State :=
  device_step E (s.log (Event.FenceWait fence_id))

def Begin_Critical_Section (s : State) : State :=
  { s with critical := s.critical + 1 }

def End_Critical_Section (s : State) : State :=
  { s with critical := s.critical - 1 }

/-! ## Submission queue -/

/-- The two instructions `inc dword ptr [cb_next_id]` and
`adc dword ptr [cb_next_id+4], 0`.  On x86 `inc` leaves the carry flag as it
found it, so `adc` adds the carry flag `cf` the processor had on entry. -/
def SVGA_cb_id_inc (cf : Bool) (s : State) : State :=
  let low := (s.cb_next_id.low + 1) % 2 ^ 32
  let hi := (s.cb_next_id.hi + 0 + (if cf then 1 else 0)) % 2 ^ 32
  { s with cb_next_id := { low := low, hi := hi } }

def CB_queue_insert (cb : Ptr) (flags : Nat) (s : State) : State :=
  let item := cb
  let s := s.setNode item { next := none, flags := flags, data_size := (s.hdr cb).length }
  match s.cb_queue_info.last with
  | some last =>
    let s := s.setNode last { (s.node last) with next := some item }
    { s with cb_queue_info := { s.cb_queue_info with last := some item } }
  | none =>
    { s with cb_queue_info := { first := some item, last := some item } }

/-- The loop of `CB_queue_erase`. -/
def CB_queue_erase_loop (K : Consts) : Nat → Option Ptr → State → Option State
  | _, none, s => some s
  | 0, some _, _ => none
  | fuel + 1, some item, s =>
    let cb := item
    let s := s.setHdr cb { (s.hdr cb) with status := K.SVGA_CB_STATUS_QUEUE_FULL }
    CB_queue_erase_loop K fuel (s.node item).next s

def CB_queue_erase (K : Consts) (fuel : Nat) (s : State) : Option State :=
  (CB_queue_erase_loop K fuel s.cb_queue_info.first s).map fun s =>
    { s with cb_queue_info := { first := none, last := none } }

def CB_queue_is_flags_set_loop (flags : Nat) : Nat → Option Ptr → State → Option Bool
  | _, none, _ => some false
  | 0, some _, _ => none
  | fuel + 1, some item, s =>
    if (s.node item).flags &&& flags ≠ 0 then some true
    else CB_queue_is_flags_set_loop flags fuel (s.node item).next s

def CB_queue_is_flags_set (fuel : Nat) (flags : Nat) (s : State) : Option Bool :=
  if flags = 0 then some false
  else CB_queue_is_flags_set_loop flags fuel s.cb_queue_info.first s

/-! ## Category tags and the fence tracker -/

def flags_to_cbq (K : Consts) (cb_flags : Nat) : Nat :=
  let r := 0
  let r := if cb_flags &&& K.SVGA_CB_PRESENT ≠ 0 then r ||| CBQ_PRESENT else r
  let r := if cb_flags &&& K.SVGA_CB_RENDER ≠ 0 then r ||| CBQ_RENDER else r
  let r := if cb_flags &&& K.SVGA_CB_UPDATE ≠ 0 then r ||| K.SVGA_CB_UPDATE else r
  r

def flags_to_cbq_check (K : Consts) (cb_flags : Nat) : Nat :=
  let r := 0
  let r := if cb_flags &&& K.SVGA_CB_PRESENT ≠ 0 then r ||| (CBQ_PRESENT ||| CBQ_RENDER) else r
  let r := if cb_flags &&& K.SVGA_CB_RENDER ≠ 0 then r ||| (CBQ_RENDER ||| K.SVGA_CB_UPDATE) else r
  let r := if cb_flags &&& K.SVGA_CB_UPDATE ≠ 0 then r ||| (CBQ_RENDER ||| K.SVGA_CB_UPDATE) else r
  r

def flags_fence_check (K : Consts) (E : Env) (cb_flags : Nat) (s : State) : State :=
  let to_check := flags_to_cbq_check K cb_flags
  let s :=
    if to_check &&& CBQ_PRESENT ≠ 0 then
      if s.fence_present ≠ 0 then
        let s := SVGA_fence_wait E s.fence_present s
        { s with fence_present := 0 }
      else s
    else s
  let s :=
    if to_check &&& CBQ_RENDER ≠ 0 then
      if s.fence_render ≠ 0 then
        let s := SVGA_fence_wait E s.fence_render s
        { s with fence_render := 0 }
      else s
    else s
  let s :=
    if to_check &&& CBQ_UPDATE ≠ 0 then
      if s.fence_update ≠ 0 then
        let s := SVGA_fence_wait E s.fence_update s
        { s with fence_update := 0 }
      else s
    else s
  s

def flags_fence_insert (K : Consts) (cb_flags : Nat) (fence : Nat) (s : State) : State :=
  let s := if cb_flags &&& K.SVGA_CB_PRESENT ≠ 0 then { s with fence_present := fence } else s
  let s := if cb_flags &&& K.SVGA_CB_RENDER ≠ 0 then { s with fence_render := fence } else s
  let s := if cb_flags &&& K.SVGA_CB_UPDATE ≠ 0 then { s with fence_update := fence } else s
  s

def flags_fifo_fence_need (K : Consts) (flags : Nat) : Bool :=
  flags &&& (SVGA_CB_SYNC ||| SVGA_CB_FORCE_FENCE ||| K.SVGA_CB_PRESENT ||| K.SVGA_CB_RENDER
    ||| K.SVGA_CB_UPDATE) ≠ 0

def flags_cb_fence_need (flags : Nat) : Bool :=
  flags &&& SVGA_CB_FORCE_FENCE ≠ 0

/-! ## Context life cycle -/

/-- The loop `while(cb->status == SVGA_CB_STATUS_NONE) SVGA_Sync();` of `SVGA_CB_ctr`. -/
def SVGA_CB_ctr_wait (K : Consts) (E : Env) : Nat → State → Option State
  | 0, s => if (s.hdr s.ctlbuf).status = K.SVGA_CB_STATUS_NONE then none else some s
  | fuel + 1, s =>
    if (s.hdr s.ctlbuf).status = K.SVGA_CB_STATUS_NONE then
      SVGA_CB_ctr_wait K E fuel (SVGA_Sync E s)
    else some s

def SVGA_CB_ctr (K : Consts) (E : Env) (fuel : Nat) (data_size : Nat) (s : State) :
    Option (Nat × State) :=
  let cb := s.ctlbuf
  let s := s.setHdr cb
    { (s.hdr cb) with
      status := K.SVGA_CB_STATUS_NONE
      errorOffset := 0
      offset := 0
      flags := K.SVGA_CB_FLAG_NO_IRQ
      mustBeZero := 0
      dxContext := 0
      id_low := s.cb_next_id.low
      id_hi := s.cb_next_id.hi
      length := data_size }
  let s := SVGA_WriteReg K.SVGA_REG_COMMAND_HIGH 0 s
  let s := SVGA_WriteReg K.SVGA_REG_COMMAND_LOW
    ((((s.hdr cb).ptr_pa_low + 2 ^ 32 - K.sizeof_SVGACBHeader % 2 ^ 32) % 2 ^ 32)
      ||| K.SVGA_CB_CONTEXT_DEVICE) s
  let s := SVGA_Sync E s
  let s := SVGA_cb_id_inc (E.carry_flag s.tick) s
  (SVGA_CB_ctr_wait K E fuel s).map fun s => ((s.hdr cb).status, s)

/-- The stores that fill the `cb_enable_t` in `ctlbuf`: `memset`, then the three
fields `cmd`, `cbstart.enable`, `cbstart.context`. -/
def cb_enable_fill (K : Consts) (enable : Nat) (s : State) : State :=
  let cbe := s.ctlbuf
  let s := s.setCmb cbe 0 0
  let s := s.setCmb cbe 1 0
  let s := s.setCmb cbe 2 0
  let s := s.setCmb cbe 0 K.SVGA_DC_CMD_START_STOP_CONTEXT
  let s := s.setCmb cbe 1 enable
  let s := s.setCmb cbe 2 K.SVGA_CB_CONTEXT_0
  s

def SVGA_CB_start (K : Consts) (E : Env) (fuel : Nat) (s : State) : Option State :=
  if s.cb_support ∧ s.cb_context0 = false then
    let s := cb_enable_fill K 1 s
    match SVGA_CB_ctr K E fuel K.sizeof_cb_enable_t s with
    | none => none
    | some (status, s) =>
      if status = K.SVGA_CB_STATUS_COMPLETED then
        some { s with cb_context0 := true }
      else
        some { s with cb_support := false }
  else some s

def SVGA_CB_stop (K : Consts) (E : Env) (fuel : Nat) (s : State) : Option State :=
  let s := { s with cb_context0 := false }
  if s.cb_support then
    let s := cb_enable_fill K 0 s
    match SVGA_CB_ctr K E fuel K.sizeof_cb_enable_t s with
    | none => none
    | some (_, s) =>
      let s := SVGA_Sync E s
      CB_queue_erase K fuel s
  else some s

def SVGA_CB_restart (K : Consts) (E : Env) (fuel : Nat) (s : State) : Option State :=
  match SVGA_CB_stop K E fuel s with
  | none => none
  | some s => SVGA_CB_start K E fuel s

/-! ## The scan pass -/

/-- The `while(item != NULL)` loop of `CB_queue_check_inline`; the result carries the
locals `last`, `in_queue` and `need_restart`. -/
def CB_queue_check_loop (K : Consts) (tracked : Option Ptr) :
    Nat → Option Ptr → Option Ptr → Bool → Bool → State →
      Option (State × Option Ptr × Bool × Bool)
  | _, none, last, in_queue, need_restart, s => some (s, last, in_queue, need_restart)
  | 0, some _, _, _, _, _ => none
  | fuel + 1, some item, last, in_queue, need_restart, s =>
    let cb := item
    if (s.hdr cb).status ≥ K.SVGA_CB_STATUS_COMPLETED then
      let s1 :=
        match last with
        | none => { s with cb_queue_info := { s.cb_queue_info with first := (s.node item).next } }
        | some l => s.setNode l { (s.node l) with next := (s.node item).next }
      let need_restart :=
        if (s1.hdr cb).status > K.SVGA_CB_STATUS_COMPLETED then true else need_restart
      CB_queue_check_loop K tracked fuel (s1.node item).next last in_queue need_restart s1
    else
      let in_queue := if tracked = some cb then true else in_queue
      CB_queue_check_loop K tracked fuel (s.node item).next (some item) in_queue need_restart s

def CB_queue_check_inline (K : Consts) (E : Env) (fuel : Nat) (tracked : Option Ptr)
    (s : State) : Option (Bool × State) :=
  match CB_queue_check_loop K tracked fuel s.cb_queue_info.first none false false s with
  | none => none
  | some (s, last, in_queue, need_restart) =>
    let s := { s with cb_queue_info := { s.cb_queue_info with last := last } }
    if need_restart then
      (SVGA_CB_restart K E fuel s).map fun s => (true, s)
    else if s.cb_queue_info.first = none then some (true, s)
    else if tracked ≠ none ∧ in_queue = false then some (true, s)
    else some (false, s)

def CB_queue_check (K : Consts) (E : Env) (fuel : Nat) (tracked : Option Ptr) (s : State) :
    Option (Bool × State) :=
  CB_queue_check_inline K E fuel tracked s

/-- The macro `WAIT_FOR_CB(_cb, _forcesync)`: poll the scan pass until it reports
the buffer retired.  Between two polls the device gets its turn, through
`SVGA_Sync` when `_forcesync` is 1. -/
def WAIT_FOR_CB (K : Consts) (E : Env) (n : Nat) (cb : Ptr) (forcesync : Bool) :
    Nat → State → Option State
  | 0, _ => none
  | fuel + 1, s =>
    match CB_queue_check_inline K E n (some cb) s with
    | none => none
    | some (true, s) => some s
    | some (false, s) =>
      WAIT_FOR_CB K E n cb forcesync fuel (if forcesync then SVGA_Sync E s else device_step E s)

/-! ## Submission -/

/-- The loop `do { CB_queue_check_inline(NULL); } while(CB_queue_is_flags_set(flags));`
that precedes a dispatch (also the body of `SVGA_CMB_wait_update`).  The device gets
its turn between two polls. -/
def CB_queue_wait_flags (K : Consts) (E : Env) (n : Nat) (flags : Nat) :
    Nat → State → Option State
  | 0, _ => none
  | fuel + 1, s =>
    match CB_queue_check_inline K E n none s with
    | none => none
    | some (_, s) =>
      match CB_queue_is_flags_set n flags s with
      | none => none
      | some true => CB_queue_wait_flags K E n flags fuel (device_step E s)
      | some false => some s

/-- The `while(dwords > 0)` loop that copies the payload of block `cmb`, from word
`ptr` on, into the FIFO ring. -/
def fifo_copy_loop (K : Consts) (cmb : Ptr) (max min : Nat) :
    Nat → Nat → Nat → State → State
  | 0, _, _, s => s
  | dwords + 1, ptr, nextCmd, s =>
    let s := s.fifoStore (nextCmd / sizeof_DWORD) (s.cmb cmb ptr)
    let ptr := ptr + 1
    let nextCmd := (nextCmd + sizeof_DWORD) % 2 ^ 32
    let nextCmd := if nextCmd ≥ max then min else nextCmd
    let s := s.fifoStore K.SVGA_FIFO_NEXT_CMD nextCmd
    fifo_copy_loop K cmb max min dwords ptr nextCmd s

/-- The block `if(flags_cb_fence_need(flags)) { ... }` of the command-buffer branch:
it appends a fence command to the payload.  The result is the new value of the
locals `fence` and `cmb_size`, and the state. -/
def cb_fence_append (K : Consts) (E : Env) (cmb : Ptr) (cmb_size flags fence : Nat)
    (s : State) : Nat × Nat × State :=
  if flags_cb_fence_need flags then
    let dwords := cmb_size / sizeof_DWORD
    let r := SVGA_fence_get E s
    let fence := r.1
    let s := r.2
    let s := s.setCmb cmb dwords K.SVGA_CMD_FENCE
    let s := s.setCmb cmb (dwords + 1) fence
    (fence, (cmb_size + sizeof_DWORD * 2) % 2 ^ 32, s)
  else (fence, cmb_size, s)

/-- The dispatch block of the command-buffer branch: fill the descriptor, insert it
into the queue, post its address to the device and advance the submission
counter. -/
def cb_dispatch (K : Consts) (E : Env) (cmb : Ptr) (cmb_size flags DXCtxId : Nat)
    (s : State) : State :=
  let cb := cmb
  let cbhwctxid := K.SVGA_CB_CONTEXT_0
  let s := s.setHdr cb
    { (s.hdr cb) with
      status := K.SVGA_CB_STATUS_NONE
      errorOffset := 0
      offset := 0
      flags := K.SVGA_CB_FLAG_NO_IRQ }
  let s :=
    if flags &&& K.SVGA_CB_FLAG_DX_CONTEXT ≠ 0 then
      s.setHdr cb
        { (s.hdr cb) with
          flags := (s.hdr cb).flags ||| K.SVGA_CB_FLAG_DX_CONTEXT
          dxContext := DXCtxId }
    else
      s.setHdr cb { (s.hdr cb) with dxContext := 0 }
  let s := s.setHdr cb
    { (s.hdr cb) with
      id_low := s.cb_next_id.low
      id_hi := s.cb_next_id.hi
      length := cmb_size }
  let s := CB_queue_insert cb (flags_to_cbq K flags) s
  let s := SVGA_WriteReg K.SVGA_REG_COMMAND_HIGH 0 s
  let s := SVGA_WriteReg K.SVGA_REG_COMMAND_LOW
    ((((s.hdr cb).ptr_pa_low + 2 ^ 32 - K.sizeof_SVGACBHeader % 2 ^ 32) % 2 ^ 32)
      ||| cbhwctxid) s
  let s := SVGA_Sync E s
  let s := SVGA_cb_id_inc (E.carry_flag s.tick) s
  s

/-- The command-buffer branch of `SVGA_CMB_submit_critical`. -/
def SVGA_CMB_submit_cb (K : Consts) (E : Env) (fuel : Nat) (cmb : Ptr) (cmb_size : Nat)
    (status : Option SVGA_CMB_status_t) (flags DXCtxId : Nat) (fence : Nat) (s : State) :
    Option (Option SVGA_CMB_status_t × State) :=
  let cb := cmb
  let cbq_check := flags_to_cbq_check K flags
  let r := cb_fence_append K E cmb cmb_size flags fence s
  let fence := r.1
  let cmb_size := r.2.1
  let s := r.2.2
  match CB_queue_wait_flags K E fuel cbq_check fuel s with
  | none => none
  | some s =>
    if cmb_size = 0 then
      let s := s.setHdr cb { (s.hdr cb) with status := SVGA_PROC_COMPLETED }
      some (status.map fun st =>
        { st with sStatus := SVGA_PROC_COMPLETED, qStatus := none, fifo_fence_used := 0 }, s)
    else
      let s := cb_dispatch K E cmb cmb_size flags DXCtxId s
      if flags &&& SVGA_CB_SYNC ≠ 0 then
        match WAIT_FOR_CB K E fuel cb false fuel s with
        | none => none
        | some s =>
          let fence :=
            if (s.hdr cb).status ≠ K.SVGA_CB_STATUS_COMPLETED then
              if flags &&& SVGA_CB_FORCE_FENCE ≠ 0 then SVGA_fence_passed E s else fence
            else fence
          some (status.map fun st =>
            { st with sStatus := SVGA_PROC_COMPLETED, qStatus := none,
                      fifo_fence_used := fence }, s)
      else
        some (status.map fun st =>
          { st with sStatus := SVGA_PROC_NONE, qStatus := some cb,
                    fifo_fence_used := fence }, s)

/-- The block `if(flags_fifo_fence_need(flags)) { ... }` of the FIFO branch: it
appends a fence command to the payload.  The result is the new value of the locals
`fence` and `dwords`, and the state. -/
def fifo_fence_append (K : Consts) (E : Env) (ptr : Ptr) (dwords flags fence : Nat)
    (s : State) : Nat × Nat × State :=
  if flags_fifo_fence_need K flags then
    let r := SVGA_fence_get E s
    let fence := r.1
    let s := r.2
    let s := s.setCmb ptr dwords K.SVGA_CMD_FENCE
    let dwords := dwords + 1
    let s := s.setCmb ptr dwords fence
    let dwords := dwords + 1
    (fence, dwords, s)
  else (fence, dwords, s)

/-- The FIFO branch of `SVGA_CMB_submit_critical`. -/
def SVGA_CMB_submit_fifo (K : Consts) (E : Env) (cmb : Ptr) (cmb_size : Nat)
    (status : Option SVGA_CMB_status_t) (flags : Nat) (fence : Nat) (s : State) :
    Option SVGA_CMB_status_t × State :=
  let cb := cmb
  let ptr := cmb
  let dwords := cmb_size / sizeof_DWORD
  let r := fifo_fence_append K E ptr dwords flags fence s
  let fence := r.1
  let dwords := r.2.1
  let s := r.2.2
  let s := flags_fence_check K E flags s
  if dwords = 0 then
    let s := s.setHdr cb { (s.hdr cb) with status := SVGA_PROC_COMPLETED }
    (status.map fun st =>
      { st with sStatus := SVGA_PROC_COMPLETED, qStatus := none, fifo_fence_used := 0 }, s)
  else
    let nextCmd := s.fifoMem K.SVGA_FIFO_NEXT_CMD
    let max := s.fifoMem K.SVGA_FIFO_MAX
    let min := s.fifoMem K.SVGA_FIFO_MIN
    let s := fifo_copy_loop K ptr max min dwords 0 nextCmd s
    let r : Option SVGA_CMB_status_t × State :=
      if flags &&& SVGA_CB_SYNC ≠ 0 then
        let s := SVGA_fence_wait E fence s
        (status.map fun st =>
          { st with sStatus := SVGA_PROC_COMPLETED, qStatus := none, fifo_fence_used := 0 }, s)
      else
        let s := flags_fence_insert K flags fence s
        (status.map fun st =>
          { st with sStatus := SVGA_PROC_FENCE, qStatus := none, fifo_fence_used := fence }, s)
    let s := r.2
    let s := s.setHdr cb { (s.hdr cb) with status := SVGA_PROC_COMPLETED }
    (r.1, s)

/-- The entry block of `SVGA_CMB_submit_critical`: when a status handle is given,
reset the descriptor status and point the handle at it; note a dirty surface. -/
def submit_entry (K : Consts) (cmb : Ptr) (status : Option SVGA_CMB_status_t) (flags : Nat)
    (s : State) : Option SVGA_CMB_status_t × State :=
  let cb := cmb
  let r : Option SVGA_CMB_status_t × State :=
    match status with
    | some st =>
      let s := s.setHdr cb { (s.hdr cb) with status := K.SVGA_CB_STATUS_NONE }
      (some { st with sStatus := SVGA_PROC_NONE, qStatus := some cb }, s)
    | none => (none, s)
  let s := r.2
  let s := if flags &&& K.SVGA_CB_DIRTY_SURFACE ≠ 0 then { s with ST_FB_invalid := true } else s
  (r.1, s)

/-- The exit block of `SVGA_CMB_submit_critical`: store the last passed fence in
the handle. -/
def submit_exit (E : Env) (r : Option SVGA_CMB_status_t × State) :
    Option SVGA_CMB_status_t × State :=
  (r.1.map fun st => { st with fifo_fence_last := SVGA_fence_passed E r.2 }, r.2)

/-- The test `cb_support && cb_context0 && (flags & SVGA_CB_FORCE_FIFO) == 0` that
selects the command-buffer branch. -/
def cb_transport (flags : Nat) (s : State) : Bool :=
  s.cb_support && s.cb_context0 && (flags &&& SVGA_CB_FORCE_FIFO == 0)

def SVGA_CMB_submit_critical (K : Consts) (E : Env) (fuel : Nat) (cmb : Ptr) (cmb_size : Nat)
    (status : Option SVGA_CMB_status_t) (flags DXCtxId : Nat) (s : State) :
    Option (Option SVGA_CMB_status_t × State) :=
  let fence := 0
  let r := submit_entry K cmb status flags s
  let status := r.1
  let s := r.2
  let r :=
    if cb_transport flags s then
      SVGA_CMB_submit_cb K E fuel cmb cmb_size status flags DXCtxId fence s
    else
      some (SVGA_CMB_submit_fifo K E cmb cmb_size status flags fence s)
  r.map (submit_exit E)

def SVGA_CMB_submit (K : Consts) (E : Env) (fuel : Nat) (cmb : Ptr) (cmb_size : Nat)
    (status : Option SVGA_CMB_status_t) (flags DXCtxId : Nat) (s : State) :
    Option (Option SVGA_CMB_status_t × State) :=
  let s := Begin_Critical_Section s
  (SVGA_CMB_submit_critical K E fuel cmb cmb_size status flags DXCtxId s).map
    fun (status, s) => (status, End_Critical_Section s)

def wait_for_cmdbuf (K : Consts) (E : Env) (fuel : Nat) (s : State) : Option State :=
  let s := Begin_Critical_Section s
  let cb := s.cmdbuf
  WAIT_FOR_CB K E fuel cb false fuel s

def submit_cmdbuf (K : Consts) (E : Env) (fuel : Nat) (cmdsize flags dx : Nat) (s : State) :
    Option State :=
  (SVGA_CMB_submit_critical K E fuel s.cmdbuf cmdsize none flags dx s).map
    fun (_, s) => End_Critical_Section s

def SVGA_CMB_wait_update (K : Consts) (E : Env) (fuel : Nat) (s : State) : Option State :=
  if s.cb_support ∧ s.cb_context0 then
    CB_queue_wait_flags K E fuel (CBQ_UPDATE ||| CBQ_UPDATE) fuel s
  else
    some (flags_fence_check K E K.SVGA_CB_UPDATE s)

/-! ## Flush, allocation and release -/

/-- The loop `while(!CB_queue_check(NULL)) SVGA_Sync();` of `SVGA_Flush_CB_critical`. -/
def SVGA_Flush_CB_wait (K : Consts) (E : Env) (n : Nat) : Nat → State → Option State
  | 0, _ => none
  | fuel + 1, s =>
    match CB_queue_check K E n none s with
    | none => none
    | some (true, s) => some s
    | some (false, s) => SVGA_Flush_CB_wait K E n fuel (SVGA_Sync E s)

def SVGA_Flush_CB_critical (K : Consts) (E : Env) (fuel : Nat) (s : State) : Option State :=
  (SVGA_Flush_CB_wait K E fuel fuel s).map fun s => SVGA_Flush E s

def SVGA_Flush_CB (K : Consts) (E : Env) (fuel : Nat) (s : State) : Option State :=
  let s := Begin_Critical_Section s
  (SVGA_Flush_CB_critical K E fuel s).map End_Critical_Section

/-- Size in bytes of `cb_queue_t`: a pointer, two dwords and thirteen dwords of
padding, packed. -/
def sizeof_cb_queue_t : Nat := 4 + 4 + 4 + 13 * 4

def SVGA_CMB_alloc_size (K : Consts) (E : Env) (_datasize : Nat) (s : State) :
    Option Ptr × State :=
  let s := Begin_Critical_Section s
  let r := E.page_alloc s.tick
  let s := { s with tick := s.tick + 1 }
  match r with
  | some (q, phy) =>
    let s := s.setNode q { next := none, flags := 0, data_size := 0 }
    let cb := q
    let s := s.setHdr cb
      { status := 0, errorOffset := 0, id_low := 0, id_hi := 0, flags := 0, length := 0,
        ptr_pa_low := 0, ptr_pa_hi := 0, offset := 0, dxContext := 0, mustBeZero := 0 }
    let s := s.setHdr cb
      { (s.hdr cb) with
        status := K.SVGA_CB_STATUS_COMPLETED
        ptr_pa_hi := 0
        ptr_pa_low := (phy + sizeof_cb_queue_t + K.sizeof_SVGACBHeader) % 2 ^ 32 }
    let s := End_Critical_Section s
    (some cb, s)
  | none =>
    let s := End_Critical_Section s
    (none, s)

def SVGA_CMB_alloc (K : Consts) (E : Env) (s : State) : Option Ptr × State :=
  SVGA_CMB_alloc_size K E K.SVGA_CB_MAX_SIZE s

def SVGA_CMB_free (K : Consts) (E : Env) (fuel : Nat) (cmb : Ptr) (s : State) : Option State :=
  let cb := cmb
  let s := Begin_Critical_Section s
  (WAIT_FOR_CB K E fuel cb true fuel s).map End_Critical_Section

/-! ## Reading the queue -/

/-- The successor pointer stored in the link of each block. -/
def State.next (s : State) : Ptr → Option Ptr :=
  fun p => (s.node p).next

/-- The blocks met when following `next` from `o` until `NULL`; `none` when the
walk does not end within `fuel` steps. -/
def chain_from (nx : Ptr → Option Ptr) : Nat → Option Ptr → Option (List Ptr)
  | _, none => some []
  | 0, some _ => none
  | fuel + 1, some p => (chain_from nx fuel (nx p)).map fun l => p :: l

/-- The chain reachable from `cb_queue_info.first`. -/
def queue_chain (fuel : Nat) (s : State) : Option (List Ptr) :=
  chain_from s.next fuel s.cb_queue_info.first

/-- Following `nx` from `o` visits exactly the blocks of `l`, in order, and then
arrives at `e`. -/
def Seg (nx : Ptr → Option Ptr) : Option Ptr → List Ptr → Option Ptr → Prop
  | o, [], e => o = e
  | o, p :: l, e => o = some p ∧ Seg nx (nx p) l e

/-- The queue is well formed and holds exactly the blocks of `l`, in order: the
chain from `first` is `l` and ends in `NULL`, `last` is the final block (or `NULL`
when there is none), and no block occurs twice. -/
def QueueIs (s : State) (l : List Ptr) : Prop :=
  Seg s.next s.cb_queue_info.first l none ∧ s.cb_queue_info.last = l.getLast? ∧ l.Nodup

/-- Insert the descriptors `cbs` (each with its category tag) one after the other. -/
def insert_all (cbs : List (Ptr × Nat)) (s : State) : State :=
  cbs.foldl (fun s c => CB_queue_insert c.1 c.2 s) s

/-- What a scan pass that meets no fault may change: the successor pointers and
the head and tail of the chain, and nothing else. -/
def ScanFrame (s t : State) : Prop :=
  t = { s with node := t.node, cb_queue_info := t.cb_queue_info } ∧
  ∀ p, (t.node p).flags = (s.node p).flags ∧ (t.node p).data_size = (s.node p).data_size

/-- The descriptor of block `p` is still pending: its status is below
`SVGA_CB_STATUS_COMPLETED`. -/
def pending (K : Consts) (s : State) (p : Ptr) : Bool :=
  decide ((s.hdr p).status < K.SVGA_CB_STATUS_COMPLETED)

/-- The descriptor of block `p` carries a fault: its status is above
`SVGA_CB_STATUS_COMPLETED`. -/
def faulted (K : Consts) (s : State) (p : Ptr) : Bool :=
  decide ((s.hdr p).status > K.SVGA_CB_STATUS_COMPLETED)

/-- Value reported by a scan pass that met no fault and left the chain `rest`. -/
def scan_result (tracked : Option Ptr) (rest : List Ptr) : Bool :=
  decide (rest = []) || (tracked.isSome && !decide (tracked ∈ rest.map some))

/-! ## Concrete states and device scripts used to exercise the model -/

/-- A device that never touches a descriptor. -/
def idle_env : Env where
  dev_status := fun _ _ => none
  fence_get := fun t => t + 1
  fence_passed := fun _ => 0
  carry_flag := fun _ => false
  page_alloc := fun _ => none

/-- Zeroed memory, an empty queue, command buffers supported and context 0 enabled. -/
def zero_state : State where
  node := fun _ => { next := none, flags := 0, data_size := 0 }
  hdr := fun _ =>
    { status := 0, errorOffset := 0, id_low := 0, id_hi := 0, flags := 0, length := 0,
      ptr_pa_low := 0, ptr_pa_hi := 0, offset := 0, dxContext := 0, mustBeZero := 0 }
  cmb := fun _ _ => 0
  cb_queue_info := { first := none, last := none }
  cb_next_id := { low := 0, hi := 0 }
  cb_support := true
  cb_context0 := true
  ST_FB_invalid := false
  fence_present := 0
  fence_render := 0
  fence_update := 0
  fifoMem := fun _ => 0
  ctlbuf := 0
  cmdbuf := 1
  critical := 0
  tick := 0
  trace := []

/-- Descriptors in which block 11 is pending and every other block is completed. -/
def hdr_one_pending : Ptr → SVGACBHeader :=
  fun p => { zero_state.hdr p with status := if p = 11 then 0 else 1 }

/-- Category flag `c` is set in the delivery flags `f`. -/
def has_flag (f c : Nat) : Prop := f &&& c ≠ 0

/-- The category-conflict rule: a submission with flags `fB` conflicts with queued
work with flags `fA` when `fB` is a presentation and `fA` a presentation or a
rendering, or `fB` is a rendering or an update and `fA` a rendering or an update. -/
def conflicts (K : Consts) (fB fA : Nat) : Prop :=
  (has_flag fB K.SVGA_CB_PRESENT ∧ (has_flag fA K.SVGA_CB_PRESENT ∨ has_flag fA K.SVGA_CB_RENDER)) ∨
  (has_flag fB K.SVGA_CB_RENDER ∧ (has_flag fA K.SVGA_CB_RENDER ∨ has_flag fA K.SVGA_CB_UPDATE)) ∨
  (has_flag fB K.SVGA_CB_UPDATE ∧ (has_flag fA K.SVGA_CB_RENDER ∨ has_flag fA K.SVGA_CB_UPDATE))

/-- The conflict table as the specification words it, in the internal tag
constants: presentation conflicts with presentation and rendering, rendering with
rendering and update, update with rendering and update. -/
def flags_to_cbq_check_spec (K : Consts) (cb_flags : Nat) : Nat :=
  (if cb_flags &&& K.SVGA_CB_PRESENT ≠ 0 then CBQ_PRESENT ||| CBQ_RENDER else 0) |||
  (if cb_flags &&& K.SVGA_CB_RENDER ≠ 0 then CBQ_RENDER ||| CBQ_UPDATE else 0) |||
  (if cb_flags &&& K.SVGA_CB_UPDATE ≠ 0 then CBQ_RENDER ||| CBQ_UPDATE else 0)

/-- Byte offset at which the specification expects payload word `i` of a copy that
starts at cursor `c` in the ring `[min, max)`. -/
def ring_pos (min max c i : Nat) : Nat :=
  min + ((c - min + 4 * i) % (max - min))

/-- The stores the specification expects from copying the first `n` payload words
(most recent first): word `i` goes to byte offset `ring_pos min max c i`, then the
cursor register receives `ring_pos min max c (i + 1)`. -/
def fifo_copy_stores (K : Consts) (payload : Nat → Nat) (min max c : Nat) : Nat → List Event
  | 0 => []
  | i + 1 =>
    Event.FifoStore K.SVGA_FIFO_NEXT_CMD (ring_pos min max c (i + 1)) ::
      Event.FifoStore (ring_pos min max c i / sizeof_DWORD) (payload i) ::
        fifo_copy_stores K payload min max c i

/-- A FIFO ring `[16, 32)` with the cursor at byte offset 24, and a payload of three
words in block 5. -/
def ring_state : State :=
  { zero_state with
    fifoMem := fun i => if i = 0 then 16 else if i = 1 then 32 else if i = 2 then 24 else 0
    cmb := fun p i => if p = 5 then 100 + i else 0 }

/-- The device answers every control descriptor in `ctl` within `n` further
interactions: from any moment on, one of the next `n + 1` interactions stores a
status other than `SVGA_CB_STATUS_NONE` into it. -/
def ctl_responsive (K : Consts) (E : Env) (ctl : Ptr) (n : Nat) : Prop :=
  ∀ t, ∃ k, k ≤ n ∧ ∃ v, E.dev_status (t + k) ctl = some v ∧ v ≠ K.SVGA_CB_STATUS_NONE

/-- The part of the state that neither the queue nor the context life cycle nor the
device touches. -/
structure Stable (s t : State) : Prop where
  ST_FB_invalid : t.ST_FB_invalid = s.ST_FB_invalid
  fence_present : t.fence_present = s.fence_present
  fence_render : t.fence_render = s.fence_render
  fence_update : t.fence_update = s.fence_update
  fifoMem : t.fifoMem = s.fifoMem
  ctlbuf : t.ctlbuf = s.ctlbuf
  cmdbuf : t.cmdbuf = s.cmdbuf
  critical : t.critical = s.critical

/-- What `SVGA_CB_ctr` may change: the descriptors, the clock, the trace and the
submission counter. -/
structure CtrFrame (s t : State) : Prop where
  stable : Stable s t
  node : t.node = s.node
  cmb : t.cmb = s.cmb
  cb_queue_info : t.cb_queue_info = s.cb_queue_info
  cb_support : t.cb_support = s.cb_support
  cb_context0 : t.cb_context0 = s.cb_context0

/-- What an interaction with the device may change: the descriptors, the clock
and the trace. -/
structure DevFrame (s t : State) : Prop where
  ctr : CtrFrame s t
  cb_next_id : t.cb_next_id = s.cb_next_id

/-- What `SVGA_CB_stop`, `SVGA_CB_start` and `SVGA_CB_restart` may change: the
descriptors, the payload of the control buffer, the clock, the trace, the
submission counter, the two context flags and the head and tail of the chain. -/
structure LifeFrame (s t : State) : Prop where
  stable : Stable s t
  node : t.node = s.node

/-- A device that completes every descriptor at once. -/
def prompt_env : Env where
  dev_status := fun _ _ => some 1
  fence_get := fun t => t + 1
  fence_passed := fun _ => 0
  carry_flag := fun _ => false
  page_alloc := fun _ => none

/-- Descriptors in which block 10 carries a fault (status 3) and every other block
is pending. -/
def hdr_one_fault : Ptr → SVGACBHeader :=
  fun p => { zero_state.hdr p with status := if p = 10 then 3 else 0 }

/-- A queue holding the faulted block 10 followed by the pending block 11. -/
def fault_state : State :=
  { insert_all [(10, 1), (11, 2)] zero_state with hdr := hdr_one_fault }

/-- The queue of `fault_state` when command buffers are not supported. -/
def fault_state_unsupported : State :=
  { fault_state with cb_support := false }

/-- A device that reports a fault (status 3) for block 10 and completes every other
descriptor at once; the last fence it has passed is 5. -/
def faulting_env : Env where
  dev_status := fun _ p => if p = 10 then some 3 else some 1
  fence_get := fun t => t + 1
  fence_passed := fun _ => 5
  carry_flag := fun _ => false
  page_alloc := fun _ => none

/-- A status handle with arbitrary contents. -/
def blank_status : SVGA_CMB_status_t :=
  { qStatus := none, sStatus := 0, fifo_fence_used := 77, fifo_fence_last := 0 }

/-- Events that only the FIFO transport produces: stores into the FIFO memory and
fence waits. -/
def Event.is_ring : Event → Bool
  | Event.FifoStore _ _ => true
  | Event.FenceWait _ => true
  | _ => false

/-- Register writes. -/
def Event.is_reg : Event → Bool
  | Event.WriteReg _ _ => true
  | _ => false

/-- The trace of `t` is the trace of `s` followed by further events, all of which
satisfy `P`. -/
def TraceExt (P : Event → Bool) (s t : State) : Prop :=
  ∃ ev, t.trace = ev ++ s.trace ∧ ∀ e ∈ ev, P e = true

/-- What the command-buffer side (scan pass, context restart, dispatch) leaves
alone: the stable part of the state, and it adds no FIFO store and no fence wait
to the trace. -/
structure CBFrame (s t : State) : Prop where
  stable : Stable s t
  trace : TraceExt (fun e => !e.is_ring) s t

/-- What the FIFO transport leaves alone: the queue (links, head and tail), the
submission counter, the context flags and the buffers; it adds no register write
to the trace. -/
structure FifoFrame (s t : State) : Prop where
  node : t.node = s.node
  cb_queue_info : t.cb_queue_info = s.cb_queue_info
  cb_next_id : t.cb_next_id = s.cb_next_id
  cb_support : t.cb_support = s.cb_support
  cb_context0 : t.cb_context0 = s.cb_context0
  ctlbuf : t.ctlbuf = s.ctlbuf
  cmdbuf : t.cmdbuf = s.cmdbuf
  critical : t.critical = s.critical
  trace : TraceExt (fun e => !e.is_reg) s t

/-- The device reports no fault: every status it stores is at most
`SVGA_CB_STATUS_COMPLETED`. -/
def no_fault_device (K : Consts) (E : Env) : Prop :=
  ∀ t p v, E.dev_status t p = some v → v ≤ K.SVGA_CB_STATUS_COMPLETED

/-- What polling a queue without faults leaves alone: everything but the
descriptor statuses, the successor pointers, the head and tail of the chain and
the clock. -/
structure QuietFrame (s t : State) : Prop where
  stable : Stable s t
  trace : t.trace = s.trace
  cb_next_id : t.cb_next_id = s.cb_next_id
  cb_support : t.cb_support = s.cb_support
  cb_context0 : t.cb_context0 = s.cb_context0
  cmb : t.cmb = s.cmb
  node_flags : ∀ p, (t.node p).flags = (s.node p).flags

/-- A queue holding the completed block 11 (tagged update) and the pending block 12
(tagged rendering). -/
def busy_state : State :=
  { insert_all [(11, 4), (12, 2)] zero_state with
    hdr := fun p => { zero_state.hdr p with status := if p = 12 then 0 else 1 } }

/-- The device only retires descriptors: every status it stores is at least
`SVGA_CB_STATUS_COMPLETED`. -/
def retiring_device (K : Consts) (E : Env) : Prop :=
  ∀ t p v, E.dev_status t p = some v → K.SVGA_CB_STATUS_COMPLETED ≤ v

/-- What the scan pass, the waits and the context life cycle guarantee whenever they
return: `cb_support` is not switched on, the two driver buffers stay where they are,
and of every block other than the control buffer the payload is unchanged and the
descriptor changes in its status only; with a device that only retires descriptors,
a descriptor that is not pending does not become pending again. -/
structure WaitFrame (K : Consts) (E : Env) (s t : State) : Prop where
  support : t.cb_support = true → s.cb_support = true
  ctlbuf : t.ctlbuf = s.ctlbuf
  cmdbuf : t.cmdbuf = s.cmdbuf
  payload : ∀ p, p ≠ s.ctlbuf → t.cmb p = s.cmb p
  descriptor : ∀ p, p ≠ s.ctlbuf → ∃ v, t.hdr p = { s.hdr p with status := v }
  retired : retiring_device K E → K.SVGA_CB_STATUS_COMPLETED ≤ K.SVGA_CB_STATUS_QUEUE_FULL →
    ∀ p, K.SVGA_CB_STATUS_COMPLETED ≤ (s.hdr p).status →
      K.SVGA_CB_STATUS_COMPLETED ≤ (t.hdr p).status

/-- The state `zero_state` with context 0 disabled. -/
def disabled_state : State :=
  { zero_state with cb_context0 := false }

/-- The state `zero_state` with context 0 disabled and command buffers not supported. -/
def unsupported_state : State :=
  { zero_state with cb_context0 := false, cb_support := false }

/-- A device that answers every descriptor with an error (status 3). -/
def rejecting_env : Env where
  dev_status := fun _ _ => some 3
  fence_get := fun t => t + 1
  fence_passed := fun _ => 0
  carry_flag := fun _ => false
  page_alloc := fun _ => none

/-- The operations of the engine, as the rest of the driver may call them one after
the other. -/
inductive Op where
  | start
  | stop
  | restart
  | scan (tracked : Option Ptr)
  | submit_critical (cmb : Ptr) (cmb_size : Nat) (status : Option SVGA_CMB_status_t)
      (flags DXCtxId : Nat)
  | submit (cmb : Ptr) (cmb_size : Nat) (status : Option SVGA_CMB_status_t)
      (flags DXCtxId : Nat)
  | wait_cmdbuf
  | send_cmdbuf (cmdsize flags dx : Nat)
  | wait_update
  | flush
  | alloc (datasize : Nat)
  | free (cmb : Ptr)

/-- Run one operation; `none` when it does not return within `fuel`. -/
def run_op (K : Consts) (E : Env) (fuel : Nat) : Op → State → Option State
  | Op.start, s => SVGA_CB_start K E fuel s
  | Op.stop, s => SVGA_CB_stop K E fuel s
  | Op.restart, s => SVGA_CB_restart K E fuel s
  | Op.scan tracked, s => (CB_queue_check_inline K E fuel tracked s).map fun r => r.2
  | Op.submit_critical cmb cmb_size status flags dx, s =>
    (SVGA_CMB_submit_critical K E fuel cmb cmb_size status flags dx s).map fun r => r.2
  | Op.submit cmb cmb_size status flags dx, s =>
    (SVGA_CMB_submit K E fuel cmb cmb_size status flags dx s).map fun r => r.2
  | Op.wait_cmdbuf, s => wait_for_cmdbuf K E fuel s
  | Op.send_cmdbuf cmdsize flags dx, s => submit_cmdbuf K E fuel cmdsize flags dx s
  | Op.wait_update, s => SVGA_CMB_wait_update K E fuel s
  | Op.flush, s => SVGA_Flush_CB K E fuel s
  | Op.alloc datasize, s => some (SVGA_CMB_alloc_size K E datasize s).2
  | Op.free cmb, s => SVGA_CMB_free K E fuel cmb s

/-- Run a sequence of operations, each on the state the previous one left. -/
def run_ops (K : Consts) (E : Env) (fuel : Nat) : List Op → State → Option State
  | [], s => some s
  | op :: ops, s =>
    match run_op K E fuel op s with
    | none => none
    | some t => run_ops K E fuel ops t

/-- A sequence of operations used to exercise the engine: a restart, a submission of
the three payload words of block 5, a start, a flush and a release. -/
def sample_ops : List Op :=
  [Op.restart, Op.submit 5 12 none 0 0, Op.start, Op.flush, Op.free 5]

/-- The state `zero_state` with the low half of the submission counter at its
largest value. -/
def wrap_state : State :=
  { zero_state with cb_next_id := { low := 0xFFFFFFFF, hi := 0 } }

/-- The device of `idle_env` when the processor enters `SVGA_cb_id_inc` with the
carry flag set. -/
def carry_env : Env :=
  { idle_env with carry_flag := fun _ => true }

/-- Two asynchronous submissions in a row: block 10, then block 11, sixteen bytes
each, no flags, no status handle. -/
def two_submissions : List Op :=
  [Op.submit_critical 10 16 none 0 0, Op.submit_critical 11 16 none 0 0]

/-- The payload `after` is the payload `before` with a fence command appended at
word `d`: word `d` holds `SVGA_CMD_FENCE`, word `d + 1` holds `token`, and every
other word is as it was. -/
def fence_appended (K : Consts) (d token : Nat) (before after : Nat → Nat) : Prop :=
  after d = K.SVGA_CMD_FENCE ∧ after (d + 1) = token ∧
    ∀ i, i ≠ d → i ≠ d + 1 → after i = before i

/-- The state `zero_state` in which the descriptor of block 10 still holds the
length 99 of an earlier submission. -/
def stale_state : State :=
  { zero_state with hdr := fun p => { zero_state.hdr p with length := if p = 10 then 99 else 0 } }

/-- What the conflict check of the FIFO transport may do to the fence tracker: the
payloads are unchanged and each slot keeps its value or has been cleared to 0. -/
structure SlotsKept (s t : State) : Prop where
  cmb : t.cmb = s.cmb
  fence_present : t.fence_present = s.fence_present ∨ t.fence_present = 0
  fence_render : t.fence_render = s.fence_render ∨ t.fence_render = 0
  fence_update : t.fence_update = s.fence_update ∨ t.fence_update = 0

/-! ## The software cursor (`dibcall.c`) -/

/-- Arithmetic on `LONG`: the result wrapped to signed 32 bits. -/
def to_LONG (z : Int) : Int :=
  (z + 2 ^ 31) % 2 ^ 32 - 2 ^ 31

/-- The function `update_cursor` of `dibcall.c` (software cursor).  The globals
`wBpp`, `wScreenX`, `wScreenY` (of type `WORD`, declared outside `src/`) and the
statics `cursorX`, ..., `cursorHY` are its inputs; the result is the argument list
of the call `SVGA_Update(x, y, w, h)`, or `none` when the function returns without
that call. -/
def update_cursor (wBpp wScreenX wScreenY : Nat)
    (cursorX cursorY cursorW cursorH cursorHX cursorHY : Int) : Option (Int × Int × Int × Int) :=
  if wBpp = 32 then
    let x := to_LONG (cursorX - cursorHX)
    let y := to_LONG (cursorY - cursorHY)
    let w := cursorW
    let h := cursorH
    let x := if x < 0 then 0 else x
    let y := if y < 0 then 0 else y
    let w := if to_LONG (x + w) > (wScreenX : Int) then to_LONG ((wScreenX : Int) - x) else w
    let y := if to_LONG (y + h) > (wScreenY : Int) then to_LONG ((wScreenY : Int) - h) else y
    if w > 0 ∧ h > 0 then some (x, y, w, h) else none
  else none

/-- A queue holding the pending block 12, tagged as `flags_to_cbq` tags an update
submission. -/
def update_queued_state : State :=
  insert_all [(12, flags_to_cbq svga svga.SVGA_CB_UPDATE)] zero_state

/-- The state `unsupported_state` with the fence 7 recorded in the update slot. -/
def update_fenced_state : State :=
  { unsupported_state with fence_update := 7 }

/-- The cursor the FIFO copy loop stores after the word written at byte offset `c`:
`c + 4`, or `min` when that reaches `max` (the statements `nextCmd += sizeof(DWORD)`
and `if(nextCmd >= max) nextCmd = min` of the loop). -/
def ring_next (min max c : Nat) : Nat :=
  if (c + sizeof_DWORD) % 2 ^ 32 ≥ max then min else (c + sizeof_DWORD) % 2 ^ 32

/-- The events `ev` (most recent first) are the stores of a copy that stays in the
ring `[min, max)`: they come in pairs, a payload word stored at a word-aligned byte
offset inside the ring, then `fifoMem[SVGA_FIFO_NEXT_CMD]` set to a word-aligned
cursor inside the ring. -/
def ring_safe (K : Consts) (min max : Nat) : List Event → Prop
  | [] => True
  | Event.FifoStore i v :: Event.FifoStore j _ :: rest =>
    (i = K.SVGA_FIFO_NEXT_CMD ∧ 4 ∣ v ∧ min ≤ v ∧ v < max) ∧
      (∃ off, j = off / sizeof_DWORD ∧ 4 ∣ off ∧ min ≤ off ∧ off < max) ∧
      ring_safe K min max rest
  | _ => False

/-- Well-formedness of the queue: the chain from `cb_queue_info.first` is finite
(the walk ends within some number of steps) and acyclic (no block occurs twice),
`cb_queue_info.last` is `NULL` if and only if `cb_queue_info.first` is `NULL`, and
otherwise `cb_queue_info.last` is the final node of the chain and its `next`
pointer is `NULL`. -/
def well_formed (s : State) : Prop :=
  ∃ fuel l, queue_chain fuel s = some l ∧ l.Nodup ∧
    (s.cb_queue_info.last = none ↔ s.cb_queue_info.first = none) ∧
    ∀ q, s.cb_queue_info.last = some q → l.getLast? = some q ∧ (s.node q).next = none

/-- The device accepts every control descriptor: each status it stores in the
control buffer `ctl` is `SVGA_CB_STATUS_COMPLETED`. -/
def ctl_confirms (K : Consts) (E : Env) (ctl : Ptr) : Prop :=
  ∀ τ w, E.dev_status τ ctl = some w → w = K.SVGA_CB_STATUS_COMPLETED

/-- The relation between the chain and the two context flags: context 0 is enabled
only while command buffers are supported, and a non-empty chain implies that
context 0 is enabled. -/
def chain_enabled (s : State) : Prop :=
  (s.cb_context0 = true → s.cb_support = true) ∧
    (s.cb_queue_info.first ≠ none → s.cb_context0 = true)

/-- What a step that does not run the context life cycle leaves alone: the two
context flags and the place of the control buffer. -/
structure FlagsKept (s t : State) : Prop where
  cb_support : t.cb_support = s.cb_support
  cb_context0 : t.cb_context0 = s.cb_context0
  ctlbuf : t.ctlbuf = s.ctlbuf

/-- A device that reports a fault (status 3) for block 12 and completes every other
descriptor, the control descriptors included, at once. -/
def late_fault_env : Env where
  dev_status := fun _ p => if p = 12 then some 3 else some 1
  fence_get := fun t => t + 1
  fence_passed := fun _ => 0
  carry_flag := fun _ => false
  page_alloc := fun _ => none

/-! ## Lemmas on chains -/

theorem seg_congr {nx nx2 : Ptr → Option Ptr} :
    ∀ (l : List Ptr) (o e : Option Ptr), (∀ p ∈ l, nx2 p = nx p) → Seg nx o l e → Seg nx2 o l e
  | [], _, _, _, h => h
  | p :: l, o, e, hag, h => by
    refine ⟨h.1, ?_⟩
    rw [hag p (List.mem_cons_self _ _)]
    exact seg_congr l _ _ (fun q hq => hag q (List.mem_cons_of_mem _ hq)) h.2

theorem seg_append {nx : Ptr → Option Ptr} :
    ∀ (l1 l2 : List Ptr) (o e : Option Ptr),
      Seg nx o (l1 ++ l2) e ↔ ∃ m, Seg nx o l1 m ∧ Seg nx m l2 e
  | [], l2, o, e => by
    constructor
    · intro h; exact ⟨o, rfl, h⟩
    · rintro ⟨m, h1, h2⟩
      have : o = m := h1
      subst this; exact h2
  | p :: l1, l2, o, e => by
    constructor
    · intro h
      obtain ⟨m, h1, h2⟩ := (seg_append l1 l2 (nx p) e).1 h.2
      exact ⟨m, ⟨h.1, h1⟩, h2⟩
    · rintro ⟨m, h1, h2⟩
      exact ⟨h1.1, (seg_append l1 l2 (nx p) e).2 ⟨m, h1.2, h2⟩⟩

theorem seg_snoc {nx : Ptr → Option Ptr} (l : List Ptr) (p : Ptr) (o e : Option Ptr) :
    Seg nx o (l ++ [p]) e ↔ Seg nx o l (some p) ∧ nx p = e := by
  rw [seg_append]
  constructor
  · rintro ⟨m, h1, h2, h3⟩
    subst h2
    exact ⟨h1, h3⟩
  · rintro ⟨h1, h2⟩
    exact ⟨some p, h1, rfl, h2⟩

theorem chain_from_of_seg {nx : Ptr → Option Ptr} :
    ∀ (l : List Ptr) (o : Option Ptr) (fuel : Nat), Seg nx o l none → l.length ≤ fuel →
      chain_from nx fuel o = some l
  | [], o, fuel, h, _ => by
    have : o = none := h
    subst this
    cases fuel <;> rfl
  | p :: l, o, fuel, h, hf => by
    obtain ⟨h1, h2⟩ := h
    subst h1
    cases fuel with
    | zero => simp at hf
    | succ fuel =>
      have hl : l.length ≤ fuel := by simpa using hf
      simp [chain_from, chain_from_of_seg l (nx p) fuel h2 hl]

theorem queue_chain_of_queueIs {s : State} {l : List Ptr} (h : QueueIs s l) (fuel : Nat)
    (hf : l.length ≤ fuel) : queue_chain fuel s = some l :=
  chain_from_of_seg l _ fuel h.1 hf

/-! ## Lemmas on insertion -/

theorem insert_queueIs (s : State) (l : List Ptr) (cb : Ptr) (flags : Nat)
    (h : QueueIs s l) (hn : cb ∉ l) :
    QueueIs (CB_queue_insert cb flags s) (l ++ [cb]) := by
  obtain ⟨h1, h2, h3⟩ := h
  rcases List.eq_nil_or_concat l with rfl | ⟨l', q, hl⟩
  · simp at h2
    refine ⟨?_, ?_, by simp⟩
    · simp [CB_queue_insert, State.setNode, h2, Seg, State.next]
    · simp [CB_queue_insert, State.setNode, h2]
  · rw [List.concat_eq_append] at hl
    subst hl
    simp at h2 hn
    have hq : q ∉ l' := by
      intro hq
      have := List.nodup_append.1 h3
      exact this.2.2 hq (List.mem_singleton_self q) 
    obtain ⟨hcb, hcq⟩ := hn
    rw [seg_snoc] at h1
    refine ⟨?_, ?_, ?_⟩
    · rw [seg_snoc, seg_snoc]
      refine ⟨⟨?_, ?_⟩, ?_⟩
      · have hf : (CB_queue_insert cb flags s).cb_queue_info.first = s.cb_queue_info.first := by
          simp [CB_queue_insert, State.setNode, h2]
        rw [hf]
        refine seg_congr l' _ _ ?_ h1.1
        intro p hp
        have hpq : p ≠ q := fun e => hq (e ▸ hp)
        have hpc : p ≠ cb := fun e => hcb (e ▸ hp)
        simp [CB_queue_insert, State.setNode, h2, State.next, hpq, hpc]
      · simp [CB_queue_insert, State.setNode, h2, State.next]
      · have : cb ≠ q := hcq
        simp [CB_queue_insert, State.setNode, h2, State.next, this]
    · simp [CB_queue_insert, State.setNode, h2]
    · rw [List.nodup_append]
      refine ⟨h3, by simp, ?_⟩
      intro a ha hb
      simp at hb
      subst hb
      simp at ha
      rcases ha with ha | ha
      · exact hcb ha
      · exact hcq ha

theorem insert_frame (s : State) (cb : Ptr) (flags : Nat) :
    (CB_queue_insert cb flags s).hdr = s.hdr ∧
    (∀ p, p ≠ cb → ((CB_queue_insert cb flags s).node p).flags = (s.node p).flags) ∧
    ((CB_queue_insert cb flags s).node cb).flags = flags := by
  refine ⟨?_, ?_, ?_⟩
  · unfold CB_queue_insert
    cases h : s.cb_queue_info.last <;> simp [State.setNode, h]
  · intro p hp
    unfold CB_queue_insert
    cases h : s.cb_queue_info.last <;> simp [State.setNode, h, hp]
    split
    · rename_i h2; subst h2; simp [hp]
    · rfl
  · unfold CB_queue_insert
    cases h : s.cb_queue_info.last <;> simp [State.setNode, h]
    split
    · rename_i h2; subst h2; simp
    · rfl

/-! ## Lemmas on the scan pass -/

theorem scanFrame_refl (s : State) : ScanFrame s s := ⟨rfl, fun _ => ⟨rfl, rfl⟩⟩

theorem scanFrame_trans {s t u : State} (h1 : ScanFrame s t) (h2 : ScanFrame t u) :
    ScanFrame s u := by
  obtain ⟨a1, b1⟩ := h1
  obtain ⟨a2, b2⟩ := h2
  refine ⟨?_, fun p => ⟨(b2 p).1.trans (b1 p).1, (b2 p).2.trans (b1 p).2⟩⟩
  rw [a2, a1]

theorem check_loop_spec (K : Consts) (tracked : Option Ptr) :
    ∀ (l pre : List Ptr) (fuel : Nat) (item last : Option Ptr) (iq nr : Bool) (s : State),
      Seg s.next s.cb_queue_info.first pre item → last = pre.getLast? →
      Seg s.next item l none → (pre ++ l).Nodup → l.length ≤ fuel →
      ∃ t, CB_queue_check_loop K tracked fuel item last iq nr s =
          some (t, (pre ++ l.filter (pending K s)).getLast?,
            iq || (l.filter (pending K s)).any (fun p => decide (tracked = some p)),
            nr || l.any (faulted K s)) ∧
        Seg t.next t.cb_queue_info.first (pre ++ l.filter (pending K s)) none ∧
        ScanFrame s t := by
  intro l
  induction l with
  | nil =>
    intro pre fuel item last iq nr s hpre hlast hl _ _
    have : item = none := hl
    subst this
    refine ⟨s, ?_, ?_, scanFrame_refl s⟩
    · cases fuel <;> simp [CB_queue_check_loop, hlast]
    · simpa using hpre
  | cons p l ih =>
    intro pre fuel item last iq nr s hpre hlast hl hnd hf
    obtain ⟨hitem, hl⟩ := hl
    subst hitem
    cases fuel with
    | zero => simp at hf
    | succ fuel =>
      have hlen : l.length ≤ fuel := by simpa using hf
      by_cases hst : (s.hdr p).status ≥ K.SVGA_CB_STATUS_COMPLETED
      · -- the node is retired
        have hpend : pending K s p = false := by simp [pending]; exact hst
        have hpp : p ∉ pre := fun hp => (List.nodup_append.1 hnd).2.2 hp (List.mem_cons_self _ _)
        have hpl : p ∉ l := (List.nodup_cons.1 (List.nodup_append.1 hnd).2.1).1
        have hnd2 : (pre ++ l).Nodup := by
          rw [List.nodup_append] at hnd ⊢
          exact ⟨hnd.1, (List.nodup_cons.1 hnd.2.1).2,
            fun a ha hb => hnd.2.2 ha (List.mem_cons_of_mem _ hb)⟩
        -- what remains to be done once the node is unlinked
        have fin : ∀ s1 : State, (s1.node p).next = s.next p →
            Seg s1.next s1.cb_queue_info.first pre (s.next p) →
            Seg s1.next (s.next p) l none → ScanFrame s s1 → s1.hdr = s.hdr →
            ∃ t, CB_queue_check_loop K tracked fuel (s1.node p).next last iq
                (if (s1.hdr p).status > K.SVGA_CB_STATUS_COMPLETED then true else nr) s1 =
              some (t, (pre ++ (p :: l).filter (pending K s)).getLast?,
                iq || ((p :: l).filter (pending K s)).any (fun p => decide (tracked = some p)),
                nr || (p :: l).any (faulted K s)) ∧
              Seg t.next t.cb_queue_info.first (pre ++ (p :: l).filter (pending K s)) none ∧
              ScanFrame s t := by
          intro s1 hnext hseg1 hseg2 hfr1 hhdr
          have hpe : pending K s1 = pending K s := by
            funext a; simp [pending, hhdr]
          have hfa : faulted K s1 = faulted K s := by
            funext a; simp [faulted, hhdr]
          obtain ⟨t, ht, hsegt, hfrt⟩ := ih pre fuel (s.next p) last iq
            (if (s1.hdr p).status > K.SVGA_CB_STATUS_COMPLETED then true else nr) s1
            hseg1 hlast hseg2 hnd2 hlen
          refine ⟨t, ?_, ?_, scanFrame_trans hfr1 hfrt⟩
          · rw [hnext, ht, hpe, hfa]
            simp only [List.filter_cons, hpend, List.any_cons, faulted, hhdr]
            by_cases hgt : (s.hdr p).status > K.SVGA_CB_STATUS_COMPLETED
            · simp [hgt]
            · simp [hgt]
          · rw [hpe] at hsegt
            simpa [List.filter_cons, hpend] using hsegt
        rcases List.eq_nil_or_concat pre with hp0 | ⟨pre0, q, hp0⟩
        · subst hp0
          simp at hlast
          subst hlast
          simp only [CB_queue_check_loop, hst, if_true]
          exact fin { s with cb_queue_info := { s.cb_queue_info with first := (s.node p).next } }
            rfl (show _ = _ from rfl) hl ⟨rfl, fun _ => ⟨rfl, rfl⟩⟩ rfl
        · rw [List.concat_eq_append] at hp0
          subst hp0
          have hlast2 : last = some q := by simp [hlast]
          have hqp : p ≠ q := fun e => hpp (by simp [e])
          have hq0 : q ∉ pre0 := fun hq =>
            (List.nodup_append.1 (List.nodup_append.1 hnd).1).2.2 hq (List.mem_singleton_self q)
          have hql : q ∉ l := fun hq =>
            (List.nodup_append.1 hnd).2.2 (by simp) (List.mem_cons_of_mem _ hq)
          simp only [CB_queue_check_loop, hst, if_true, hlast2]
          rw [← hlast2]
          refine fin _ ?_ ?_ ?_ ⟨rfl, ?_⟩ rfl
          · simp [State.setNode, State.next, hqp]
          · rw [seg_snoc] at hpre ⊢
            refine ⟨seg_congr pre0 _ _ ?_ hpre.1, ?_⟩
            · intro a ha
              have : a ≠ q := fun e => hq0 (e ▸ ha)
              simp [State.setNode, State.next, this]
            · simp [State.setNode, State.next]
          · refine seg_congr l _ _ ?_ hl
            intro a ha
            have : a ≠ q := fun e => hql (e ▸ ha)
            simp [State.setNode, State.next, this]
          · intro a
            by_cases ha : a = q
            · subst ha; simp [State.setNode]
            · simp [State.setNode, ha]
      · have hpend : pending K s p = true := by
          simp [pending]; exact Nat.lt_of_not_le hst
        obtain ⟨t, ht, hsegt, hfrt⟩ := ih (pre ++ [p]) fuel (s.next p) (some p)
          (if tracked = some p then true else iq) nr s
          (by rw [seg_snoc]; exact ⟨hpre, rfl⟩) (by simp) hl (by simpa using hnd) hlen
        have hfl : faulted K s p = false := by
          simp [faulted]; exact Nat.le_of_lt (Nat.lt_of_not_le hst)
        refine ⟨t, ?_, ?_, hfrt⟩
        · simp only [CB_queue_check_loop, hst, if_false]
          rw [show (s.node p).next = s.next p from rfl, ht]
          simp only [List.filter_cons, hpend, List.any_cons, hfl, if_true, List.append_assoc,
            List.singleton_append, Bool.or_false]
          by_cases htr : tracked = some p
          · simp [htr]
          · simp [htr]
        · simpa [List.filter_cons, hpend] using hsegt

theorem check_inline_no_fault (K : Consts) (E : Env) (fuel : Nat) (tracked : Option Ptr)
    (s : State) (l : List Ptr) (hq : QueueIs s l) (hnf : ∀ p ∈ l, faulted K s p = false)
    (hf : l.length ≤ fuel) :
    ∃ t, CB_queue_check_inline K E fuel tracked s =
        some (scan_result tracked (l.filter (pending K s)), t) ∧
      QueueIs t (l.filter (pending K s)) ∧ ScanFrame s t := by
  obtain ⟨h1, h2, h3⟩ := hq
  obtain ⟨t, ht, hseg, hfr⟩ := check_loop_spec K tracked l [] fuel s.cb_queue_info.first none
    false false s rfl rfl h1 (by simpa using h3) hf
  have hany : l.any (faulted K s) = false := by
    rw [List.any_eq_false]
    intro p hp
    simp [hnf p hp]
  simp only [List.nil_append, Bool.false_or, hany] at ht hseg
  refine ⟨{ t with cb_queue_info :=
      { t.cb_queue_info with last := (l.filter (pending K s)).getLast? } }, ?_, ?_, ?_⟩
  · simp only [CB_queue_check_inline, ht]
    generalize l.filter (pending K s) = rest at hseg
    cases rest with
    | nil =>
      have hfirst : t.cb_queue_info.first = none := hseg
      simp [scan_result, hfirst]
    | cons a rest =>
      have hfirst : t.cb_queue_info.first = some a := hseg.1
      cases tracked with
      | none => simp [scan_result, hfirst]
      | some c =>
        by_cases hc : c = a
        · simp [scan_result, hfirst, hc]
        · by_cases hc2 : c ∈ rest
          · simp [scan_result, hfirst, hc, hc2]
          · simp [scan_result, hfirst, hc, hc2]
  · exact ⟨hseg, rfl, h3.filter _⟩
  · obtain ⟨a, b⟩ := hfr
    refine ⟨?_, b⟩
    rw [a]

theorem queueIs_empty (s : State) (h : s.cb_queue_info = { first := none, last := none }) :
    QueueIs s [] := by
  refine ⟨?_, ?_, List.nodup_nil⟩
  · show s.cb_queue_info.first = none
    rw [h]
  · rw [h]; rfl

theorem insert_all_queueIs :
    ∀ (cbs : List (Ptr × Nat)) (s : State) (l : List Ptr), QueueIs s l →
      (l ++ cbs.map Prod.fst).Nodup → QueueIs (insert_all cbs s) (l ++ cbs.map Prod.fst)
  | [], s, l, h, _ => by simpa [insert_all] using h
  | c :: cbs, s, l, h, hnd => by
    have hc : c.1 ∉ l := fun hc =>
      (List.nodup_append.1 hnd).2.2 hc (by simp)
    have := insert_all_queueIs cbs (CB_queue_insert c.1 c.2 s) (l ++ [c.1])
      (insert_queueIs s l c.1 c.2 h hc) (by simpa using hnd)
    simpa [insert_all] using this

/-! ## Queue order (C1) -/

/-- C1: insert distinct descriptors into an empty queue, let the device assign
statuses none of which is above `SVGA_CB_STATUS_COMPLETED`, and run one
`CB_queue_check_inline` pass: the pass returns, and the chain then reachable from
`cb_queue_info.first` is exactly the inserted descriptors whose status is below
`SVGA_CB_STATUS_COMPLETED`, in insertion order. -/
theorem C1_queue_order (K : Consts) (E : Env) (fuel : Nat) (tracked : Option Ptr)
    (s0 : State) (cbs : List (Ptr × Nat)) (h : Ptr → SVGACBHeader)
    (hempty : s0.cb_queue_info = { first := none, last := none })
    (hdistinct : (cbs.map Prod.fst).Nodup)
    (hstatus : ∀ c ∈ cbs, (h c.1).status ≤ K.SVGA_CB_STATUS_COMPLETED)
    (hfuel : cbs.length ≤ fuel) :
    ∃ r t, CB_queue_check_inline K E fuel tracked { insert_all cbs s0 with hdr := h } = some (r, t) ∧
      queue_chain fuel t = some ((cbs.map Prod.fst).filter
        (fun p => decide ((h p).status < K.SVGA_CB_STATUS_COMPLETED))) := by
  have hq : QueueIs (insert_all cbs s0) (cbs.map Prod.fst) := by
    simpa using insert_all_queueIs cbs s0 [] (queueIs_empty s0 hempty) (by simpa using hdistinct)
  have hq2 : QueueIs { insert_all cbs s0 with hdr := h } (cbs.map Prod.fst) := hq
  obtain ⟨t, ht, hqt, _⟩ := check_inline_no_fault K E fuel tracked _ _ hq2
    (by
      intro p hp
      obtain ⟨c, hc, rfl⟩ := List.mem_map.1 hp
      simpa [faulted] using hstatus c hc)
    (by simpa using hfuel)
  refine ⟨_, t, ht, ?_⟩
  exact queue_chain_of_queueIs hqt fuel
    (le_trans (List.length_filter_le _ _) (by simpa using hfuel))

theorem C1_queue_order_witness :
    ∃ r t, CB_queue_check_inline svga idle_env 3 none
        { insert_all [(10, 1), (11, 2), (12, 4)] zero_state with hdr := hdr_one_pending } =
          some (r, t) ∧
      queue_chain 3 t = some [11] :=
  C1_queue_order svga idle_env 3 none zero_state [(10, 1), (11, 2), (12, 4)] hdr_one_pending
    rfl (by decide) (by decide) (by decide)

/-! ## Category conflicts (C2) -/

theorem and_ne_zero_of_testBit {x y : Nat} (i : Nat) (hx : x.testBit i = true)
    (hy : y.testBit i = true) : x &&& y ≠ 0 := by
  intro h
  have h2 : (x &&& y).testBit i = true := by simp [Nat.testBit_and, hx, hy]
  rw [h] at h2
  simp at h2

theorem cbq_bit_present (K : Consts) (f : Nat) (h : f &&& K.SVGA_CB_PRESENT ≠ 0) :
    (flags_to_cbq K f).testBit 0 = true ∧ (flags_to_cbq_check K f).testBit 0 = true ∧
      (flags_to_cbq_check K f).testBit 1 = true := by
  have b0 : Nat.testBit 1 0 = true := by decide
  have b1 : Nat.testBit 2 1 = true := by decide
  refine ⟨?_, ?_, ?_⟩ <;>
  · simp only [flags_to_cbq, flags_to_cbq_check, CBQ_PRESENT, CBQ_RENDER, h, ne_eq,
      not_false_eq_true, if_true]
    split_ifs <;> simp only [Nat.testBit_or, b0, b1, Bool.or_true, Bool.true_or]

theorem cbq_bit_render (K : Consts) (f : Nat) (h : f &&& K.SVGA_CB_RENDER ≠ 0) :
    (flags_to_cbq K f).testBit 1 = true ∧ (flags_to_cbq_check K f).testBit 1 = true ∧
      ∀ i, K.SVGA_CB_UPDATE.testBit i = true → (flags_to_cbq_check K f).testBit i = true := by
  have b1 : Nat.testBit 2 1 = true := by decide
  refine ⟨?_, ?_, ?_⟩
  · simp only [flags_to_cbq, CBQ_PRESENT, CBQ_RENDER, h, ne_eq, not_false_eq_true, if_true]
    split_ifs <;> simp only [Nat.testBit_or, b1, Bool.or_true, Bool.true_or]
  · simp only [flags_to_cbq_check, CBQ_PRESENT, CBQ_RENDER, h, ne_eq, not_false_eq_true,
      if_true]
    split_ifs <;> simp only [Nat.testBit_or, b1, Bool.or_true, Bool.true_or]
  · intro i hi
    simp only [flags_to_cbq_check, CBQ_PRESENT, CBQ_RENDER, h, ne_eq, not_false_eq_true,
      if_true]
    split_ifs <;> simp only [Nat.testBit_or, hi, Bool.or_true, Bool.true_or]

theorem cbq_bit_update (K : Consts) (f : Nat) (h : f &&& K.SVGA_CB_UPDATE ≠ 0) :
    (flags_to_cbq_check K f).testBit 1 = true ∧
      ∀ i, K.SVGA_CB_UPDATE.testBit i = true →
        (flags_to_cbq K f).testBit i = true ∧ (flags_to_cbq_check K f).testBit i = true := by
  have b1 : Nat.testBit 2 1 = true := by decide
  refine ⟨?_, ?_⟩
  · simp only [flags_to_cbq_check, CBQ_PRESENT, CBQ_RENDER, h, ne_eq, not_false_eq_true,
      if_true]
    simp only [Nat.testBit_or, b1, Bool.or_true, Bool.true_or]
  · intro i hi
    refine ⟨?_, ?_⟩
    · simp only [flags_to_cbq, h, ne_eq, not_false_eq_true, if_true]
      simp only [Nat.testBit_or, hi, Bool.or_true, Bool.true_or]
    · simp only [flags_to_cbq_check, h, ne_eq, not_false_eq_true, if_true]
      simp only [Nat.testBit_or, hi, Bool.or_true, Bool.true_or]

theorem tag_meets_check (K : Consts) (fB fA : Nat) (h : conflicts K fB fA) :
    flags_to_cbq K fA &&& flags_to_cbq_check K fB ≠ 0 := by
  have hU : ∀ f, has_flag f K.SVGA_CB_UPDATE → ∃ i, K.SVGA_CB_UPDATE.testBit i = true := by
    intro f hf
    apply Nat.ne_zero_implies_bit_true
    intro h0
    apply hf
    simp [h0]
  unfold conflicts at h
  rcases h with ⟨hB, hA | hA⟩ | ⟨hB, hA | hA⟩ | ⟨hB, hA | hA⟩
  · exact and_ne_zero_of_testBit 0 (cbq_bit_present K fA hA).1 (cbq_bit_present K fB hB).2.1
  · exact and_ne_zero_of_testBit 1 (cbq_bit_render K fA hA).1 (cbq_bit_present K fB hB).2.2
  · exact and_ne_zero_of_testBit 1 (cbq_bit_render K fA hA).1 (cbq_bit_render K fB hB).2.1
  · obtain ⟨i, hi⟩ := hU fA hA
    exact and_ne_zero_of_testBit i ((cbq_bit_update K fA hA).2 i hi).1
      ((cbq_bit_render K fB hB).2.2 i hi)
  · exact and_ne_zero_of_testBit 1 (cbq_bit_render K fA hA).1 (cbq_bit_update K fB hB).1
  · obtain ⟨i, hi⟩ := hU fA hA
    exact and_ne_zero_of_testBit i ((cbq_bit_update K fA hA).2 i hi).1
      ((cbq_bit_update K fB hB).2 i hi).2

theorem is_flags_set_loop_true {s : State} (flags : Nat) :
    ∀ (l : List Ptr) (o : Option Ptr) (fuel : Nat), Seg s.next o l none →
      (∃ p ∈ l, (s.node p).flags &&& flags ≠ 0) → l.length ≤ fuel →
      CB_queue_is_flags_set_loop flags fuel o s = some true
  | [], _, _, _, h, _ => by simp at h
  | q :: l, o, fuel, hseg, h, hf => by
    obtain ⟨h1, h2⟩ := hseg
    subst h1
    cases fuel with
    | zero => simp at hf
    | succ fuel =>
      by_cases hq : (s.node q).flags &&& flags ≠ 0
      · simp [CB_queue_is_flags_set_loop, hq]
      · have hrest : ∃ p ∈ l, (s.node p).flags &&& flags ≠ 0 := by
          obtain ⟨p, hp, hpf⟩ := h
          rcases List.mem_cons.1 hp with rfl | hp
          · exact absurd hpf hq
          · exact ⟨p, hp, hpf⟩
        simp only [CB_queue_is_flags_set_loop, hq, if_false]
        exact is_flags_set_loop_true flags l _ fuel h2 hrest (by simpa using hf)

theorem is_flags_set_loop_false {s : State} (flags : Nat) :
    ∀ (l : List Ptr) (o : Option Ptr) (fuel : Nat), Seg s.next o l none →
      (∀ p ∈ l, (s.node p).flags &&& flags = 0) → l.length ≤ fuel →
      CB_queue_is_flags_set_loop flags fuel o s = some false
  | [], o, fuel, h, _, _ => by
    have : o = none := h
    subst this
    cases fuel <;> rfl
  | q :: l, o, fuel, hseg, h, hf => by
    obtain ⟨h1, h2⟩ := hseg
    subst h1
    cases fuel with
    | zero => simp at hf
    | succ fuel =>
      have hq : (s.node q).flags &&& flags = 0 := h q (List.mem_cons_self _ _)
      simp only [CB_queue_is_flags_set_loop, hq, ne_eq, not_true_eq_false, if_false]
      exact is_flags_set_loop_false flags l _ fuel h2
        (fun p hp => h p (List.mem_cons_of_mem _ hp)) (by simpa using hf)

theorem is_flags_set_true {s : State} {l : List Ptr} (flags fuel : Nat) (hq : QueueIs s l)
    (h : ∃ p ∈ l, (s.node p).flags &&& flags ≠ 0) (hf : l.length ≤ fuel) :
    CB_queue_is_flags_set fuel flags s = some true := by
  have h0 : flags ≠ 0 := by
    rintro rfl
    obtain ⟨p, _, hp⟩ := h
    simp at hp
  simp only [CB_queue_is_flags_set, h0, if_false]
  exact is_flags_set_loop_true flags l _ fuel hq.1 h hf

theorem is_flags_set_false {s : State} {l : List Ptr} (flags fuel : Nat) (hq : QueueIs s l)
    (h : ∀ p ∈ l, (s.node p).flags &&& flags = 0) (hf : l.length ≤ fuel) :
    CB_queue_is_flags_set fuel flags s = some false := by
  unfold CB_queue_is_flags_set
  split
  · rfl
  · exact is_flags_set_loop_false flags l _ fuel hq.1 h hf

theorem wait_flags_exit (K : Consts) (E : Env) (n flags : Nat) :
    ∀ (fuel : Nat) (s t : State), CB_queue_wait_flags K E n flags fuel s = some t →
      CB_queue_is_flags_set n flags t = some false
  | 0, _, _, h => by simp [CB_queue_wait_flags] at h
  | fuel + 1, s, t, h => by
    simp only [CB_queue_wait_flags] at h
    cases hc : CB_queue_check_inline K E n none s with
    | none => simp [hc] at h
    | some r =>
      obtain ⟨b, s1⟩ := r
      simp only [hc] at h
      cases hfl : CB_queue_is_flags_set n flags s1 with
      | none => simp [hfl] at h
      | some b2 =>
        cases b2 with
        | true =>
          simp only [hfl] at h
          exact wait_flags_exit K E n flags fuel _ t h
        | false =>
          simp only [hfl, Option.some.injEq] at h
          subst h
          exact hfl

/-- C2: while the chain holds a node tagged by `flags_to_cbq` for a category the new
submission conflicts with (presentation with presentation and rendering, rendering
and update with rendering and update), `CB_queue_is_flags_set` of the submission's
`flags_to_cbq_check` mask is TRUE, and the pre-dispatch wait loop of
`SVGA_CMB_submit_critical` cannot exit in such a state. -/
theorem C2_conflict_blocks_dispatch (K : Consts) (E : Env) (n fuel fA fB : Nat) (s : State)
    (l : List Ptr) (p : Ptr) (hq : QueueIs s l) (hp : p ∈ l)
    (htag : (s.node p).flags = flags_to_cbq K fA) (hc : conflicts K fB fA)
    (hn : l.length ≤ n) :
    CB_queue_is_flags_set n (flags_to_cbq_check K fB) s = some true ∧
      ∀ s0, CB_queue_wait_flags K E n (flags_to_cbq_check K fB) fuel s0 ≠ some s := by
  have h1 : CB_queue_is_flags_set n (flags_to_cbq_check K fB) s = some true :=
    is_flags_set_true _ n hq ⟨p, hp, by rw [htag]; exact tag_meets_check K fB fA hc⟩ hn
  refine ⟨h1, ?_⟩
  intro s0 h
  have h2 := wait_flags_exit K E n _ fuel s0 s h
  rw [h1] at h2
  cases h2

theorem C2_conflict_blocks_dispatch_witness :
    CB_queue_is_flags_set 4 (flags_to_cbq_check svga svga.SVGA_CB_PRESENT)
        (CB_queue_insert 10 (flags_to_cbq svga svga.SVGA_CB_RENDER) zero_state) = some true ∧
      ∀ s0, CB_queue_wait_flags svga idle_env 4 (flags_to_cbq_check svga svga.SVGA_CB_PRESENT) 4 s0 ≠
        some (CB_queue_insert 10 (flags_to_cbq svga svga.SVGA_CB_RENDER) zero_state) :=
  C2_conflict_blocks_dispatch svga idle_env 4 4 svga.SVGA_CB_RENDER svga.SVGA_CB_PRESENT
    (CB_queue_insert 10 (flags_to_cbq svga svga.SVGA_CB_RENDER) zero_state) [10] 10
    (insert_queueIs zero_state [] 10 _ (queueIs_empty _ rfl) (by simp))
    (by simp) (by rfl) (by unfold conflicts has_flag; decide) (by decide)

/-! ## The conflict table and the fence check (C3, C4) -/

/-- C3, divergence: whenever the wire flag `SVGA_CB_UPDATE` is not the bit pattern of
the tag `CBQ_UPDATE`, `flags_to_cbq_check` of a rendering submission is
`CBQ_RENDER | SVGA_CB_UPDATE` and differs from the conflict table of the
specification, `CBQ_RENDER | CBQ_UPDATE`. -/
theorem C3_check_mask_uses_wire_flag (K : Consts)
    (hR : K.SVGA_CB_RENDER ≠ 0) (hP : K.SVGA_CB_RENDER &&& K.SVGA_CB_PRESENT = 0)
    (hU : CBQ_RENDER ||| K.SVGA_CB_UPDATE ≠ CBQ_RENDER ||| CBQ_UPDATE) :
    flags_to_cbq_check K K.SVGA_CB_RENDER = CBQ_RENDER ||| K.SVGA_CB_UPDATE ∧
      flags_to_cbq_check_spec K K.SVGA_CB_RENDER = CBQ_RENDER ||| CBQ_UPDATE ∧
      flags_to_cbq_check K K.SVGA_CB_RENDER ≠ flags_to_cbq_check_spec K K.SVGA_CB_RENDER := by
  have hRR : K.SVGA_CB_RENDER &&& K.SVGA_CB_RENDER ≠ 0 := by simpa using hR
  have h1 : flags_to_cbq_check K K.SVGA_CB_RENDER = CBQ_RENDER ||| K.SVGA_CB_UPDATE := by
    simp only [flags_to_cbq_check, hP, hRR, ne_eq, not_true_eq_false, not_false_eq_true,
      if_true, if_false, Nat.zero_or, Nat.or_zero]
    split_ifs
    · rfl
    · exact Nat.or_self _
  have h2 : flags_to_cbq_check_spec K K.SVGA_CB_RENDER = CBQ_RENDER ||| CBQ_UPDATE := by
    simp only [flags_to_cbq_check_spec, hP, hRR, ne_eq, not_true_eq_false, not_false_eq_true,
      if_true, if_false, Nat.zero_or, Nat.or_zero]
    split_ifs
    · rfl
    · exact Nat.or_self _
  refine ⟨h1, h2, ?_⟩
  rw [h1, h2]
  exact hU

theorem C3_check_mask_uses_wire_flag_witness :
    flags_to_cbq_check svga svga.SVGA_CB_RENDER = CBQ_RENDER ||| svga.SVGA_CB_UPDATE ∧
      flags_to_cbq_check_spec svga svga.SVGA_CB_RENDER = CBQ_RENDER ||| CBQ_UPDATE ∧
      flags_to_cbq_check svga svga.SVGA_CB_RENDER ≠
        flags_to_cbq_check_spec svga svga.SVGA_CB_RENDER :=
  C3_check_mask_uses_wire_flag svga (by decide) (by decide) (by decide)

theorem or_and_eq_zero {a b m : Nat} (ha : a &&& m = 0) (hb : b &&& m = 0) :
    (a ||| b) &&& m = 0 := by
  rw [Nat.and_comm, Nat.and_or_distrib_left, Nat.and_comm m a, Nat.and_comm m b, ha, hb]
  rfl

theorem check_mask_and_cbq_update (K : Consts) (flags : Nat)
    (hU : K.SVGA_CB_UPDATE &&& CBQ_UPDATE = 0) :
    flags_to_cbq_check K flags &&& CBQ_UPDATE = 0 := by
  have h3 : (CBQ_PRESENT ||| CBQ_RENDER) &&& CBQ_UPDATE = 0 := by decide
  have h2 : CBQ_RENDER &&& CBQ_UPDATE = 0 := by decide
  have h2U : (CBQ_RENDER ||| K.SVGA_CB_UPDATE) &&& CBQ_UPDATE = 0 := or_and_eq_zero h2 hU
  have h0 : (0 : Nat) &&& CBQ_UPDATE = 0 := Nat.zero_and _
  simp only [flags_to_cbq_check]
  split_ifs <;> first
    | exact h0
    | exact or_and_eq_zero h0 h3
    | exact or_and_eq_zero h0 h2U
    | exact or_and_eq_zero (or_and_eq_zero h0 h3) h2U
    | exact or_and_eq_zero (or_and_eq_zero h0 h2U) h2U

/-- C4, divergence: whenever the wire flag `SVGA_CB_UPDATE` does not contain the bit of
the tag `CBQ_UPDATE`, `flags_fence_check` leaves `fence_update` as it found it and
never waits for it, whatever the flags: also for a rendering or an update
submission with a recorded update fence. -/
theorem C4_update_fence_not_checked (K : Consts) (E : Env) (flags : Nat) (s : State)
    (hU : K.SVGA_CB_UPDATE &&& CBQ_UPDATE = 0) :
    (flags_fence_check K E flags s).fence_update = s.fence_update := by
  have h := check_mask_and_cbq_update K flags hU
  simp only [flags_fence_check, h, ne_eq, not_true_eq_false, if_false]
  split_ifs <;> rfl

theorem C4_update_fence_not_checked_witness :
    (flags_fence_check svga idle_env svga.SVGA_CB_UPDATE
      { zero_state with fence_update := 7 }).fence_update = 7 :=
  C4_update_fence_not_checked svga idle_env svga.SVGA_CB_UPDATE
    { zero_state with fence_update := 7 } (by decide)

/-! ## The FIFO ring (C5) -/

theorem ring_step (min max c j : Nat) (hlt : min < max) (hmin : 4 ∣ min) (hmax : 4 ∣ max)
    (hc : 4 ∣ c) (h32 : max < 2 ^ 32) :
    (if (ring_pos min max c j + sizeof_DWORD) % 2 ^ 32 ≥ max then min
      else (ring_pos min max c j + sizeof_DWORD) % 2 ^ 32) = ring_pos min max c (j + 1) := by
  have hM : 0 < max - min := Nat.sub_pos_of_lt hlt
  have hr : (c - min + 4 * j) % (max - min) < max - min := Nat.mod_lt _ hM
  have hdM : 4 ∣ max - min := Nat.dvd_sub' hmax hmin
  have hdr : 4 ∣ (c - min + 4 * j) % (max - min) :=
    (Nat.dvd_mod_iff hdM).2 (Nat.dvd_add (Nat.dvd_sub' hc hmin) (Dvd.intro _ rfl))
  have hnext : (c - min + 4 * (j + 1)) % (max - min) =
      ((c - min + 4 * j) % (max - min) + 4) % (max - min) := by
    rw [show c - min + 4 * (j + 1) = (c - min + 4 * j) + 4 by ring]
    exact (Nat.mod_add_mod _ _ _).symm
  unfold ring_pos sizeof_DWORD
  rw [hnext]
  generalize (c - min + 4 * j) % (max - min) = r at hr hdr
  have hle : r + 4 ≤ max - min := by
    obtain ⟨a, rfl⟩ := hdr
    obtain ⟨b, hb⟩ := hdM
    omega
  have hsmall : min + r + 4 < 2 ^ 32 := by omega
  rw [Nat.mod_eq_of_lt hsmall]
  rcases Nat.eq_or_lt_of_le hle with heq | hlt2
  · rw [heq, Nat.mod_self]
    have : min + r + 4 ≥ max := by omega
    simp [this]
  · rw [Nat.mod_eq_of_lt hlt2]
    have : ¬ (min + r + 4 ≥ max) := by omega
    simp [this]
    omega

theorem ring_pos_zero (min max c : Nat) (hlo : min ≤ c) (hhi : c < max) :
    ring_pos min max c 0 = c := by
  unfold ring_pos
  rw [Nat.mul_zero, Nat.add_zero, Nat.mod_eq_of_lt (by omega)]
  omega

theorem fifo_copy_loop_spec (K : Consts) (cmb min max c : Nat) (hlt : min < max)
    (hmin : 4 ∣ min) (hmax : 4 ∣ max) (hc : 4 ∣ c) (h32 : max < 2 ^ 32) :
    ∀ (d j : Nat) (s : State) (tr : List Event),
      s.trace = fifo_copy_stores K (s.cmb cmb) min max c j ++ tr →
      (d = 0 → s.fifoMem K.SVGA_FIFO_NEXT_CMD = ring_pos min max c j) →
      (fifo_copy_loop K cmb max min d j (ring_pos min max c j) s).trace =
          fifo_copy_stores K (s.cmb cmb) min max c (j + d) ++ tr ∧
        (fifo_copy_loop K cmb max min d j (ring_pos min max c j) s).fifoMem
          K.SVGA_FIFO_NEXT_CMD = ring_pos min max c (j + d)
  | 0, j, s, tr, htr, hcur => ⟨htr, hcur rfl⟩
  | d + 1, j, s, tr, htr, _ => by
    have hstep := ring_step min max c j hlt hmin hmax hc h32
    simp only [fifo_copy_loop]
    rw [hstep]
    have ih := fifo_copy_loop_spec K cmb min max c hlt hmin hmax hc h32 d (j + 1)
      ((s.fifoStore (ring_pos min max c j / sizeof_DWORD) (s.cmb cmb j)).fifoStore
        K.SVGA_FIFO_NEXT_CMD (ring_pos min max c (j + 1))) tr
      (by simp [State.fifoStore, fifo_copy_stores, htr])
      (by intro _; simp [State.fifoStore])
    rw [show j + (d + 1) = j + 1 + d by omega]
    exact ih

/-- C5: in a ring with word-aligned bounds `min < max`, from a word-aligned cursor `c`
with `min ≤ c < max`, the FIFO copy loop of a payload of `n ≥ 1` words stores word
`i` at byte offset `min + ((c - min + 4*i) mod (max - min))` (a word-aligned offset
inside the ring), stores the advanced cursor after every word, and leaves
`fifoMem[SVGA_FIFO_NEXT_CMD]` equal to `min + ((c - min + 4*n) mod (max - min))`;
when `c` is `n-1` words before `max`, words `0..n-2` land at `c..max-4` and word
`n-1` lands at `min`. -/
theorem C5_fifo_ring_copy (K : Consts) (cmb min max c n : Nat) (s : State)
    (hlt : min < max) (hmin : 4 ∣ min) (hmax : 4 ∣ max) (hc : 4 ∣ c)
    (hlo : min ≤ c) (hhi : c < max) (h32 : max < 2 ^ 32) (hn : 1 ≤ n) :
    (fifo_copy_loop K cmb max min n 0 c s).trace =
        fifo_copy_stores K (s.cmb cmb) min max c n ++ s.trace ∧
      (fifo_copy_loop K cmb max min n 0 c s).fifoMem K.SVGA_FIFO_NEXT_CMD =
        ring_pos min max c n ∧
      (∀ i, i < n → 4 ∣ ring_pos min max c i ∧ min ≤ ring_pos min max c i ∧
        ring_pos min max c i < max) ∧
      (c + 4 * (n - 1) = max →
        (∀ i, i < n - 1 → ring_pos min max c i = c + 4 * i) ∧
          ring_pos min max c (n - 1) = min) := by
  have h0 := ring_pos_zero min max c hlo hhi
  have hloop := fifo_copy_loop_spec K cmb min max c hlt hmin hmax hc h32 n 0 s s.trace
    (by simp [fifo_copy_stores]) (by omega)
  rw [h0, Nat.zero_add] at hloop
  have hM : 0 < max - min := Nat.sub_pos_of_lt hlt
  refine ⟨hloop.1, hloop.2, ?_, ?_⟩
  · intro i _
    have hr : (c - min + 4 * i) % (max - min) < max - min := Nat.mod_lt _ hM
    have hdr : 4 ∣ (c - min + 4 * i) % (max - min) :=
      (Nat.dvd_mod_iff (Nat.dvd_sub' hmax hmin)).2
        (Nat.dvd_add (Nat.dvd_sub' hc hmin) (Dvd.intro _ rfl))
    unfold ring_pos
    exact ⟨Nat.dvd_add hmin hdr, by omega, by omega⟩
  · intro hend
    refine ⟨?_, ?_⟩
    · intro i hi
      unfold ring_pos
      rw [Nat.mod_eq_of_lt (by omega)]
      omega
    · unfold ring_pos
      rw [show c - min + 4 * (n - 1) = max - min by omega, Nat.mod_self]
      rfl

theorem C5_fifo_ring_copy_witness :
    (fifo_copy_loop svga 5 32 16 3 0 24 ring_state).trace =
        fifo_copy_stores svga (ring_state.cmb 5) 16 32 24 3 ++ ring_state.trace ∧
      (fifo_copy_loop svga 5 32 16 3 0 24 ring_state).fifoMem svga.SVGA_FIFO_NEXT_CMD =
        ring_pos 16 32 24 3 ∧
      (∀ i, i < 3 → 4 ∣ ring_pos 16 32 24 i ∧ 16 ≤ ring_pos 16 32 24 i ∧
        ring_pos 16 32 24 i < 32) ∧
      (24 + 4 * (3 - 1) = 32 →
        (∀ i, i < 3 - 1 → ring_pos 16 32 24 i = 24 + 4 * i) ∧
          ring_pos 16 32 24 (3 - 1) = 16) :=
  C5_fifo_ring_copy svga 5 16 32 24 3 ring_state (by decide) (by decide) (by decide)
    (by decide) (by decide) (by decide) (by decide) (by decide)

/-! ## Forced drain (C7) -/

theorem erase_loop_spec (K : Consts) :
    ∀ (l : List Ptr) (o : Option Ptr) (fuel : Nat) (s : State), Seg s.next o l none →
      l.length ≤ fuel →
      CB_queue_erase_loop K fuel o s = some { s with
        hdr := fun p => if p ∈ l then { s.hdr p with status := K.SVGA_CB_STATUS_QUEUE_FULL }
          else s.hdr p }
  | [], o, fuel, s, h, _ => by
    have : o = none := h
    subst this
    cases fuel <;> simp [CB_queue_erase_loop]
  | q :: l, o, fuel, s, h, hf => by
    obtain ⟨h1, h2⟩ := h
    subst h1
    cases fuel with
    | zero => simp at hf
    | succ fuel =>
      simp only [CB_queue_erase_loop]
      have ih := erase_loop_spec K l (s.next q) fuel
        (s.setHdr q { s.hdr q with status := K.SVGA_CB_STATUS_QUEUE_FULL }) h2
        (by simpa using hf)
      rw [show ((s.setHdr q { s.hdr q with status := K.SVGA_CB_STATUS_QUEUE_FULL }).node q).next
        = s.next q from rfl, ih]
      congr 1
      simp only [State.setHdr]
      congr 1
      funext p
      by_cases hpq : p = q
      · subst hpq
        by_cases hpl : p ∈ l <;> simp [hpl]
      · by_cases hpl : p ∈ l <;> simp [hpl, hpq]

theorem erase_spec (K : Consts) (fuel : Nat) (s : State) (l : List Ptr) (hq : QueueIs s l)
    (hf : l.length ≤ fuel) :
    CB_queue_erase K fuel s = some { s with
      hdr := fun p => if p ∈ l then { s.hdr p with status := K.SVGA_CB_STATUS_QUEUE_FULL }
        else s.hdr p
      cb_queue_info := { first := none, last := none } } := by
  simp [CB_queue_erase, erase_loop_spec K l _ fuel s hq.1 hf]

/-- C7: on a well-formed queue `CB_queue_erase` returns; afterwards every descriptor
that was in the chain has status `SVGA_CB_STATUS_QUEUE_FULL` and is otherwise as it
was (id, length, flags, error offset, ...), the descriptors outside the chain are
untouched, `first` and `last` are both `NULL`, and nothing else changed. -/
theorem C7_force_drain (K : Consts) (fuel : Nat) (s : State) (l : List Ptr)
    (hq : QueueIs s l) (hf : l.length ≤ fuel) :
    ∃ t, CB_queue_erase K fuel s = some t ∧
      t.cb_queue_info.first = none ∧ t.cb_queue_info.last = none ∧
      (∀ p ∈ l, t.hdr p = { s.hdr p with status := K.SVGA_CB_STATUS_QUEUE_FULL }) ∧
      (∀ p, p ∉ l → t.hdr p = s.hdr p) ∧
      t = { s with hdr := t.hdr, cb_queue_info := t.cb_queue_info } := by
  refine ⟨_, erase_spec K fuel s l hq hf, rfl, rfl, ?_, ?_, rfl⟩
  · intro p hp
    simp [hp]
  · intro p hp
    simp [hp]

theorem C7_force_drain_witness :
    ∃ t, CB_queue_erase svga 3 (insert_all [(10, 1), (11, 2), (12, 4)] zero_state) = some t ∧
      t.cb_queue_info.first = none ∧ t.cb_queue_info.last = none ∧
      (∀ p ∈ [10, 11, 12], t.hdr p =
        { (insert_all [(10, 1), (11, 2), (12, 4)] zero_state).hdr p with
          status := svga.SVGA_CB_STATUS_QUEUE_FULL }) ∧
      (∀ p, p ∉ [10, 11, 12] → t.hdr p =
        (insert_all [(10, 1), (11, 2), (12, 4)] zero_state).hdr p) ∧
      t = { insert_all [(10, 1), (11, 2), (12, 4)] zero_state with
        hdr := t.hdr, cb_queue_info := t.cb_queue_info } :=
  C7_force_drain svga 3 (insert_all [(10, 1), (11, 2), (12, 4)] zero_state) [10, 11, 12]
    (insert_all_queueIs [(10, 1), (11, 2), (12, 4)] zero_state [] (queueIs_empty _ rfl)
      (by decide))
    (by decide)

/-! ## Fault recovery in the scan pass (C6) -/

theorem stable_refl (s : State) : Stable s s := ⟨rfl, rfl, rfl, rfl, rfl, rfl, rfl, rfl⟩

theorem stable_trans {s t u : State} (h1 : Stable s t) (h2 : Stable t u) : Stable s u :=
  ⟨h2.ST_FB_invalid.trans h1.ST_FB_invalid, h2.fence_present.trans h1.fence_present,
    h2.fence_render.trans h1.fence_render, h2.fence_update.trans h1.fence_update,
    h2.fifoMem.trans h1.fifoMem, h2.ctlbuf.trans h1.ctlbuf, h2.cmdbuf.trans h1.cmdbuf,
    h2.critical.trans h1.critical⟩

theorem ctrFrame_refl (s : State) : CtrFrame s s := ⟨stable_refl s, rfl, rfl, rfl, rfl, rfl⟩

theorem ctrFrame_trans {s t u : State} (h1 : CtrFrame s t) (h2 : CtrFrame t u) :
    CtrFrame s u :=
  ⟨stable_trans h1.stable h2.stable, h2.node.trans h1.node, h2.cmb.trans h1.cmb,
    h2.cb_queue_info.trans h1.cb_queue_info, h2.cb_support.trans h1.cb_support,
    h2.cb_context0.trans h1.cb_context0⟩

theorem devFrame_refl (s : State) : DevFrame s s := ⟨ctrFrame_refl s, rfl⟩

theorem devFrame_trans {s t u : State} (h1 : DevFrame s t) (h2 : DevFrame t u) :
    DevFrame s u :=
  ⟨ctrFrame_trans h1.ctr h2.ctr, h2.cb_next_id.trans h1.cb_next_id⟩

theorem devFrame_step (E : Env) (s : State) : DevFrame s (device_step E s) :=
  ⟨⟨⟨rfl, rfl, rfl, rfl, rfl, rfl, rfl, rfl⟩, rfl, rfl, rfl, rfl, rfl⟩, rfl⟩

theorem devFrame_sync (E : Env) (s : State) : DevFrame s (SVGA_Sync E s) :=
  ⟨⟨⟨rfl, rfl, rfl, rfl, rfl, rfl, rfl, rfl⟩, rfl, rfl, rfl, rfl, rfl⟩, rfl⟩

theorem lifeFrame_refl (s : State) : LifeFrame s s := ⟨stable_refl s, rfl⟩

theorem lifeFrame_trans {s t u : State} (h1 : LifeFrame s t) (h2 : LifeFrame t u) :
    LifeFrame s u :=
  ⟨stable_trans h1.stable h2.stable, h2.node.trans h1.node⟩

theorem queueIs_congr {s t : State} {l : List Ptr} (hn : t.node = s.node)
    (hi : t.cb_queue_info = s.cb_queue_info) (h : QueueIs s l) : QueueIs t l := by
  unfold QueueIs State.next at *
  rw [hn, hi]
  exact h

theorem ctr_wait_terminates (K : Consts) (E : Env) :
    ∀ (fuel k : Nat) (s : State), k ≤ fuel →
      ((s.hdr s.ctlbuf).status ≠ K.SVGA_CB_STATUS_NONE ∨
        ∃ j, j < k ∧ ∃ v, E.dev_status (s.tick + j) s.ctlbuf = some v ∧
          v ≠ K.SVGA_CB_STATUS_NONE) →
      ∃ t, SVGA_CB_ctr_wait K E fuel s = some t ∧ DevFrame s t
  | 0, k, s, hk, h => by
    have hst : (s.hdr s.ctlbuf).status ≠ K.SVGA_CB_STATUS_NONE := by
      rcases h with h | ⟨j, hj, _⟩
      · exact h
      · omega
    exact ⟨s, by simp [SVGA_CB_ctr_wait, hst], devFrame_refl s⟩
  | fuel + 1, k, s, hk, h => by
    by_cases hst : (s.hdr s.ctlbuf).status = K.SVGA_CB_STATUS_NONE
    · rcases h with h | ⟨j, hj, v, hv, hvn⟩
      · exact absurd hst h
      · simp only [SVGA_CB_ctr_wait, hst, if_true]
        have hnext : ((SVGA_Sync E s).hdr (SVGA_Sync E s).ctlbuf).status ≠
              K.SVGA_CB_STATUS_NONE ∨
            ∃ j', j' < k - 1 ∧ ∃ v, E.dev_status ((SVGA_Sync E s).tick + j')
              (SVGA_Sync E s).ctlbuf = some v ∧ v ≠ K.SVGA_CB_STATUS_NONE := by
          cases j with
          | zero =>
            left
            have hv0 : E.dev_status s.tick s.ctlbuf = some v := by simpa using hv
            simp [SVGA_Sync, device_step, State.log, hv0, hvn]
          | succ j =>
            right
            refine ⟨j, by omega, v, ?_, hvn⟩
            have : s.tick + 1 + j = s.tick + (j + 1) := by omega
            simpa [SVGA_Sync, device_step, State.log, this] using hv
        obtain ⟨t, ht, hfr⟩ := ctr_wait_terminates K E fuel (k - 1) (SVGA_Sync E s)
          (by omega) hnext
        exact ⟨t, ht, devFrame_trans (devFrame_sync E s) hfr⟩
    · exact ⟨s, by simp [SVGA_CB_ctr_wait, hst], devFrame_refl s⟩

theorem ctr_spec (K : Consts) (E : Env) (fuel data_size : Nat) (s : State)
    (hdev : ctl_responsive K E s.ctlbuf fuel) :
    ∃ st t, SVGA_CB_ctr K E fuel data_size s = some (st, t) ∧ CtrFrame s t := by
  obtain ⟨k, hk, v, hv, hvn⟩ := hdev s.tick
  simp only [SVGA_CB_ctr]
  generalize hs1 : SVGA_cb_id_inc _ _ = s1
  have htick : s1.tick = s.tick + 1 := by
    subst hs1; rfl
  have hctl : s1.ctlbuf = s.ctlbuf := by
    subst hs1; rfl
  have hfr1 : CtrFrame s s1 := by
    subst hs1
    exact ⟨⟨rfl, rfl, rfl, rfl, rfl, rfl, rfl, rfl⟩, rfl, rfl, rfl, rfl, rfl⟩
  have hcond : (s1.hdr s1.ctlbuf).status ≠ K.SVGA_CB_STATUS_NONE ∨
      ∃ j, j < k ∧ ∃ v, E.dev_status (s1.tick + j) s1.ctlbuf = some v ∧
        v ≠ K.SVGA_CB_STATUS_NONE := by
    cases k with
    | zero =>
      left
      have hv0 : E.dev_status s.tick s.ctlbuf = some v := by simpa using hv
      subst hs1
      simp [SVGA_cb_id_inc, SVGA_Sync, device_step, State.log, SVGA_WriteReg, State.setHdr,
        hv0, hvn]
    | succ k =>
      right
      refine ⟨k, by omega, v, ?_, hvn⟩
      rw [htick, hctl]
      have : s.tick + 1 + k = s.tick + (k + 1) := by omega
      rw [this]
      exact hv
  obtain ⟨t, ht, hfr⟩ := ctr_wait_terminates K E fuel k s1 hk hcond
  exact ⟨_, t, by rw [ht]; rfl, ctrFrame_trans hfr1 hfr.ctr⟩

theorem erase_frame (K : Consts) (fuel : Nat) (s : State) (l : List Ptr) (hq : QueueIs s l)
    (hf : l.length ≤ fuel) :
    ∃ t, CB_queue_erase K fuel s = some t ∧ LifeFrame s t ∧ t.cmb = s.cmb ∧
      t.cb_support = s.cb_support ∧ t.cb_context0 = s.cb_context0 ∧
      t.cb_queue_info = { first := none, last := none } :=
  ⟨_, erase_spec K fuel s l hq hf, ⟨⟨rfl, rfl, rfl, rfl, rfl, rfl, rfl, rfl⟩, rfl⟩, rfl, rfl,
    rfl, rfl⟩

theorem stop_spec (K : Consts) (E : Env) (fuel : Nat) (s : State) (l : List Ptr)
    (hq : QueueIs s l) (hsup : s.cb_support = true)
    (hdev : ctl_responsive K E s.ctlbuf fuel) (hf : l.length ≤ fuel) :
    ∃ t, SVGA_CB_stop K E fuel s = some t ∧ LifeFrame s t ∧
      t.cb_queue_info = { first := none, last := none } ∧ t.cb_support = true ∧
      t.cb_context0 = false := by
  obtain ⟨st, s2, hctr, hfr⟩ := ctr_spec K E fuel K.sizeof_cb_enable_t
    (cb_enable_fill K 0 { s with cb_context0 := false }) hdev
  have hq3 : QueueIs (SVGA_Sync E s2) l :=
    queueIs_congr (s := s) hfr.node hfr.cb_queue_info hq
  obtain ⟨t, her, hlf, _, hsup2, hctx2, hqi⟩ := erase_frame K fuel (SVGA_Sync E s2) l hq3 hf
  have hstop : SVGA_CB_stop K E fuel s = some t := by
    simp only [SVGA_CB_stop]
    rw [if_pos hsup]
    simp only [hctr]
    exact her
  have hfr0 : LifeFrame s (SVGA_Sync E s2) :=
    ⟨⟨hfr.stable.ST_FB_invalid, hfr.stable.fence_present, hfr.stable.fence_render,
      hfr.stable.fence_update, hfr.stable.fifoMem, hfr.stable.ctlbuf, hfr.stable.cmdbuf,
      hfr.stable.critical⟩, hfr.node⟩
  refine ⟨t, hstop, lifeFrame_trans hfr0 hlf, hqi, ?_, ?_⟩
  · rw [hsup2]
    exact hfr.cb_support.trans hsup
  · rw [hctx2]
    exact hfr.cb_context0

theorem start_spec (K : Consts) (E : Env) (fuel : Nat) (s : State)
    (hdev : ctl_responsive K E s.ctlbuf fuel) :
    ∃ t, SVGA_CB_start K E fuel s = some t ∧ LifeFrame s t ∧
      t.cb_queue_info = s.cb_queue_info := by
  by_cases hc : s.cb_support = true ∧ s.cb_context0 = false
  · obtain ⟨st, s2, hctr, hfr⟩ := ctr_spec K E fuel K.sizeof_cb_enable_t
      (cb_enable_fill K 1 s) hdev
    have hfr0 : LifeFrame s s2 :=
      ⟨⟨hfr.stable.ST_FB_invalid, hfr.stable.fence_present, hfr.stable.fence_render,
        hfr.stable.fence_update, hfr.stable.fifoMem, hfr.stable.ctlbuf, hfr.stable.cmdbuf,
        hfr.stable.critical⟩, hfr.node⟩
    simp only [SVGA_CB_start, hc, and_self, if_true, hctr]
    split_ifs
    · exact ⟨_, rfl, ⟨⟨hfr0.stable.1, hfr0.stable.2, hfr0.stable.3, hfr0.stable.4,
        hfr0.stable.5, hfr0.stable.6, hfr0.stable.7, hfr0.stable.8⟩, hfr0.node⟩,
        hfr.cb_queue_info⟩
    · exact ⟨_, rfl, ⟨⟨hfr0.stable.1, hfr0.stable.2, hfr0.stable.3, hfr0.stable.4,
        hfr0.stable.5, hfr0.stable.6, hfr0.stable.7, hfr0.stable.8⟩, hfr0.node⟩,
        hfr.cb_queue_info⟩
  · refine ⟨s, ?_, lifeFrame_refl s, rfl⟩
    simp only [SVGA_CB_start, hc, if_false]

theorem restart_spec (K : Consts) (E : Env) (fuel : Nat) (s : State) (l : List Ptr)
    (hq : QueueIs s l) (hsup : s.cb_support = true)
    (hdev : ctl_responsive K E s.ctlbuf fuel) (hf : l.length ≤ fuel) :
    ∃ t, SVGA_CB_restart K E fuel s = some t ∧ LifeFrame s t ∧
      t.cb_queue_info = { first := none, last := none } := by
  obtain ⟨t1, h1, hfr1, hqi, _, _⟩ := stop_spec K E fuel s l hq hsup hdev hf
  obtain ⟨t2, h2, hfr2, hqi2⟩ := start_spec K E fuel t1
    (by rw [hfr1.stable.ctlbuf]; exact hdev)
  refine ⟨t2, ?_, lifeFrame_trans hfr1 hfr2, by rw [hqi2, hqi]⟩
  simp only [SVGA_CB_restart, h1, h2]

theorem scanFrame_proj {s t : State} (h : ScanFrame s t) :
    t.hdr = s.hdr ∧ t.cb_support = s.cb_support ∧ t.cb_context0 = s.cb_context0 ∧
      t.ctlbuf = s.ctlbuf ∧ t.cb_next_id = s.cb_next_id ∧ t.trace = s.trace ∧
      t.tick = s.tick ∧ t.cmb = s.cmb := by
  obtain ⟨h1, _⟩ := h
  refine ⟨?_, ?_, ?_, ?_, ?_, ?_, ?_, ?_⟩ <;> rw [h1]

/-- The part of C6 that holds: on a well-formed queue in which some descriptor
carries a fault (status above `SVGA_CB_STATUS_COMPLETED`), when command buffers are
supported (`cb_support` TRUE) and the device answers the control descriptors, for every
`tracked` and either value of `cb_context0`, `CB_queue_check_inline` unlinks the
retired nodes, invokes `SVGA_CB_restart` on the remaining chain, returns TRUE, and
on return `cb_queue_info.first` and `cb_queue_info.last` are both `NULL`. -/
theorem C6_fault_restart (K : Consts) (E : Env) (fuel : Nat) (tracked : Option Ptr)
    (s : State) (l : List Ptr) (hq : QueueIs s l) (hfault : ∃ p ∈ l, faulted K s p = true)
    (hsup : s.cb_support = true) (hdev : ctl_responsive K E s.ctlbuf fuel)
    (hf : l.length ≤ fuel) :
    ∃ s1 t, QueueIs s1 (l.filter (pending K s)) ∧ ScanFrame s s1 ∧
      SVGA_CB_restart K E fuel s1 = some t ∧
      CB_queue_check_inline K E fuel tracked s = some (true, t) ∧
      t.cb_queue_info.first = none ∧ t.cb_queue_info.last = none := by
  obtain ⟨h1, h2, h3⟩ := hq
  obtain ⟨t0, ht0, hseg, hfr⟩ := check_loop_spec K tracked l [] fuel s.cb_queue_info.first none
    false false s rfl rfl h1 (by simpa using h3) hf
  have hany : l.any (faulted K s) = true := by
    rw [List.any_eq_true]
    exact hfault
  simp only [List.nil_append, Bool.false_or, hany] at ht0 hseg
  have hfr1 : ScanFrame s { t0 with cb_queue_info :=
      { t0.cb_queue_info with last := (l.filter (pending K s)).getLast? } } := by
    obtain ⟨a, b⟩ := hfr
    refine ⟨?_, b⟩
    rw [a]
  have hq1 : QueueIs { t0 with cb_queue_info :=
      { t0.cb_queue_info with last := (l.filter (pending K s)).getLast? } }
      (l.filter (pending K s)) := ⟨hseg, rfl, h3.filter _⟩
  obtain ⟨_, hsup1, _, hctl1, _⟩ := scanFrame_proj hfr1
  obtain ⟨t, hre, _, hqi⟩ := restart_spec K E fuel _ _ hq1 (hsup1.trans hsup)
    (by rw [hctl1]; exact hdev) (le_trans (List.length_filter_le _ _) hf)
  refine ⟨_, t, hq1, hfr1, hre, ?_, by rw [hqi], by rw [hqi]⟩
  simp only [CB_queue_check_inline, ht0, if_true, hre, Option.map_some']

theorem C6_fault_restart_witness :
    ∃ s1 t, QueueIs s1 ([10, 11].filter (pending svga fault_state)) ∧ ScanFrame fault_state s1 ∧
      SVGA_CB_restart svga prompt_env 4 s1 = some t ∧
      CB_queue_check_inline svga prompt_env 4 none fault_state = some (true, t) ∧
      t.cb_queue_info.first = none ∧ t.cb_queue_info.last = none :=
  C6_fault_restart svga prompt_env 4 none fault_state [10, 11]
    (insert_all_queueIs [(10, 1), (11, 2)] zero_state [] (queueIs_empty _ rfl) (by decide))
    ⟨10, by decide, by decide⟩ rfl (fun _ => ⟨0, by decide, 1, rfl, by decide⟩) (by decide)

theorem submit_cb_sync_fence (K : Consts) (E : Env) (fuel cmb cmb_size : Nat)
    (st0 : SVGA_CMB_status_t) (flags dx : Nat) (s : State) (st : Option SVGA_CMB_status_t)
    (t : State) (hK : K.SVGA_CB_STATUS_COMPLETED = SVGA_PROC_COMPLETED)
    (hsync : flags &&& SVGA_CB_SYNC ≠ 0)
    (hres : SVGA_CMB_submit_cb K E fuel cmb cmb_size (some st0) flags dx 0 s = some (st, t))
    (hfault : (t.hdr cmb).status ≠ K.SVGA_CB_STATUS_COMPLETED) :
    ∃ st1, st = some st1 ∧ st1.fifo_fence_used =
      if flags &&& SVGA_CB_FORCE_FENCE ≠ 0 then SVGA_fence_passed E t else 0 := by
  simp only [SVGA_CMB_submit_cb] at hres
  cases hw : CB_queue_wait_flags K E fuel (flags_to_cbq_check K flags) fuel
      (cb_fence_append K E cmb cmb_size flags 0 s).2.2 with
  | none => simp [hw] at hres
  | some s1 =>
    simp only [hw] at hres
    by_cases hz : (cb_fence_append K E cmb cmb_size flags 0 s).2.1 = 0
    · simp only [hz, if_true, Option.map_some', Option.some.injEq, Prod.mk.injEq] at hres
      obtain ⟨_, rfl⟩ := hres
      exfalso
      apply hfault
      simp [State.setHdr, hK]
    · simp only [hz, if_false, hsync, ne_eq, not_false_eq_true, if_true] at hres
      cases hw2 : WAIT_FOR_CB K E fuel cmb false fuel
          (cb_dispatch K E cmb (cb_fence_append K E cmb cmb_size flags 0 s).2.1 flags dx s1) with
      | none => simp [hw2] at hres
      | some s2 =>
        simp only [hw2, Option.map_some', Option.some.injEq, Prod.mk.injEq] at hres
        obtain ⟨rfl, rfl⟩ := hres
        refine ⟨_, rfl, ?_⟩
        have hfault2 : ¬ (s2.hdr cmb).status = K.SVGA_CB_STATUS_COMPLETED := hfault
        simp only [hfault2, not_false_eq_true, if_true]
        by_cases hff : flags &&& SVGA_CB_FORCE_FENCE = 0
        · simp [hff, cb_fence_append, flags_cb_fence_need]
        · simp [hff]

/-- C10, amended: for a synchronous (`SVGA_CB_SYNC`) command-buffer submission with a
non-null status handle that returns with the descriptor status not
`SVGA_CB_STATUS_COMPLETED`, the handle's `fifo_fence_used` is the value returned by
`SVGA_fence_passed` (the last fence the device has passed) when
`SVGA_CB_FORCE_FENCE` is set, and 0 when it is not. -/
theorem C10_sync_fault_fence (K : Consts) (E : Env) (fuel cmb cmb_size : Nat)
    (st0 : SVGA_CMB_status_t) (flags dx : Nat) (s : State) (st : Option SVGA_CMB_status_t)
    (t : State) (hK : K.SVGA_CB_STATUS_COMPLETED = SVGA_PROC_COMPLETED)
    (hcb : s.cb_support = true ∧ s.cb_context0 = true ∧ flags &&& SVGA_CB_FORCE_FIFO = 0)
    (hsync : flags &&& SVGA_CB_SYNC ≠ 0)
    (hres : SVGA_CMB_submit_critical K E fuel cmb cmb_size (some st0) flags dx s = some (st, t))
    (hfault : (t.hdr cmb).status ≠ K.SVGA_CB_STATUS_COMPLETED) :
    ∃ st1, st = some st1 ∧ st1.fifo_fence_used =
      if flags &&& SVGA_CB_FORCE_FENCE ≠ 0 then SVGA_fence_passed E t else 0 := by
  have htr : cb_transport flags (submit_entry K cmb (some st0) flags s).2 = true := by
    obtain ⟨h1, h2, h3⟩ := hcb
    simp only [cb_transport, submit_entry]
    split_ifs <;> simp [State.setHdr, h1, h2, h3]
  simp only [SVGA_CMB_submit_critical, htr, if_true] at hres
  cases hcbr : SVGA_CMB_submit_cb K E fuel cmb cmb_size (submit_entry K cmb (some st0) flags s).1
      flags dx 0 (submit_entry K cmb (some st0) flags s).2 with
  | none => simp [hcbr] at hres
  | some r =>
    obtain ⟨st', t'⟩ := r
    simp only [hcbr, Option.map_some', submit_exit, Option.some.injEq, Prod.mk.injEq] at hres
    obtain ⟨rfl, rfl⟩ := hres
    have hentry : (submit_entry K cmb (some st0) flags s).1 =
        some { st0 with sStatus := SVGA_PROC_NONE, qStatus := some cmb } := rfl
    rw [hentry] at hcbr
    obtain ⟨st1, rfl, h1⟩ := submit_cb_sync_fence K E fuel cmb cmb_size _ flags dx _ _ _ hK
      hsync hcbr hfault
    exact ⟨_, rfl, h1⟩

theorem C10_sync_fault_fence_witness :
    ∃ st t, SVGA_CMB_submit_critical svga faulting_env 4 10 16 (some blank_status)
        (SVGA_CB_SYNC ||| SVGA_CB_FORCE_FENCE) 0 zero_state = some (st, t) ∧
      (t.hdr 10).status ≠ svga.SVGA_CB_STATUS_COMPLETED ∧
      ∃ st1, st = some st1 ∧ st1.fifo_fence_used =
        if (SVGA_CB_SYNC ||| SVGA_CB_FORCE_FENCE) &&& SVGA_CB_FORCE_FENCE ≠ 0 then
          SVGA_fence_passed faulting_env t
        else 0 := by
  have hrun : (SVGA_CMB_submit_critical svga faulting_env 4 10 16 (some blank_status)
      (SVGA_CB_SYNC ||| SVGA_CB_FORCE_FENCE) 0 zero_state).map
        (fun r => (r.2.hdr 10).status) = some 3 := by decide
  cases h : SVGA_CMB_submit_critical svga faulting_env 4 10 16 (some blank_status)
      (SVGA_CB_SYNC ||| SVGA_CB_FORCE_FENCE) 0 zero_state with
  | none => simp [h] at hrun
  | some r =>
    obtain ⟨st, t⟩ := r
    simp only [h, Option.map_some', Option.some.injEq] at hrun
    have hfault : (t.hdr 10).status ≠ svga.SVGA_CB_STATUS_COMPLETED := by
      rw [hrun]; decide
    exact ⟨st, t, rfl, hfault,
      C10_sync_fault_fence svga faulting_env 4 10 16 blank_status
        (SVGA_CB_SYNC ||| SVGA_CB_FORCE_FENCE) 0 zero_state st t rfl
        ⟨rfl, rfl, by decide⟩ (by decide) h hfault⟩

/-- C10, counterexample: a synchronous command-buffer submission without
`SVGA_CB_FORCE_FENCE` whose descriptor the device faults (status 3) returns with
`fifo_fence_used = 0` in the handle. -/
theorem C10_sync_fault_without_fence :
    (SVGA_CMB_submit_critical svga faulting_env 4 10 16 (some blank_status) SVGA_CB_SYNC 0
      zero_state).map (fun r => (r.1, (r.2.hdr 10).status)) =
      some (some { qStatus := none, sStatus := SVGA_PROC_COMPLETED, fifo_fence_used := 0,
                   fifo_fence_last := 5 }, 3) := by
  decide

/-! ## Frames of the two transports -/

theorem traceExt_refl (P : Event → Bool) (s : State) : TraceExt P s s :=
  ⟨[], rfl, fun _ h => by simp at h⟩

theorem traceExt_of_eq (P : Event → Bool) {s t : State} (h : t.trace = s.trace) :
    TraceExt P s t :=
  ⟨[], by simpa using h, fun _ h => by simp at h⟩

theorem traceExt_trans {P : Event → Bool} {s t u : State} (h1 : TraceExt P s t)
    (h2 : TraceExt P t u) : TraceExt P s u := by
  obtain ⟨e1, a1, b1⟩ := h1
  obtain ⟨e2, a2, b2⟩ := h2
  refine ⟨e2 ++ e1, by rw [a2, a1, List.append_assoc], ?_⟩
  intro e he
  rcases List.mem_append.1 he with h | h
  · exact b2 e h
  · exact b1 e h

theorem traceExt_cons {P : Event → Bool} {s t : State} (e : Event) (he : P e = true)
    (h : t.trace = e :: s.trace) : TraceExt P s t :=
  ⟨[e], by simpa using h, fun x hx => by
    have : x = e := by simpa using hx
    rw [this]; exact he⟩

theorem cbFrame_refl (s : State) : CBFrame s s := ⟨stable_refl s, traceExt_refl _ s⟩

theorem cbFrame_trans {s t u : State} (h1 : CBFrame s t) (h2 : CBFrame t u) : CBFrame s u :=
  ⟨stable_trans h1.stable h2.stable, traceExt_trans h1.trace h2.trace⟩

theorem cbFrame_of_eq {s t : State} (h1 : Stable s t) (h2 : t.trace = s.trace) : CBFrame s t :=
  ⟨h1, traceExt_of_eq _ h2⟩

theorem cbFrame_step (E : Env) (s : State) : CBFrame s (device_step E s) :=
  cbFrame_of_eq ⟨rfl, rfl, rfl, rfl, rfl, rfl, rfl, rfl⟩ rfl

theorem cbFrame_sync (E : Env) (s : State) : CBFrame s (SVGA_Sync E s) :=
  ⟨⟨rfl, rfl, rfl, rfl, rfl, rfl, rfl, rfl⟩, traceExt_cons Event.Sync rfl rfl⟩

theorem cbFrame_writeReg (reg val : Nat) (s : State) : CBFrame s (SVGA_WriteReg reg val s) :=
  ⟨⟨rfl, rfl, rfl, rfl, rfl, rfl, rfl, rfl⟩, traceExt_cons (Event.WriteReg reg val) rfl rfl⟩

theorem cbFrame_setHdr (s : State) (p : Ptr) (h : SVGACBHeader) : CBFrame s (s.setHdr p h) :=
  cbFrame_of_eq ⟨rfl, rfl, rfl, rfl, rfl, rfl, rfl, rfl⟩ rfl

theorem cbFrame_setNode (s : State) (p : Ptr) (n : cb_queue_t) : CBFrame s (s.setNode p n) :=
  cbFrame_of_eq ⟨rfl, rfl, rfl, rfl, rfl, rfl, rfl, rfl⟩ rfl

theorem cbFrame_setCmb (s : State) (p : Ptr) (i v : Nat) : CBFrame s (s.setCmb p i v) :=
  cbFrame_of_eq ⟨rfl, rfl, rfl, rfl, rfl, rfl, rfl, rfl⟩ rfl

theorem cbFrame_ctr_wait (K : Consts) (E : Env) :
    ∀ (fuel : Nat) (s t : State), SVGA_CB_ctr_wait K E fuel s = some t → CBFrame s t
  | 0, s, t, h => by
    simp only [SVGA_CB_ctr_wait] at h
    split at h
    · cases h
    · cases h; exact cbFrame_refl s
  | fuel + 1, s, t, h => by
    simp only [SVGA_CB_ctr_wait] at h
    split at h
    · exact cbFrame_trans (cbFrame_sync E s) (cbFrame_ctr_wait K E fuel _ t h)
    · cases h; exact cbFrame_refl s

theorem cbFrame_ctr (K : Consts) (E : Env) (fuel data_size : Nat) (s t : State) (st : Nat)
    (h : SVGA_CB_ctr K E fuel data_size s = some (st, t)) : CBFrame s t := by
  simp only [SVGA_CB_ctr] at h
  generalize hs1 : SVGA_cb_id_inc _ _ = s1 at h
  cases hw : SVGA_CB_ctr_wait K E fuel s1 with
  | none => simp [hw] at h
  | some t1 =>
    simp only [hw, Option.map_some', Option.some.injEq, Prod.mk.injEq] at h
    obtain ⟨_, rfl⟩ := h
    have h1 : CBFrame s s1 := by
      subst hs1
      refine ⟨⟨rfl, rfl, rfl, rfl, rfl, rfl, rfl, rfl⟩, ⟨[Event.Sync, Event.WriteReg _ _,
        Event.WriteReg _ _], rfl, ?_⟩⟩
      intro e he
      simp at he
      rcases he with rfl | rfl | rfl <;> rfl
    exact cbFrame_trans h1 (cbFrame_ctr_wait K E fuel s1 t1 hw)

theorem cbFrame_erase_loop (K : Consts) :
    ∀ (fuel : Nat) (o : Option Ptr) (s t : State), CB_queue_erase_loop K fuel o s = some t →
      CBFrame s t
  | fuel, none, s, t, h => by
    cases fuel <;> simp only [CB_queue_erase_loop, Option.some.injEq] at h <;>
      (subst h; exact cbFrame_refl s)
  | 0, some p, s, t, h => by simp [CB_queue_erase_loop] at h
  | fuel + 1, some p, s, t, h => by
    simp only [CB_queue_erase_loop] at h
    have h2 := cbFrame_erase_loop K fuel _ _ t h
    exact cbFrame_trans (cbFrame_setHdr s p _) h2

theorem cbFrame_erase (K : Consts) (fuel : Nat) (s t : State)
    (h : CB_queue_erase K fuel s = some t) : CBFrame s t := by
  simp only [CB_queue_erase] at h
  cases hl : CB_queue_erase_loop K fuel s.cb_queue_info.first s with
  | none => simp [hl] at h
  | some t1 =>
    simp only [hl, Option.map_some', Option.some.injEq] at h
    subst h
    exact cbFrame_trans (cbFrame_erase_loop K fuel _ s t1 hl)
      (cbFrame_of_eq ⟨rfl, rfl, rfl, rfl, rfl, rfl, rfl, rfl⟩ rfl)

theorem cbFrame_fill (K : Consts) (enable : Nat) (s : State) :
    CBFrame s (cb_enable_fill K enable s) :=
  cbFrame_of_eq ⟨rfl, rfl, rfl, rfl, rfl, rfl, rfl, rfl⟩ rfl

theorem cbFrame_stop (K : Consts) (E : Env) (fuel : Nat) (s t : State)
    (h : SVGA_CB_stop K E fuel s = some t) : CBFrame s t := by
  simp only [SVGA_CB_stop] at h
  split at h
  · cases hc : SVGA_CB_ctr K E fuel K.sizeof_cb_enable_t
        (cb_enable_fill K 0 { s with cb_context0 := false }) with
    | none => simp [hc] at h
    | some r =>
      obtain ⟨st, s2⟩ := r
      simp only [hc] at h
      have h0 : CBFrame s { s with cb_context0 := false } :=
        cbFrame_of_eq ⟨rfl, rfl, rfl, rfl, rfl, rfl, rfl, rfl⟩ rfl
      exact cbFrame_trans h0 (cbFrame_trans (cbFrame_fill K 0 _)
        (cbFrame_trans (cbFrame_ctr K E fuel _ _ s2 st hc)
          (cbFrame_trans (cbFrame_sync E s2) (cbFrame_erase K fuel _ t h))))
  · cases h
    exact cbFrame_of_eq ⟨rfl, rfl, rfl, rfl, rfl, rfl, rfl, rfl⟩ rfl

theorem cbFrame_start (K : Consts) (E : Env) (fuel : Nat) (s t : State)
    (h : SVGA_CB_start K E fuel s = some t) : CBFrame s t := by
  simp only [SVGA_CB_start] at h
  split at h
  · cases hc : SVGA_CB_ctr K E fuel K.sizeof_cb_enable_t (cb_enable_fill K 1 s) with
    | none => simp [hc] at h
    | some r =>
      obtain ⟨st, s2⟩ := r
      simp only [hc] at h
      have h1 := cbFrame_trans (cbFrame_fill K 1 s) (cbFrame_ctr K E fuel _ _ s2 st hc)
      split at h
      · cases h
        exact cbFrame_trans h1 (cbFrame_of_eq ⟨rfl, rfl, rfl, rfl, rfl, rfl, rfl, rfl⟩ rfl)
      · cases h
        exact cbFrame_trans h1 (cbFrame_of_eq ⟨rfl, rfl, rfl, rfl, rfl, rfl, rfl, rfl⟩ rfl)
  · cases h
    exact cbFrame_refl s

theorem cbFrame_restart (K : Consts) (E : Env) (fuel : Nat) (s t : State)
    (h : SVGA_CB_restart K E fuel s = some t) : CBFrame s t := by
  simp only [SVGA_CB_restart] at h
  cases hs : SVGA_CB_stop K E fuel s with
  | none => simp [hs] at h
  | some s1 =>
    simp only [hs] at h
    exact cbFrame_trans (cbFrame_stop K E fuel s s1 hs) (cbFrame_start K E fuel s1 t h)

theorem cbFrame_check_loop (K : Consts) (tracked : Option Ptr) :
    ∀ (fuel : Nat) (item last : Option Ptr) (iq nr : Bool) (s t : State)
      (r : Option Ptr × Bool × Bool),
      CB_queue_check_loop K tracked fuel item last iq nr s = some (t, r) → CBFrame s t
  | fuel, none, last, iq, nr, s, t, r, h => by
    cases fuel <;> simp only [CB_queue_check_loop, Option.some.injEq, Prod.mk.injEq] at h <;>
      (obtain ⟨rfl, _⟩ := h; exact cbFrame_refl s)
  | 0, some p, last, iq, nr, s, t, r, h => by simp [CB_queue_check_loop] at h
  | fuel + 1, some p, last, iq, nr, s, t, r, h => by
    simp only [CB_queue_check_loop] at h
    split at h
    · cases last with
      | none =>
        have h2 := cbFrame_check_loop K tracked fuel _ _ _ _ _ t r h
        have h1 : CBFrame s { s with cb_queue_info :=
            { s.cb_queue_info with first := (s.node p).next } } :=
          cbFrame_of_eq ⟨rfl, rfl, rfl, rfl, rfl, rfl, rfl, rfl⟩ rfl
        exact cbFrame_trans h1 h2
      | some q =>
        have h2 := cbFrame_check_loop K tracked fuel _ _ _ _ _ t r h
        exact cbFrame_trans (cbFrame_setNode s q _) h2
    · exact cbFrame_check_loop K tracked fuel _ _ _ _ s t r h

theorem cbFrame_check_inline (K : Consts) (E : Env) (fuel : Nat) (tracked : Option Ptr)
    (s t : State) (b : Bool) (h : CB_queue_check_inline K E fuel tracked s = some (b, t)) :
    CBFrame s t := by
  simp only [CB_queue_check_inline] at h
  cases hl : CB_queue_check_loop K tracked fuel s.cb_queue_info.first none false false s with
  | none => simp [hl] at h
  | some r =>
    obtain ⟨s1, last, iq, nr⟩ := r
    simp only [hl] at h
    have h1 := cbFrame_check_loop K tracked fuel _ _ _ _ s s1 _ hl
    have h2 : CBFrame s1 { s1 with cb_queue_info := { s1.cb_queue_info with last := last } } :=
      cbFrame_of_eq ⟨rfl, rfl, rfl, rfl, rfl, rfl, rfl, rfl⟩ rfl
    have h12 := cbFrame_trans h1 h2
    split at h
    · cases hr : SVGA_CB_restart K E fuel
          { s1 with cb_queue_info := { s1.cb_queue_info with last := last } } with
      | none => simp [hr] at h
      | some t1 =>
        simp only [hr, Option.map_some', Option.some.injEq, Prod.mk.injEq] at h
        obtain ⟨_, rfl⟩ := h
        exact cbFrame_trans h12 (cbFrame_restart K E fuel _ _ hr)
    · split at h
      · simp only [Option.some.injEq, Prod.mk.injEq] at h
        obtain ⟨_, rfl⟩ := h
        exact h12
      · split at h <;>
        · simp only [Option.some.injEq, Prod.mk.injEq] at h
          obtain ⟨_, rfl⟩ := h
          exact h12

theorem cbFrame_wait_flags (K : Consts) (E : Env) (n flags : Nat) :
    ∀ (fuel : Nat) (s t : State), CB_queue_wait_flags K E n flags fuel s = some t → CBFrame s t
  | 0, _, _, h => by simp [CB_queue_wait_flags] at h
  | fuel + 1, s, t, h => by
    simp only [CB_queue_wait_flags] at h
    cases hc : CB_queue_check_inline K E n none s with
    | none => simp [hc] at h
    | some r =>
      obtain ⟨b, s1⟩ := r
      simp only [hc] at h
      have h1 := cbFrame_check_inline K E n none s s1 b hc
      cases hfl : CB_queue_is_flags_set n flags s1 with
      | none => simp [hfl] at h
      | some b2 =>
        cases b2 with
        | true =>
          simp only [hfl] at h
          exact cbFrame_trans h1 (cbFrame_trans (cbFrame_step E s1)
            (cbFrame_wait_flags K E n flags fuel _ t h))
        | false =>
          simp only [hfl, Option.some.injEq] at h
          subst h
          exact h1

theorem cbFrame_WAIT_FOR_CB (K : Consts) (E : Env) (n : Nat) (cb : Ptr) (forcesync : Bool) :
    ∀ (fuel : Nat) (s t : State), WAIT_FOR_CB K E n cb forcesync fuel s = some t → CBFrame s t
  | 0, _, _, h => by simp [WAIT_FOR_CB] at h
  | fuel + 1, s, t, h => by
    simp only [WAIT_FOR_CB] at h
    cases hc : CB_queue_check_inline K E n (some cb) s with
    | none => simp [hc] at h
    | some r =>
      obtain ⟨b, s1⟩ := r
      have h1 := cbFrame_check_inline K E n (some cb) s s1 b hc
      cases b with
      | true =>
        simp only [hc, Option.some.injEq] at h
        subst h
        exact h1
      | false =>
        simp only [hc] at h
        have h2 := cbFrame_WAIT_FOR_CB K E n cb forcesync fuel _ t h
        cases forcesync with
        | true => exact cbFrame_trans h1 (cbFrame_trans (cbFrame_sync E s1) h2)
        | false => exact cbFrame_trans h1 (cbFrame_trans (cbFrame_step E s1) h2)

theorem cbFrame_insert (cb : Ptr) (flags : Nat) (s : State) :
    CBFrame s (CB_queue_insert cb flags s) := by
  unfold CB_queue_insert
  simp only []
  split <;> exact cbFrame_of_eq ⟨rfl, rfl, rfl, rfl, rfl, rfl, rfl, rfl⟩ rfl

theorem cbFrame_fence_append (K : Consts) (E : Env) (cmb : Ptr) (cmb_size flags fence : Nat)
    (s : State) : CBFrame s (cb_fence_append K E cmb cmb_size flags fence s).2.2 := by
  unfold cb_fence_append
  split
  · exact ⟨⟨rfl, rfl, rfl, rfl, rfl, rfl, rfl, rfl⟩, traceExt_cons (Event.FenceGet _) rfl rfl⟩
  · exact cbFrame_refl s

theorem dispatch_trace (K : Consts) (E : Env) (cmb : Ptr) (cmb_size flags dx : Nat)
    (s : State) :
    Stable s (cb_dispatch K E cmb cmb_size flags dx s) ∧
      ∃ v, (cb_dispatch K E cmb cmb_size flags dx s).trace =
        Event.Sync :: Event.WriteReg K.SVGA_REG_COMMAND_LOW v ::
          Event.WriteReg K.SVGA_REG_COMMAND_HIGH 0 :: s.trace := by
  have hins : ∀ (u : State) (f : Nat), (CB_queue_insert cmb f u).trace = u.trace ∧
      Stable u (CB_queue_insert cmb f u) := by
    intro u f
    unfold CB_queue_insert
    simp only []
    split <;> exact ⟨rfl, ⟨rfl, rfl, rfl, rfl, rfl, rfl, rfl, rfl⟩⟩
  have hif : ∀ u : State, Stable s u → u.trace = s.trace →
      Stable s (if flags &&& K.SVGA_CB_FLAG_DX_CONTEXT ≠ 0 then
          u.setHdr cmb { (u.hdr cmb) with
            flags := (u.hdr cmb).flags ||| K.SVGA_CB_FLAG_DX_CONTEXT, dxContext := dx }
        else u.setHdr cmb { (u.hdr cmb) with dxContext := 0 }) ∧
      (if flags &&& K.SVGA_CB_FLAG_DX_CONTEXT ≠ 0 then
          u.setHdr cmb { (u.hdr cmb) with
            flags := (u.hdr cmb).flags ||| K.SVGA_CB_FLAG_DX_CONTEXT, dxContext := dx }
        else u.setHdr cmb { (u.hdr cmb) with dxContext := 0 }).trace = s.trace := by
    intro u hu htr
    split
    · exact ⟨stable_trans hu ⟨rfl, rfl, rfl, rfl, rfl, rfl, rfl, rfl⟩, htr⟩
    · exact ⟨stable_trans hu ⟨rfl, rfl, rfl, rfl, rfl, rfl, rfl, rfl⟩, htr⟩
  unfold cb_dispatch
  simp only []
  obtain ⟨h1, h2⟩ := hif (s.setHdr cmb { (s.hdr cmb) with
    status := K.SVGA_CB_STATUS_NONE, errorOffset := 0, offset := 0,
    flags := K.SVGA_CB_FLAG_NO_IRQ }) ⟨rfl, rfl, rfl, rfl, rfl, rfl, rfl, rfl⟩ rfl
  generalize (if flags &&& K.SVGA_CB_FLAG_DX_CONTEXT ≠ 0 then _ else _ : State) = u at h1 h2
  have h3 := hins (u.setHdr cmb { (u.hdr cmb) with
    id_low := u.cb_next_id.low, id_hi := u.cb_next_id.hi, length := cmb_size })
    (flags_to_cbq K flags)
  have h4 : Stable s (u.setHdr cmb { (u.hdr cmb) with
      id_low := u.cb_next_id.low, id_hi := u.cb_next_id.hi, length := cmb_size }) :=
    stable_trans h1 ⟨rfl, rfl, rfl, rfl, rfl, rfl, rfl, rfl⟩
  have h5 : (u.setHdr cmb { (u.hdr cmb) with
      id_low := u.cb_next_id.low, id_hi := u.cb_next_id.hi, length := cmb_size }).trace =
      s.trace := h2
  generalize CB_queue_insert cmb (flags_to_cbq K flags) (u.setHdr cmb { (u.hdr cmb) with
    id_low := u.cb_next_id.low, id_hi := u.cb_next_id.hi, length := cmb_size }) = u3 at h3
  refine ⟨stable_trans (stable_trans h4 h3.2) ⟨rfl, rfl, rfl, rfl, rfl, rfl, rfl, rfl⟩,
    (((u3.hdr cmb).ptr_pa_low + 2 ^ 32 - K.sizeof_SVGACBHeader % 2 ^ 32) % 2 ^ 32)
      ||| K.SVGA_CB_CONTEXT_0, ?_⟩
  show Event.Sync :: Event.WriteReg _ _ :: Event.WriteReg _ _ :: u3.trace = _
  rw [h3.1, h5]
  rfl

/-! ## Choice of the transport (C8) -/

theorem fifoFrame_refl (s : State) : FifoFrame s s :=
  ⟨rfl, rfl, rfl, rfl, rfl, rfl, rfl, rfl, traceExt_refl _ s⟩

theorem fifoFrame_trans {s t u : State} (h1 : FifoFrame s t) (h2 : FifoFrame t u) :
    FifoFrame s u :=
  ⟨h2.node.trans h1.node, h2.cb_queue_info.trans h1.cb_queue_info,
    h2.cb_next_id.trans h1.cb_next_id, h2.cb_support.trans h1.cb_support,
    h2.cb_context0.trans h1.cb_context0, h2.ctlbuf.trans h1.ctlbuf, h2.cmdbuf.trans h1.cmdbuf,
    h2.critical.trans h1.critical, traceExt_trans h1.trace h2.trace⟩

theorem fifoFrame_setHdr (s : State) (p : Ptr) (h : SVGACBHeader) :
    FifoFrame s (s.setHdr p h) :=
  ⟨rfl, rfl, rfl, rfl, rfl, rfl, rfl, rfl, traceExt_refl _ s⟩

theorem fifoFrame_fence_wait (E : Env) (f : Nat) (s : State) :
    FifoFrame s (SVGA_fence_wait E f s) :=
  ⟨rfl, rfl, rfl, rfl, rfl, rfl, rfl, rfl, traceExt_cons (Event.FenceWait f) rfl rfl⟩

theorem fifoFrame_fifoStore (i v : Nat) (s : State) : FifoFrame s (s.fifoStore i v) :=
  ⟨rfl, rfl, rfl, rfl, rfl, rfl, rfl, rfl, traceExt_cons (Event.FifoStore i v) rfl rfl⟩

theorem fifoFrame_fence_append (K : Consts) (E : Env) (ptr : Ptr) (dwords flags fence : Nat)
    (s : State) : FifoFrame s (fifo_fence_append K E ptr dwords flags fence s).2.2 := by
  unfold fifo_fence_append
  split
  · exact ⟨rfl, rfl, rfl, rfl, rfl, rfl, rfl, rfl, traceExt_cons (Event.FenceGet _) rfl rfl⟩
  · exact fifoFrame_refl s

theorem fifoFrame_fence_check (K : Consts) (E : Env) (flags : Nat) (s : State) :
    FifoFrame s (flags_fence_check K E flags s) := by
  have step : ∀ (c : Prop) [Decidable c] (u : State) (get : State → Nat)
      (clear : State → State), (∀ v, FifoFrame v (clear v)) →
      FifoFrame u (if c then (if get u ≠ 0 then clear (SVGA_fence_wait E (get u) u) else u)
        else u) := by
    intro c _ u get clear hclear
    split
    · split
      · exact fifoFrame_trans (fifoFrame_fence_wait E _ u) (hclear _)
      · exact fifoFrame_refl u
    · exact fifoFrame_refl u
  unfold flags_fence_check
  simp only []
  refine fifoFrame_trans (fifoFrame_trans
    (step _ s (fun u => u.fence_present) (fun u => { u with fence_present := 0 })
      (fun v => ⟨rfl, rfl, rfl, rfl, rfl, rfl, rfl, rfl, traceExt_refl _ v⟩))
    (step _ _ (fun u => u.fence_render) (fun u => { u with fence_render := 0 })
      (fun v => ⟨rfl, rfl, rfl, rfl, rfl, rfl, rfl, rfl, traceExt_refl _ v⟩)))
    (step _ _ (fun u => u.fence_update) (fun u => { u with fence_update := 0 })
      (fun v => ⟨rfl, rfl, rfl, rfl, rfl, rfl, rfl, rfl, traceExt_refl _ v⟩))

theorem fifoFrame_fence_insert (K : Consts) (flags fence : Nat) (s : State) :
    FifoFrame s (flags_fence_insert K flags fence s) := by
  unfold flags_fence_insert
  simp only []
  split_ifs <;> exact ⟨rfl, rfl, rfl, rfl, rfl, rfl, rfl, rfl, traceExt_refl _ s⟩

theorem fifoFrame_copy_loop (K : Consts) (cmb max min : Nat) :
    ∀ (dwords ptr nextCmd : Nat) (s : State),
      FifoFrame s (fifo_copy_loop K cmb max min dwords ptr nextCmd s)
  | 0, _, _, s => fifoFrame_refl s
  | dwords + 1, ptr, nextCmd, s => by
    simp only [fifo_copy_loop]
    exact fifoFrame_trans (fifoFrame_trans (fifoFrame_fifoStore _ _ s)
      (fifoFrame_fifoStore _ _ _)) (fifoFrame_copy_loop K cmb max min dwords _ _ _)

theorem fifoFrame_submit (K : Consts) (E : Env) (cmb cmb_size : Nat)
    (status : Option SVGA_CMB_status_t) (flags fence : Nat) (s : State) :
    FifoFrame s (SVGA_CMB_submit_fifo K E cmb cmb_size status flags fence s).2 := by
  have h1 := fifoFrame_fence_append K E cmb (cmb_size / sizeof_DWORD) flags fence s
  have h2 := fifoFrame_trans h1 (fifoFrame_fence_check K E flags _)
  unfold SVGA_CMB_submit_fifo
  simp only []
  split
  · exact fifoFrame_trans h2 (fifoFrame_setHdr _ _ _)
  · split
    · exact fifoFrame_trans h2 (fifoFrame_trans (fifoFrame_copy_loop K _ _ _ _ _ _ _)
        (fifoFrame_trans (fifoFrame_fence_wait E _ _) (fifoFrame_setHdr _ _ _)))
    · exact fifoFrame_trans h2 (fifoFrame_trans (fifoFrame_copy_loop K _ _ _ _ _ _ _)
        (fifoFrame_trans (fifoFrame_fence_insert K _ _ _) (fifoFrame_setHdr _ _ _)))

theorem cb_fence_append_size (K : Consts) (E : Env) (cmb : Ptr) (cmb_size flags fence : Nat)
    (s : State) :
    (cb_fence_append K E cmb cmb_size flags fence s).2.1 =
      if flags_cb_fence_need flags then (cmb_size + sizeof_DWORD * 2) % 2 ^ 32 else cmb_size := by
  unfold cb_fence_append
  split <;> rfl

theorem submit_cb_frame (K : Consts) (E : Env) (fuel cmb cmb_size : Nat)
    (status : Option SVGA_CMB_status_t) (flags dx fence : Nat) (s : State)
    (st : Option SVGA_CMB_status_t) (t : State)
    (h : SVGA_CMB_submit_cb K E fuel cmb cmb_size status flags dx fence s = some (st, t)) :
    Stable s t ∧ ∃ ev, t.trace = ev ++ s.trace ∧ (∀ e ∈ ev, e.is_ring = false) ∧
      ((cb_fence_append K E cmb cmb_size flags fence s).2.1 ≠ 0 →
        ∃ v, Event.WriteReg K.SVGA_REG_COMMAND_LOW v ∈ ev) := by
  have key : ∀ {a b : State}, CBFrame a b → Stable a b ∧
      ∃ ev, b.trace = ev ++ a.trace ∧ ∀ e ∈ ev, e.is_ring = false := by
    intro a b hab
    obtain ⟨ev, h1, h2⟩ := hab.trace
    exact ⟨hab.stable, ev, h1, fun e he => by simpa using h2 e he⟩
  have h0 := cbFrame_fence_append K E cmb cmb_size flags fence s
  simp only [SVGA_CMB_submit_cb] at h
  cases hw : CB_queue_wait_flags K E fuel (flags_to_cbq_check K flags) fuel
      (cb_fence_append K E cmb cmb_size flags fence s).2.2 with
  | none => simp [hw] at h
  | some s1 =>
    simp only [hw] at h
    have h1 := cbFrame_trans h0 (cbFrame_wait_flags K E fuel _ fuel _ s1 hw)
    by_cases hz : (cb_fence_append K E cmb cmb_size flags fence s).2.1 = 0
    · simp only [hz, if_true, Option.some.injEq, Prod.mk.injEq] at h
      obtain ⟨_, rfl⟩ := h
      obtain ⟨hs, ev, he1, he2⟩ := key (cbFrame_trans h1 (cbFrame_setHdr s1 cmb _))
      exact ⟨hs, ev, he1, he2, fun hne => absurd hz hne⟩
    · simp only [hz, if_false] at h
      obtain ⟨hd1, v, hd2⟩ := dispatch_trace K E cmb
        (cb_fence_append K E cmb cmb_size flags fence s).2.1 flags dx s1
      obtain ⟨hs1, ev1, he1, he1'⟩ := key h1
      -- the state after the dispatch, and what a later wait appends
      have fin : ∀ t' : State,
          CBFrame (cb_dispatch K E cmb (cb_fence_append K E cmb cmb_size flags fence s).2.1
            flags dx s1) t' →
          Stable s t' ∧ ∃ ev, t'.trace = ev ++ s.trace ∧ (∀ e ∈ ev, e.is_ring = false) ∧
            ((cb_fence_append K E cmb cmb_size flags fence s).2.1 ≠ 0 →
              ∃ v, Event.WriteReg K.SVGA_REG_COMMAND_LOW v ∈ ev) := by
        intro t' ht'
        obtain ⟨hs3, ev3, he3, he3'⟩ := key ht'
        refine ⟨stable_trans hs1 (stable_trans hd1 hs3),
          ev3 ++ (Event.Sync :: Event.WriteReg K.SVGA_REG_COMMAND_LOW v ::
            Event.WriteReg K.SVGA_REG_COMMAND_HIGH 0 :: ev1), ?_, ?_, ?_⟩
        · rw [he3, hd2, he1]
          simp
        · intro e he
          rcases List.mem_append.1 he with he | he
          · exact he3' e he
          · simp only [List.mem_cons] at he
            rcases he with rfl | rfl | rfl | he
            · rfl
            · rfl
            · rfl
            · exact he1' e he
        · intro _
          exact ⟨v, by simp⟩
      split at h
      · cases hw2 : WAIT_FOR_CB K E fuel cmb false fuel
            (cb_dispatch K E cmb (cb_fence_append K E cmb cmb_size flags fence s).2.1
              flags dx s1) with
        | none => simp [hw2] at h
        | some s3 =>
          simp only [hw2, Option.some.injEq, Prod.mk.injEq] at h
          obtain ⟨_, rfl⟩ := h
          exact fin _ (cbFrame_WAIT_FOR_CB K E fuel cmb false fuel _ _ hw2)
      · simp only [Option.some.injEq, Prod.mk.injEq] at h
        obtain ⟨_, rfl⟩ := h
        exact fin _ (cbFrame_refl _)

theorem submit_entry_frame (K : Consts) (cmb : Ptr) (status : Option SVGA_CMB_status_t)
    (flags : Nat) (s : State) :
    FifoFrame s (submit_entry K cmb status flags s).2 ∧
      (submit_entry K cmb status flags s).2.trace = s.trace ∧
      (submit_entry K cmb status flags s).2.fifoMem = s.fifoMem ∧
      (submit_entry K cmb status flags s).2.fence_present = s.fence_present ∧
      (submit_entry K cmb status flags s).2.fence_render = s.fence_render ∧
      (submit_entry K cmb status flags s).2.fence_update = s.fence_update := by
  unfold submit_entry
  cases status <;> simp only [] <;> split <;>
    exact ⟨⟨rfl, rfl, rfl, rfl, rfl, rfl, rfl, rfl, traceExt_refl _ _⟩, rfl, rfl, rfl, rfl, rfl⟩

theorem cb_transport_entry (K : Consts) (cmb : Ptr) (status : Option SVGA_CMB_status_t)
    (flags : Nat) (s : State) :
    cb_transport flags (submit_entry K cmb status flags s).2 = true ↔
      (s.cb_support = true ∧ s.cb_context0 = true ∧ flags &&& SVGA_CB_FORCE_FIFO = 0) := by
  have h := (submit_entry_frame K cmb status flags s).1
  simp only [cb_transport, h.cb_support, h.cb_context0, Bool.and_eq_true, beq_iff_eq, and_assoc]

/-- C8: `SVGA_CMB_submit_critical` runs its command-buffer branch exactly when, at
entry, `cb_support` and `cb_context0` are TRUE and `SVGA_CB_FORCE_FIFO` is not set,
and its FIFO branch in every other case.  The FIFO branch always returns; it leaves
the queue (links, head, tail) and the submission counter as they were and writes no
register.  The command-buffer branch stores nothing into the FIFO memory, waits
for no fence and leaves the fence slots alone; when the effective payload length
is not zero it writes `SVGA_REG_COMMAND_LOW`. -/
theorem C8_transport_choice (K : Consts) (E : Env) (fuel cmb cmb_size : Nat)
    (status : Option SVGA_CMB_status_t) (flags dx : Nat) (s : State) :
    ((s.cb_support = true ∧ s.cb_context0 = true ∧ flags &&& SVGA_CB_FORCE_FIFO = 0) →
      SVGA_CMB_submit_critical K E fuel cmb cmb_size status flags dx s =
          (SVGA_CMB_submit_cb K E fuel cmb cmb_size (submit_entry K cmb status flags s).1
            flags dx 0 (submit_entry K cmb status flags s).2).map (submit_exit E) ∧
        ∀ st t, SVGA_CMB_submit_critical K E fuel cmb cmb_size status flags dx s = some (st, t) →
          t.fifoMem = s.fifoMem ∧ t.fence_present = s.fence_present ∧
          t.fence_render = s.fence_render ∧ t.fence_update = s.fence_update ∧
          ∃ ev, t.trace = ev ++ s.trace ∧ (∀ e ∈ ev, e.is_ring = false) ∧
            ((if flags_cb_fence_need flags then (cmb_size + sizeof_DWORD * 2) % 2 ^ 32
                else cmb_size) ≠ 0 →
              ∃ v, Event.WriteReg K.SVGA_REG_COMMAND_LOW v ∈ ev)) ∧
    (¬ (s.cb_support = true ∧ s.cb_context0 = true ∧ flags &&& SVGA_CB_FORCE_FIFO = 0) →
      SVGA_CMB_submit_critical K E fuel cmb cmb_size status flags dx s =
          some (submit_exit E (SVGA_CMB_submit_fifo K E cmb cmb_size
            (submit_entry K cmb status flags s).1 flags 0 (submit_entry K cmb status flags s).2)) ∧
        ∃ st t, SVGA_CMB_submit_critical K E fuel cmb cmb_size status flags dx s = some (st, t) ∧
          t.node = s.node ∧ t.cb_queue_info = s.cb_queue_info ∧ t.cb_next_id = s.cb_next_id ∧
          ∃ ev, t.trace = ev ++ s.trace ∧ ∀ e ∈ ev, e.is_reg = false) := by
  obtain ⟨hfe, htr, hmem, hfp, hfr, hfu⟩ := submit_entry_frame K cmb status flags s
  constructor
  · intro hc
    have hct := (cb_transport_entry K cmb status flags s).2 hc
    have heq : SVGA_CMB_submit_critical K E fuel cmb cmb_size status flags dx s =
        (SVGA_CMB_submit_cb K E fuel cmb cmb_size (submit_entry K cmb status flags s).1
          flags dx 0 (submit_entry K cmb status flags s).2).map (submit_exit E) := by
      simp only [SVGA_CMB_submit_critical, hct, if_true]
    refine ⟨heq, ?_⟩
    intro st t hres
    rw [heq] at hres
    cases hcb : SVGA_CMB_submit_cb K E fuel cmb cmb_size (submit_entry K cmb status flags s).1
        flags dx 0 (submit_entry K cmb status flags s).2 with
    | none => simp [hcb] at hres
    | some r =>
      obtain ⟨st', t'⟩ := r
      simp only [hcb, Option.map_some', submit_exit, Option.some.injEq, Prod.mk.injEq] at hres
      obtain ⟨_, rfl⟩ := hres
      obtain ⟨hst, ev, he1, he2, he3⟩ := submit_cb_frame K E fuel cmb cmb_size _ flags dx 0 _ _ _
        hcb
      rw [cb_fence_append_size] at he3
      exact ⟨hst.fifoMem.trans hmem, hst.fence_present.trans hfp, hst.fence_render.trans hfr,
        hst.fence_update.trans hfu, ev, by rw [he1, htr], he2, he3⟩
  · intro hc
    have hct : cb_transport flags (submit_entry K cmb status flags s).2 = false := by
      rw [← Bool.not_eq_true]
      exact fun h => hc ((cb_transport_entry K cmb status flags s).1 h)
    have heq : SVGA_CMB_submit_critical K E fuel cmb cmb_size status flags dx s =
        some (submit_exit E (SVGA_CMB_submit_fifo K E cmb cmb_size
          (submit_entry K cmb status flags s).1 flags 0 (submit_entry K cmb status flags s).2)) := by
      simp only [SVGA_CMB_submit_critical, hct, Bool.false_eq_true, if_false, Option.map_some']
    refine ⟨heq, _, _, heq, ?_⟩
    have hff := fifoFrame_trans hfe (fifoFrame_submit K E cmb cmb_size
      (submit_entry K cmb status flags s).1 flags 0 (submit_entry K cmb status flags s).2)
    obtain ⟨ev, he1, he2⟩ := hff.trace
    exact ⟨hff.node, hff.cb_queue_info, hff.cb_next_id, ev, he1,
      fun e he => by simpa using he2 e he⟩

theorem C8_transport_choice_witness :
    ∃ st t, SVGA_CMB_submit_critical svga prompt_env 4 10 16 none 0 0 zero_state = some (st, t) ∧
      t.fifoMem = zero_state.fifoMem ∧
      ∃ ev, t.trace = ev ++ zero_state.trace ∧ (∀ e ∈ ev, e.is_ring = false) ∧
        ∃ v, Event.WriteReg svga.SVGA_REG_COMMAND_LOW v ∈ ev := by
  have hsome : (SVGA_CMB_submit_critical svga prompt_env 4 10 16 none 0 0 zero_state).isSome =
      true := by decide
  obtain ⟨r, hr⟩ := Option.isSome_iff_exists.1 hsome
  obtain ⟨st, t⟩ := r
  obtain ⟨h1, _, _, _, ev, h2, h3, h4⟩ :=
    ((C8_transport_choice svga prompt_env 4 10 16 none 0 0 zero_state).1
      ⟨rfl, rfl, by decide⟩).2 st t hr
  exact ⟨st, t, hr, h1, ev, h2, h3, h4 (by decide)⟩

/-! ## Degenerate submissions (C9) -/

theorem quietFrame_refl (s : State) : QuietFrame s s :=
  ⟨stable_refl s, rfl, rfl, rfl, rfl, rfl, fun _ => rfl⟩

theorem quietFrame_trans {s t u : State} (h1 : QuietFrame s t) (h2 : QuietFrame t u) :
    QuietFrame s u :=
  ⟨stable_trans h1.stable h2.stable, h2.trace.trans h1.trace,
    h2.cb_next_id.trans h1.cb_next_id, h2.cb_support.trans h1.cb_support,
    h2.cb_context0.trans h1.cb_context0, h2.cmb.trans h1.cmb,
    fun p => (h2.node_flags p).trans (h1.node_flags p)⟩

theorem quietFrame_step (E : Env) (s : State) : QuietFrame s (device_step E s) :=
  ⟨⟨rfl, rfl, rfl, rfl, rfl, rfl, rfl, rfl⟩, rfl, rfl, rfl, rfl, rfl, fun _ => rfl⟩

theorem quietFrame_setHdr (s : State) (p : Ptr) (h : SVGACBHeader) :
    QuietFrame s (s.setHdr p h) :=
  ⟨⟨rfl, rfl, rfl, rfl, rfl, rfl, rfl, rfl⟩, rfl, rfl, rfl, rfl, rfl, fun _ => rfl⟩

theorem quietFrame_of_scan {s t : State} (h : ScanFrame s t) : QuietFrame s t := by
  obtain ⟨h1, h2⟩ := h
  refine ⟨⟨?_, ?_, ?_, ?_, ?_, ?_, ?_, ?_⟩, ?_, ?_, ?_, ?_, ?_, fun p => (h2 p).1⟩ <;> rw [h1]

theorem wait_flags_quiet (K : Consts) (E : Env) (n flags : Nat) (hdev : no_fault_device K E) :
    ∀ (fuel : Nat) (s t : State) (l : List Ptr), QueueIs s l → l.length ≤ n →
      (∀ p ∈ l, faulted K s p = false) →
      CB_queue_wait_flags K E n flags fuel s = some t →
      ∃ l2, QueueIs t l2 ∧ l2.Sublist l ∧ QuietFrame s t
  | 0, _, _, _, _, _, _, h => by simp [CB_queue_wait_flags] at h
  | fuel + 1, s, t, l, hq, hn, hnf, h => by
    obtain ⟨s1, hc, hq1, hfr⟩ := check_inline_no_fault K E n none s l hq hnf hn
    have hsub : (l.filter (pending K s)).Sublist l := List.filter_sublist l
    have hqf := quietFrame_of_scan hfr
    simp only [CB_queue_wait_flags, hc] at h
    cases hfl : CB_queue_is_flags_set n flags s1 with
    | none => simp [hfl] at h
    | some b =>
      cases b with
      | false =>
        simp only [hfl, Option.some.injEq] at h
        subst h
        exact ⟨_, hq1, hsub, hqf⟩
      | true =>
        simp only [hfl] at h
        have hq2 : QueueIs (device_step E s1) (l.filter (pending K s)) := hq1
        have hhdr : s1.hdr = s.hdr := (scanFrame_proj hfr).1
        have hnf2 : ∀ p ∈ l.filter (pending K s), faulted K (device_step E s1) p = false := by
          intro p hp
          have hpl : p ∈ l := hsub.subset hp
          have h0 := hnf p hpl
          simp only [faulted, decide_eq_false_iff_not, not_lt, gt_iff_lt] at h0 ⊢
          simp only [device_step]
          cases hd : E.dev_status s1.tick p with
          | none => simpa [hhdr] using h0
          | some v => simpa using hdev _ _ _ hd
        obtain ⟨l2, hq3, hsub3, hfr3⟩ := wait_flags_quiet K E n flags hdev fuel
          (device_step E s1) t _ hq2 (le_trans (List.length_filter_le _ _) hn) hnf2 h
        exact ⟨l2, hq3, hsub3.trans hsub,
          quietFrame_trans hqf (quietFrame_trans (quietFrame_step E s1) hfr3)⟩

theorem wait_flags_returns (K : Consts) (E : Env) (n flags fuel : Nat) (s : State)
    (l : List Ptr) (hq : QueueIs s l) (hn : l.length ≤ n)
    (hnf : ∀ p ∈ l, faulted K s p = false)
    (hquiet : ∀ p ∈ l, pending K s p = true → (s.node p).flags &&& flags = 0) :
    ∃ t, CB_queue_wait_flags K E n flags (fuel + 1) s = some t := by
  obtain ⟨s1, hc, hq1, hfr⟩ := check_inline_no_fault K E n none s l hq hnf hn
  have hfl : CB_queue_is_flags_set n flags s1 = some false := by
    refine is_flags_set_false flags n hq1 ?_ (le_trans (List.length_filter_le _ _) hn)
    intro p hp
    rw [(hfr.2 p).1]
    exact hquiet p (List.mem_filter.1 hp).1 (List.mem_filter.1 hp).2
  exact ⟨s1, by simp only [CB_queue_wait_flags, hc, hfl]⟩
theorem wait_flags_live (K : Consts) (E : Env) (n flags : Nat) (hdev : no_fault_device K E) :
    ∀ (k fuel : Nat) (s : State) (l : List Ptr), QueueIs s l → l.length ≤ n →
      (∀ p ∈ l, faulted K s p = false) → k < fuel →
      (∀ p ∈ l, (s.node p).flags &&& flags ≠ 0 → pending K s p = true →
        ∃ j, j < k ∧ ∃ v, E.dev_status (s.tick + j) p = some v ∧
          K.SVGA_CB_STATUS_COMPLETED ≤ v) →
      ∃ t, CB_queue_wait_flags K E n flags fuel s = some t
  | 0, fuel, s, l, hq, hn, hnf, hk, hlive => by
    obtain ⟨fuel0, rfl⟩ : ∃ f, fuel = f + 1 := ⟨fuel - 1, by omega⟩
    refine wait_flags_returns K E n flags fuel0 s l hq hn hnf ?_
    intro p hp hpe
    by_contra hne
    obtain ⟨j, hj, _⟩ := hlive p hp hne hpe
    omega
  | k + 1, fuel, s, l, hq, hn, hnf, hk, hlive => by
    obtain ⟨fuel0, rfl⟩ : ∃ f, fuel = f + 1 := ⟨fuel - 1, by omega⟩
    obtain ⟨s1, hc, hq1, hfr⟩ := check_inline_no_fault K E n none s l hq hnf hn
    have hsub : (l.filter (pending K s)).Sublist l := List.filter_sublist l
    have hlen : (l.filter (pending K s)).length ≤ n := le_trans (List.length_filter_le _ _) hn
    obtain ⟨hhdr, _, _, _, _, _, htick, _⟩ := scanFrame_proj hfr
    simp only [CB_queue_wait_flags, hc]
    cases hfl : CB_queue_is_flags_set n flags s1 with
    | none =>
      -- the chain is well formed, so the query cannot run out of fuel
      exfalso
      by_cases hex : ∃ p ∈ l.filter (pending K s), (s1.node p).flags &&& flags ≠ 0
      · rw [is_flags_set_true flags n hq1 hex hlen] at hfl
        cases hfl
      · rw [is_flags_set_false flags n hq1 (fun p hp => by
          by_contra hne
          exact hex ⟨p, hp, hne⟩) hlen] at hfl
        cases hfl
    | some b =>
      cases b with
      | false => exact ⟨s1, rfl⟩
      | true =>
        simp only []
        have hq2 : QueueIs (device_step E s1) (l.filter (pending K s)) := hq1
        have hnf2 : ∀ p ∈ l.filter (pending K s), faulted K (device_step E s1) p = false := by
          intro p hp
          have h0 := hnf p (hsub.subset hp)
          simp only [faulted, decide_eq_false_iff_not, not_lt, gt_iff_lt] at h0 ⊢
          simp only [device_step]
          cases hd : E.dev_status s1.tick p with
          | none => simpa [hhdr] using h0
          | some v => simpa using hdev _ _ _ hd
        refine wait_flags_live K E n flags hdev k fuel0 (device_step E s1) _ hq2 hlen hnf2
          (by omega) ?_
        intro p hp hfl2 hpe2
        have hpl := List.mem_filter.1 hp
        have hfl0 : (s.node p).flags &&& flags ≠ 0 := by
          rw [← (hfr.2 p).1]; exact hfl2
        obtain ⟨j, hj, v, hv, hvc⟩ := hlive p hpl.1 hfl0 hpl.2
        cases j with
        | zero =>
          exfalso
          have hv0 : E.dev_status s1.tick p = some v := by
            rw [htick]; simpa using hv
          simp only [pending, device_step, hv0, decide_eq_true_eq] at hpe2
          omega
        | succ j =>
          refine ⟨j, by omega, v, ?_, hvc⟩
          have : (device_step E s1).tick + j = s.tick + (j + 1) := by
            simp only [device_step, htick]; omega
          rw [this]
          exact hv

theorem and_or_eq_zero {x a b : Nat} (h : x &&& (a ||| b) = 0) : x &&& a = 0 ∧ x &&& b = 0 := by
  have hb : ∀ i, (x &&& (a ||| b)).testBit i = false := by
    intro i; rw [h]; exact Nat.zero_testBit i
  constructor
  · apply Nat.eq_of_testBit_eq
    intro i
    have := hb i
    simp only [Nat.testBit_and, Nat.testBit_or, Nat.zero_testBit] at this ⊢
    cases hx : x.testBit i <;> cases ha : a.testBit i <;> simp_all
  · apply Nat.eq_of_testBit_eq
    intro i
    have := hb i
    simp only [Nat.testBit_and, Nat.testBit_or, Nat.zero_testBit] at this ⊢
    cases hx : x.testBit i <;> cases ha : b.testBit i <;> simp_all

theorem fifo_no_fence_flags (K : Consts) (flags : Nat)
    (h : flags_fifo_fence_need K flags = false) :
    flags &&& SVGA_CB_SYNC = 0 ∧ flags &&& K.SVGA_CB_PRESENT = 0 ∧
      flags &&& K.SVGA_CB_RENDER = 0 ∧ flags &&& K.SVGA_CB_UPDATE = 0 := by
  simp only [flags_fifo_fence_need, ne_eq, decide_eq_false_iff_not, not_not] at h
  obtain ⟨h1, hU⟩ := and_or_eq_zero h
  obtain ⟨h2, hR⟩ := and_or_eq_zero h1
  obtain ⟨h3, hP⟩ := and_or_eq_zero h2
  obtain ⟨hS, _⟩ := and_or_eq_zero h3
  exact ⟨hS, hP, hR, hU⟩

theorem fence_check_no_category (K : Consts) (E : Env) (flags : Nat) (s : State)
    (hP : flags &&& K.SVGA_CB_PRESENT = 0) (hR : flags &&& K.SVGA_CB_RENDER = 0)
    (hU : flags &&& K.SVGA_CB_UPDATE = 0) : flags_fence_check K E flags s = s := by
  have h0 : flags_to_cbq_check K flags = 0 := by
    simp [flags_to_cbq_check, hP, hR, hU]
  simp [flags_fence_check, h0]

theorem submit_fifo_degenerate (K : Consts) (E : Env) (cmb : Ptr)
    (status : Option SVGA_CMB_status_t) (flags : Nat) (s : State)
    (h : flags_fifo_fence_need K flags = false) :
    SVGA_CMB_submit_fifo K E cmb 0 status flags 0 s =
      (status.map fun st =>
        { st with sStatus := SVGA_PROC_COMPLETED, qStatus := none, fifo_fence_used := 0 },
       s.setHdr cmb { (s.hdr cmb) with status := SVGA_PROC_COMPLETED }) := by
  obtain ⟨_, hP, hR, hU⟩ := fifo_no_fence_flags K flags h
  have hfa : fifo_fence_append K E cmb (0 / sizeof_DWORD) flags 0 s = (0, 0, s) := by
    simp [fifo_fence_append, h]
  simp only [SVGA_CMB_submit_fifo, hfa, fence_check_no_category K E flags s hP hR hU, if_true]

theorem submit_cb_degenerate (K : Consts) (E : Env) (fuel : Nat) (cmb : Ptr)
    (status : Option SVGA_CMB_status_t) (flags dx : Nat) (s : State)
    (h : flags_cb_fence_need flags = false) :
    SVGA_CMB_submit_cb K E fuel cmb 0 status flags dx 0 s =
      (CB_queue_wait_flags K E fuel (flags_to_cbq_check K flags) fuel s).map fun t =>
        (status.map fun st =>
          { st with sStatus := SVGA_PROC_COMPLETED, qStatus := none, fifo_fence_used := 0 },
         t.setHdr cmb { (t.hdr cmb) with status := SVGA_PROC_COMPLETED }) := by
  have hfa : cb_fence_append K E cmb 0 flags 0 s = (0, 0, s) := by
    simp [cb_fence_append, h]
  simp only [SVGA_CMB_submit_cb, hfa]
  cases CB_queue_wait_flags K E fuel (flags_to_cbq_check K flags) fuel s <;> simp

theorem submit_entry_queue (K : Consts) (cmb : Ptr) (status : Option SVGA_CMB_status_t)
    (flags : Nat) (s : State) (l : List Ptr)
    (hnone : K.SVGA_CB_STATUS_NONE ≤ K.SVGA_CB_STATUS_COMPLETED) (hq : QueueIs s l)
    (hnf : ∀ p ∈ l, faulted K s p = false) :
    QueueIs (submit_entry K cmb status flags s).2 l ∧
      (∀ p ∈ l, faulted K (submit_entry K cmb status flags s).2 p = false) ∧
      (∀ p, ((submit_entry K cmb status flags s).2.node p).flags = (s.node p).flags) ∧
      (submit_entry K cmb status flags s).2.cb_next_id = s.cb_next_id ∧
      (submit_entry K cmb status flags s).2.fifoMem = s.fifoMem ∧
      (submit_entry K cmb status flags s).2.trace = s.trace ∧
      (submit_entry K cmb status flags s).1 =
        status.map (fun st => { st with sStatus := SVGA_PROC_NONE, qStatus := some cmb }) ∧
      (∀ p, pending K (submit_entry K cmb status flags s).2 p = true →
        pending K s p = true ∨ p = cmb) ∧
      (submit_entry K cmb status flags s).2.tick = s.tick := by
  have hfr := submit_entry_frame K cmb status flags s
  refine ⟨queueIs_congr hfr.1.node hfr.1.cb_queue_info hq, ?_, ?_, hfr.1.cb_next_id, hfr.2.2.1,
    hfr.2.1, ?_, ?_, ?_⟩
  · intro p hp
    have h0 := hnf p hp
    simp only [faulted, decide_eq_false_iff_not, not_lt, gt_iff_lt] at h0 ⊢
    unfold submit_entry
    cases status <;> simp only [] <;> split <;>
      first
        | exact h0
        | (simp only [State.setHdr]
           by_cases hpc : p = cmb
           · simp only [hpc, if_true]; exact hnone
           · simp only [hpc, if_false]; exact h0)
  · intro p
    rw [hfr.1.node]
  · unfold submit_entry
    cases status <;> rfl
  · intro p
    by_cases hpc : p = cmb
    · exact fun _ => Or.inr hpc
    · intro hp
      left
      simp only [pending, decide_eq_true_eq] at hp ⊢
      revert hp
      unfold submit_entry
      cases status <;> simp only [] <;> split <;> simp [State.setHdr, hpc]
  · unfold submit_entry
    cases status <;> simp only [] <;> split <;> rfl

theorem submit_critical_cb_eq (K : Consts) (E : Env) (fuel cmb cmb_size : Nat)
    (status : Option SVGA_CMB_status_t) (flags dx : Nat) (s : State)
    (hc : s.cb_support = true ∧ s.cb_context0 = true ∧ flags &&& SVGA_CB_FORCE_FIFO = 0) :
    SVGA_CMB_submit_critical K E fuel cmb cmb_size status flags dx s =
      (SVGA_CMB_submit_cb K E fuel cmb cmb_size (submit_entry K cmb status flags s).1
        flags dx 0 (submit_entry K cmb status flags s).2).map (submit_exit E) := by
  have hct := (cb_transport_entry K cmb status flags s).2 hc
  simp only [SVGA_CMB_submit_critical, hct, if_true]

theorem submit_critical_fifo_eq (K : Consts) (E : Env) (fuel cmb cmb_size : Nat)
    (status : Option SVGA_CMB_status_t) (flags dx : Nat) (s : State)
    (hc : ¬ (s.cb_support = true ∧ s.cb_context0 = true ∧ flags &&& SVGA_CB_FORCE_FIFO = 0)) :
    SVGA_CMB_submit_critical K E fuel cmb cmb_size status flags dx s =
      some (submit_exit E (SVGA_CMB_submit_fifo K E cmb cmb_size
        (submit_entry K cmb status flags s).1 flags 0 (submit_entry K cmb status flags s).2)) := by
  have hct : cb_transport flags (submit_entry K cmb status flags s).2 = false := by
    rw [← Bool.not_eq_true]
    exact fun h => hc ((cb_transport_entry K cmb status flags s).1 h)
  simp only [SVGA_CMB_submit_critical, hct, Bool.false_eq_true, if_false, Option.map_some']

/-- C9, amended: a submission with `cmb_size = 0` whose flags append no fence on the
chosen transport, on a well-formed queue without faulted descriptor and with a
device that reports no fault while the call runs.  Whenever `SVGA_CMB_submit_critical` returns, the trace is
unchanged (no register write, no FIFO store, no other call into the device), the
FIFO memory and `cb_next_id` are unchanged, the chain is a sublist of the chain at
entry (nothing was inserted), the descriptor status is
`SVGA_CB_STATUS_COMPLETED`, and a non-null handle carries
`sStatus = SVGA_PROC_COMPLETED`, `qStatus = NULL`, `fifo_fence_used = 0` and the
last passed fence.  It does return, on the FIFO transport always and on the
command-buffer transport as soon as the device has completed the pending nodes
that carry a conflicting tag (within fewer than `fuel` polls). -/
theorem C9_degenerate_submission (K : Consts) (E : Env) (fuel cmb : Nat)
    (status : Option SVGA_CMB_status_t) (flags dx : Nat) (s : State) (l : List Ptr)
    (hK : K.SVGA_CB_STATUS_COMPLETED = SVGA_PROC_COMPLETED)
    (hnone : K.SVGA_CB_STATUS_NONE ≤ K.SVGA_CB_STATUS_COMPLETED)
    (hq : QueueIs s l) (hfuel : l.length ≤ fuel)
    (hnf : ∀ p ∈ l, faulted K s p = false) (hdev : no_fault_device K E)
    (hnofence : if s.cb_support = true ∧ s.cb_context0 = true ∧
        flags &&& SVGA_CB_FORCE_FIFO = 0 then flags_cb_fence_need flags = false
      else flags_fifo_fence_need K flags = false) :
    ((∃ k, k < fuel ∧ ∀ p ∈ l, (s.node p).flags &&& flags_to_cbq_check K flags ≠ 0 →
        pending K s p = true ∨ p = cmb →
        ∃ j, j < k ∧ ∃ v, E.dev_status (s.tick + j) p = some v ∧
          K.SVGA_CB_STATUS_COMPLETED ≤ v) →
      ∃ r, SVGA_CMB_submit_critical K E fuel cmb 0 status flags dx s = some r) ∧
    ∀ st t, SVGA_CMB_submit_critical K E fuel cmb 0 status flags dx s = some (st, t) →
      t.trace = s.trace ∧ t.fifoMem = s.fifoMem ∧ t.cb_next_id = s.cb_next_id ∧
      (∃ l2, QueueIs t l2 ∧ l2.Sublist l) ∧
      (t.hdr cmb).status = K.SVGA_CB_STATUS_COMPLETED ∧
      st = status.map (fun _ =>
        { qStatus := none, sStatus := SVGA_PROC_COMPLETED, fifo_fence_used := 0,
          fifo_fence_last := SVGA_fence_passed E t }) := by
  obtain ⟨heq, hnfe, hflags, hid, hmem, htr, hst, hpend, htick⟩ :=
    submit_entry_queue K cmb status flags s l hnone hq hnf
  by_cases hc : s.cb_support = true ∧ s.cb_context0 = true ∧ flags &&& SVGA_CB_FORCE_FIFO = 0
  · rw [if_pos hc] at hnofence
    rw [submit_critical_cb_eq K E fuel cmb 0 status flags dx s hc,
      submit_cb_degenerate K E fuel cmb _ flags dx _ hnofence]
    constructor
    · rintro ⟨k, hk, hlive⟩
      obtain ⟨t1, ht1⟩ := wait_flags_live K E fuel (flags_to_cbq_check K flags) hdev k fuel
        _ l heq hfuel hnfe hk (fun p hp hfl hpe => by
          rw [htick]
          exact hlive p hp (by rw [← hflags p]; exact hfl) (hpend p hpe))
      exact ⟨_, by rw [ht1]; rfl⟩
    · intro st t hres
      cases hw : CB_queue_wait_flags K E fuel (flags_to_cbq_check K flags) fuel
          (submit_entry K cmb status flags s).2 with
      | none => simp [hw] at hres
      | some t1 =>
        obtain ⟨l2, hq2, hsub, hfr⟩ := wait_flags_quiet K E fuel _ hdev fuel _ t1 l heq hfuel
          hnfe hw
        simp only [hw, Option.map_some', submit_exit, Option.some.injEq, Prod.mk.injEq] at hres
        obtain ⟨rfl, rfl⟩ := hres
        refine ⟨hfr.trace.trans htr, hfr.stable.fifoMem.trans hmem, hfr.cb_next_id.trans hid,
          ⟨l2, hq2, hsub⟩, ?_, ?_⟩
        · simp [State.setHdr, hK]
        · rw [hst]
          cases status <;> rfl
  · rw [if_neg hc] at hnofence
    rw [submit_critical_fifo_eq K E fuel cmb 0 status flags dx s hc,
      submit_fifo_degenerate K E cmb _ flags _ hnofence]
    constructor
    · intro _
      exact ⟨_, rfl⟩
    · intro st t hres
      simp only [submit_exit, Option.some.injEq, Prod.mk.injEq] at hres
      obtain ⟨rfl, rfl⟩ := hres
      refine ⟨htr, hmem, hid, ⟨l, heq, List.Sublist.refl l⟩, ?_, ?_⟩
      · simp [State.setHdr, hK]
      · rw [hst]
        cases status <;> rfl

theorem C9_degenerate_submission_witness :
    (∃ r, SVGA_CMB_submit_critical svga prompt_env 4 10 0 (some blank_status)
        svga.SVGA_CB_PRESENT 0 busy_state = some r) ∧
    ∀ st t, SVGA_CMB_submit_critical svga prompt_env 4 10 0 (some blank_status)
        svga.SVGA_CB_PRESENT 0 busy_state = some (st, t) →
      t.trace = busy_state.trace ∧ t.fifoMem = busy_state.fifoMem ∧
      t.cb_next_id = busy_state.cb_next_id ∧
      (∃ l2, QueueIs t l2 ∧ l2.Sublist [11, 12]) ∧
      (t.hdr 10).status = svga.SVGA_CB_STATUS_COMPLETED ∧
      st = (some blank_status).map (fun _ =>
        { qStatus := none, sStatus := SVGA_PROC_COMPLETED, fifo_fence_used := 0,
          fifo_fence_last := SVGA_fence_passed prompt_env t }) :=
  have h := C9_degenerate_submission svga prompt_env 4 10 (some blank_status)
    svga.SVGA_CB_PRESENT 0 busy_state [11, 12] rfl (by decide)
    (insert_all_queueIs [(11, 4), (12, 2)] zero_state [] (queueIs_empty _ rfl) (by decide))
    (by decide) (by decide)
    (fun _ _ v h => by
      have hv : v = 1 := by simpa [prompt_env] using h.symm
      rw [hv]; decide)
    (by decide)
  ⟨h.1 ⟨1, by decide, fun _ _ _ _ => ⟨0, by decide, 1, rfl, by decide⟩⟩, h.2⟩

/-! ## The fence reported in the handle (C11) -/

theorem submit_entry_tick (K : Consts) (cmb : Ptr) (status : Option SVGA_CMB_status_t)
    (flags : Nat) (s : State) : (submit_entry K cmb status flags s).2.tick = s.tick := by
  unfold submit_entry
  cases status <;> simp only [] <;> split <;> rfl

theorem cb_fence_append_fence (K : Consts) (E : Env) (cmb : Ptr) (cmb_size flags fence : Nat)
    (s : State) :
    (cb_fence_append K E cmb cmb_size flags fence s).1 =
      if flags &&& SVGA_CB_FORCE_FENCE ≠ 0 then E.fence_get s.tick else fence := by
  unfold cb_fence_append
  by_cases h : flags &&& SVGA_CB_FORCE_FENCE = 0
  · simp [flags_cb_fence_need, h]
  · simp [flags_cb_fence_need, h, SVGA_fence_get]

theorem fifo_fence_append_fence (K : Consts) (E : Env) (ptr : Ptr) (dwords flags fence : Nat)
    (s : State) :
    (fifo_fence_append K E ptr dwords flags fence s).1 =
        (if flags_fifo_fence_need K flags then E.fence_get s.tick else fence) ∧
      (fifo_fence_append K E ptr dwords flags fence s).2.1 =
        (if flags_fifo_fence_need K flags then dwords + 2 else dwords) := by
  unfold fifo_fence_append
  split <;> exact ⟨rfl, rfl⟩

theorem submit_cb_fence_used (K : Consts) (E : Env) (fuel cmb cmb_size : Nat)
    (st0 : SVGA_CMB_status_t) (flags dx : Nat) (s : State) (st : Option SVGA_CMB_status_t)
    (t : State) (hsize : cmb_size + 8 < 2 ^ 32)
    (hres : SVGA_CMB_submit_cb K E fuel cmb cmb_size (some st0) flags dx 0 s = some (st, t)) :
    ∃ st1, st = some st1 ∧ st1.fifo_fence_used =
      if flags &&& SVGA_CB_FORCE_FENCE ≠ 0 then
        if flags &&& SVGA_CB_SYNC ≠ 0 ∧ (t.hdr cmb).status ≠ K.SVGA_CB_STATUS_COMPLETED then
          SVGA_fence_passed E t
        else E.fence_get s.tick
      else 0 := by
  have hf := cb_fence_append_fence K E cmb cmb_size flags 0 s
  have hsz := cb_fence_append_size K E cmb cmb_size flags 0 s
  simp only [SVGA_CMB_submit_cb] at hres
  cases hw : CB_queue_wait_flags K E fuel (flags_to_cbq_check K flags) fuel
      (cb_fence_append K E cmb cmb_size flags 0 s).2.2 with
  | none => simp [hw] at hres
  | some s1 =>
    simp only [hw] at hres
    rw [hf] at hres
    by_cases hz : (cb_fence_append K E cmb cmb_size flags 0 s).2.1 = 0
    · simp only [hz, if_true, Option.map_some', Option.some.injEq, Prod.mk.injEq] at hres
      obtain ⟨rfl, rfl⟩ := hres
      refine ⟨_, rfl, ?_⟩
      have hff : flags &&& SVGA_CB_FORCE_FENCE = 0 := by
        by_contra hff
        rw [hsz] at hz
        simp only [flags_cb_fence_need, ne_eq, hff, not_false_eq_true, decide_True, if_true,
          sizeof_DWORD] at hz
        omega
      simp [hff]
    · simp only [hz, if_false] at hres
      by_cases hsync : flags &&& SVGA_CB_SYNC = 0
      · simp only [hsync, ne_eq, not_true_eq_false, if_false, Option.map_some',
          Option.some.injEq, Prod.mk.injEq] at hres
        obtain ⟨rfl, rfl⟩ := hres
        refine ⟨_, rfl, ?_⟩
        simp [hsync]
      · simp only [hsync, ne_eq, not_false_eq_true, if_true] at hres
        cases hw2 : WAIT_FOR_CB K E fuel cmb false fuel
            (cb_dispatch K E cmb (cb_fence_append K E cmb cmb_size flags 0 s).2.1 flags dx s1) with
        | none => simp [hw2] at hres
        | some s2 =>
          simp only [hw2, Option.map_some', Option.some.injEq, Prod.mk.injEq] at hres
          obtain ⟨rfl, rfl⟩ := hres
          refine ⟨_, rfl, ?_⟩
          by_cases hff : flags &&& SVGA_CB_FORCE_FENCE = 0
          · simp [hff]
          · by_cases hst : (s2.hdr cmb).status = K.SVGA_CB_STATUS_COMPLETED
            · simp [hff, hst]
            · simp [hff, hst, hsync]

theorem submit_fifo_fence_used (K : Consts) (E : Env) (cmb cmb_size : Nat)
    (st0 : SVGA_CMB_status_t) (flags : Nat) (s : State) :
    ∃ st1, (SVGA_CMB_submit_fifo K E cmb cmb_size (some st0) flags 0 s).1 = some st1 ∧
      st1.fifo_fence_used =
        if flags &&& SVGA_CB_SYNC ≠ 0 then 0
        else if flags_fifo_fence_need K flags then E.fence_get s.tick else 0 := by
  obtain ⟨hf, hd⟩ := fifo_fence_append_fence K E cmb (cmb_size / sizeof_DWORD) flags 0 s
  unfold SVGA_CMB_submit_fifo
  simp only []
  rw [hf, hd]
  by_cases hn : flags_fifo_fence_need K flags = true
  · simp only [hn, if_true, Nat.add_eq_zero, OfNat.ofNat_ne_zero, and_false, if_false]
    by_cases hsync : flags &&& SVGA_CB_SYNC = 0
    · simp [hsync]
    · simp [hsync]
  · have hn2 : flags_fifo_fence_need K flags = false := by simpa using hn
    have hsync := (fifo_no_fence_flags K flags hn2).1
    simp only [hn2, Bool.false_eq_true, if_false, hsync, ne_eq, not_true_eq_false]
    split
    · exact ⟨_, rfl, rfl⟩
    · exact ⟨_, rfl, rfl⟩

/-- C11, amended: for every call of `SVGA_CMB_submit_critical` with a non-null status
handle and a payload size that does not wrap (`cmb_size + 8 < 2 ^ 32`), on return:
on the command-buffer transport `fifo_fence_used` is the token of the fence this
call appended (one is appended exactly when `SVGA_CB_FORCE_FENCE` is set), except
that a synchronous submission whose descriptor does not end
`SVGA_CB_STATUS_COMPLETED` reports the value of `SVGA_fence_passed` instead, and it
is 0 when no fence was appended; on the FIFO transport an asynchronous call reports
the token of the fence it appended, or 0 when it appended none, and a synchronous
call reports 0 although it appended a fence. -/
theorem C11_fence_used (K : Consts) (E : Env) (fuel cmb cmb_size : Nat)
    (st0 : SVGA_CMB_status_t) (flags dx : Nat) (s : State) (st : Option SVGA_CMB_status_t)
    (t : State) (hsize : cmb_size + 8 < 2 ^ 32)
    (hres : SVGA_CMB_submit_critical K E fuel cmb cmb_size (some st0) flags dx s = some (st, t)) :
    ∃ st1, st = some st1 ∧ st1.fifo_fence_used =
      if s.cb_support = true ∧ s.cb_context0 = true ∧ flags &&& SVGA_CB_FORCE_FIFO = 0 then
        if flags &&& SVGA_CB_FORCE_FENCE ≠ 0 then
          if flags &&& SVGA_CB_SYNC ≠ 0 ∧ (t.hdr cmb).status ≠ K.SVGA_CB_STATUS_COMPLETED then
            SVGA_fence_passed E t
          else E.fence_get s.tick
        else 0
      else
        if flags &&& SVGA_CB_SYNC ≠ 0 then 0
        else if flags_fifo_fence_need K flags then E.fence_get s.tick else 0 := by
  have hentry : (submit_entry K cmb (some st0) flags s).1 =
      some { st0 with sStatus := SVGA_PROC_NONE, qStatus := some cmb } := rfl
  have htick := submit_entry_tick K cmb (some st0) flags s
  by_cases hc : s.cb_support = true ∧ s.cb_context0 = true ∧ flags &&& SVGA_CB_FORCE_FIFO = 0
  · rw [submit_critical_cb_eq K E fuel cmb cmb_size (some st0) flags dx s hc, hentry] at hres
    cases hcbr : SVGA_CMB_submit_cb K E fuel cmb cmb_size
        (some { st0 with sStatus := SVGA_PROC_NONE, qStatus := some cmb })
        flags dx 0 (submit_entry K cmb (some st0) flags s).2 with
    | none => simp [hcbr] at hres
    | some r =>
      obtain ⟨st', t'⟩ := r
      simp only [hcbr, Option.map_some', submit_exit, Option.some.injEq, Prod.mk.injEq] at hres
      obtain ⟨rfl, rfl⟩ := hres
      obtain ⟨st1, rfl, h1⟩ := submit_cb_fence_used K E fuel cmb cmb_size _ flags dx _ _ _
        hsize hcbr
      refine ⟨_, rfl, ?_⟩
      rw [if_pos hc, ← htick]
      exact h1
  · rw [submit_critical_fifo_eq K E fuel cmb cmb_size (some st0) flags dx s hc, hentry] at hres
    simp only [Option.some.injEq] at hres
    obtain ⟨st1, h0, h1⟩ := submit_fifo_fence_used K E cmb cmb_size
      { st0 with sStatus := SVGA_PROC_NONE, qStatus := some cmb } flags
      (submit_entry K cmb (some st0) flags s).2
    have hst : st = (submit_exit E (SVGA_CMB_submit_fifo K E cmb cmb_size
        (some { st0 with sStatus := SVGA_PROC_NONE, qStatus := some cmb }) flags 0
        (submit_entry K cmb (some st0) flags s).2)).1 := by rw [hres]
    simp only [submit_exit, h0, Option.map_some'] at hst
    refine ⟨_, hst, ?_⟩
    rw [if_neg hc, ← htick]
    exact h1

theorem C11_fence_used_witness :
    ∃ st t, SVGA_CMB_submit_critical svga prompt_env 4 10 16 (some blank_status)
        SVGA_CB_FORCE_FENCE 0 zero_state = some (st, t) ∧
      ∃ st1, st = some st1 ∧ st1.fifo_fence_used = 1 := by
  cases h : SVGA_CMB_submit_critical svga prompt_env 4 10 16 (some blank_status)
      SVGA_CB_FORCE_FENCE 0 zero_state with
  | none =>
    have hrun : (SVGA_CMB_submit_critical svga prompt_env 4 10 16 (some blank_status)
      SVGA_CB_FORCE_FENCE 0 zero_state).isSome = true := by decide
    simp [h] at hrun
  | some r =>
    obtain ⟨st, t⟩ := r
    obtain ⟨st1, h1, h2⟩ := C11_fence_used svga prompt_env 4 10 16 blank_status
      SVGA_CB_FORCE_FENCE 0 zero_state st t (by decide) h
    refine ⟨st, t, rfl, st1, h1, ?_⟩
    have h3 : (if zero_state.cb_support = true ∧ zero_state.cb_context0 = true ∧
        SVGA_CB_FORCE_FENCE &&& SVGA_CB_FORCE_FIFO = 0 then
          if SVGA_CB_FORCE_FENCE &&& SVGA_CB_FORCE_FENCE ≠ 0 then
            if SVGA_CB_FORCE_FENCE &&& SVGA_CB_SYNC ≠ 0 ∧
                (t.hdr 10).status ≠ svga.SVGA_CB_STATUS_COMPLETED then
              SVGA_fence_passed prompt_env t
            else prompt_env.fence_get zero_state.tick
          else 0
        else
          if SVGA_CB_FORCE_FENCE &&& SVGA_CB_SYNC ≠ 0 then 0
          else if flags_fifo_fence_need svga SVGA_CB_FORCE_FENCE then
            prompt_env.fence_get zero_state.tick else 0) = 1 := by
      rw [if_pos (by decide), if_pos (by decide), if_neg (fun h => absurd h.1 (by decide))]
      rfl
    rw [h2]
    exact h3

/-- C11, counterexample: a synchronous submission on the FIFO transport appends a
fence command (the words `SVGA_CMD_FENCE`, 1 after the three payload words, token 1
obtained from `SVGA_fence_get`), yet the handle returns with `fifo_fence_used = 0`. -/
theorem C11_sync_fifo_reports_zero :
    (SVGA_CMB_submit_critical svga idle_env 4 5 12 (some blank_status)
      (SVGA_CB_SYNC ||| SVGA_CB_FORCE_FIFO) 0 ring_state).map
        (fun r => (r.1.map (fun st => st.fifo_fence_used), r.2.cmb 5 3, r.2.cmb 5 4,
          decide (Event.FenceGet 1 ∈ r.2.trace))) =
      some (some 0, svga.SVGA_CMD_FENCE, 1, true) := by
  decide

/-! ## What the waits preserve -/

theorem waitFrame_refl (K : Consts) (E : Env) (s : State) : WaitFrame K E s s :=
  ⟨fun h => h, rfl, rfl, fun _ _ => rfl, fun p _ => ⟨(s.hdr p).status, rfl⟩,
    fun _ _ _ h => h⟩

theorem waitFrame_trans {K : Consts} {E : Env} {s t u : State} (h1 : WaitFrame K E s t)
    (h2 : WaitFrame K E t u) : WaitFrame K E s u := by
  refine ⟨fun h => h1.support (h2.support h), by rw [h2.ctlbuf, h1.ctlbuf],
    by rw [h2.cmdbuf, h1.cmdbuf], ?_, ?_, ?_⟩
  · intro p hp
    rw [h2.payload p (by rw [h1.ctlbuf]; exact hp), h1.payload p hp]
  · intro p hp
    obtain ⟨v, hv⟩ := h1.descriptor p hp
    obtain ⟨w, hw⟩ := h2.descriptor p (by rw [h1.ctlbuf]; exact hp)
    exact ⟨w, by rw [hw, hv]⟩
  · intro hd hq p hs
    exact h2.retired hd hq p (h1.retired hd hq p hs)

theorem waitFrame_of_eq (K : Consts) (E : Env) {s t : State}
    (h1 : t.cb_support = s.cb_support) (h2 : t.ctlbuf = s.ctlbuf) (h3 : t.cmdbuf = s.cmdbuf)
    (h4 : t.cmb = s.cmb) (h5 : t.hdr = s.hdr) : WaitFrame K E s t :=
  ⟨fun h => by rw [← h1]; exact h, h2, h3, fun _ _ => by rw [h4],
    fun p _ => ⟨(s.hdr p).status, by rw [h5]⟩, fun _ _ p h => by rw [h5]; exact h⟩

theorem waitFrame_step (K : Consts) (E : Env) (s : State) : WaitFrame K E s (device_step E s) := by
  refine ⟨fun h => h, rfl, rfl, fun _ _ => rfl, ?_, ?_⟩
  · intro p _
    show ∃ v, (match E.dev_status s.tick p with
      | some v => { s.hdr p with status := v }
      | none => s.hdr p) = _
    cases E.dev_status s.tick p with
    | none => exact ⟨(s.hdr p).status, rfl⟩
    | some v => exact ⟨v, rfl⟩
  · intro hd _ p hs
    show _ ≤ (match E.dev_status s.tick p with
      | some v => { s.hdr p with status := v }
      | none => s.hdr p).status
    cases hv : E.dev_status s.tick p with
    | none => exact hs
    | some v => exact hd _ _ _ hv

theorem waitFrame_sync (K : Consts) (E : Env) (s : State) : WaitFrame K E s (SVGA_Sync E s) :=
  waitFrame_trans (waitFrame_of_eq K E (t := s.log Event.Sync) rfl rfl rfl rfl rfl)
    (waitFrame_step K E _)

theorem waitFrame_retire (K : Consts) (E : Env) (s : State) (p : Ptr) :
    WaitFrame K E s
      (s.setHdr p { (s.hdr p) with status := K.SVGA_CB_STATUS_QUEUE_FULL }) := by
  refine ⟨fun h => h, rfl, rfl, fun _ _ => rfl, ?_, ?_⟩
  · intro q _
    by_cases hq : q = p
    · subst hq
      exact ⟨K.SVGA_CB_STATUS_QUEUE_FULL, by simp [State.setHdr]⟩
    · exact ⟨(s.hdr q).status, by simp [State.setHdr, hq]⟩
  · intro _ hQ q hs
    by_cases hq : q = p
    · subst hq
      simpa [State.setHdr] using hQ
    · simpa [State.setHdr, hq] using hs

theorem waitFrame_fill (K : Consts) (E : Env) (enable : Nat) (s : State) :
    WaitFrame K E s (cb_enable_fill K enable s) := by
  refine ⟨fun h => h, rfl, rfl, ?_, fun p _ => ⟨(s.hdr p).status, rfl⟩, fun _ _ _ h => h⟩
  intro p hp
  funext i
  simp [cb_enable_fill, State.setCmb, hp]

theorem waitFrame_ctr_wait (K : Consts) (E : Env) :
    ∀ (fuel : Nat) (s t : State), SVGA_CB_ctr_wait K E fuel s = some t → WaitFrame K E s t
  | 0, s, t, h => by
    simp only [SVGA_CB_ctr_wait] at h
    split at h
    · cases h
    · cases h; exact waitFrame_refl K E s
  | fuel + 1, s, t, h => by
    simp only [SVGA_CB_ctr_wait] at h
    split at h
    · exact waitFrame_trans (waitFrame_sync K E s) (waitFrame_ctr_wait K E fuel _ t h)
    · cases h; exact waitFrame_refl K E s

theorem ctr_wait_retired (K : Consts) (E : Env) :
    ∀ (fuel : Nat) (s t : State), SVGA_CB_ctr_wait K E fuel s = some t → retiring_device K E →
      ((s.hdr s.ctlbuf).status = K.SVGA_CB_STATUS_NONE ∨
        K.SVGA_CB_STATUS_COMPLETED ≤ (s.hdr s.ctlbuf).status) →
      K.SVGA_CB_STATUS_COMPLETED ≤ (t.hdr s.ctlbuf).status
  | 0, s, t, h, _, hs => by
    simp only [SVGA_CB_ctr_wait] at h
    split at h
    · cases h
    · next hst =>
      cases h
      rcases hs with hs | hs
      · exact absurd hs hst
      · exact hs
  | fuel + 1, s, t, h, hd, hs => by
    simp only [SVGA_CB_ctr_wait] at h
    split at h
    · next hst =>
      apply ctr_wait_retired K E fuel (SVGA_Sync E s) t h hd
      show ((match E.dev_status s.tick s.ctlbuf with
        | some v => { s.hdr s.ctlbuf with status := v }
        | none => s.hdr s.ctlbuf).status = _) ∨ _ ≤ (match E.dev_status s.tick s.ctlbuf with
        | some v => { s.hdr s.ctlbuf with status := v }
        | none => s.hdr s.ctlbuf).status
      cases hw : E.dev_status s.tick s.ctlbuf with
      | none => exact Or.inl hst
      | some w => exact Or.inr (hd _ _ _ hw)
    · next hst =>
      cases h
      rcases hs with hs | hs
      · exact absurd hs hst
      · exact hs

theorem waitFrame_ctr (K : Consts) (E : Env) (fuel data_size : Nat) (s t : State) (st : Nat)
    (h : SVGA_CB_ctr K E fuel data_size s = some (st, t)) : WaitFrame K E s t := by
  simp only [SVGA_CB_ctr] at h
  generalize hs1 : SVGA_cb_id_inc _ _ = s1 at h
  cases hw : SVGA_CB_ctr_wait K E fuel s1 with
  | none => simp [hw] at h
  | some t1 =>
    simp only [hw, Option.map_some', Option.some.injEq, Prod.mk.injEq] at h
    obtain ⟨_, rfl⟩ := h
    have hfr := waitFrame_ctr_wait K E fuel s1 t1 hw
    have hsup : s1.cb_support = s.cb_support := by subst hs1; rfl
    have hctl : s1.ctlbuf = s.ctlbuf := by subst hs1; rfl
    have hcmd : s1.cmdbuf = s.cmdbuf := by subst hs1; rfl
    have hcmb : s1.cmb = s.cmb := by subst hs1; rfl
    have hoth : ∀ p, p ≠ s.ctlbuf → s1.hdr p = (device_step E s).hdr p := by
      intro p hp
      subst hs1
      simp only [SVGA_cb_id_inc, SVGA_Sync, device_step, State.log, SVGA_WriteReg, State.setHdr,
        hp, if_false]
    have hown : (s1.hdr s.ctlbuf).status = K.SVGA_CB_STATUS_NONE ∨
        ∃ τ, E.dev_status τ s.ctlbuf = some (s1.hdr s.ctlbuf).status := by
      subst hs1
      simp only [SVGA_cb_id_inc, SVGA_Sync, device_step, State.log, SVGA_WriteReg, State.setHdr,
        if_true]
      cases hv : E.dev_status s.tick s.ctlbuf with
      | none => exact Or.inl rfl
      | some v => exact Or.inr ⟨_, hv⟩
    have hstep := waitFrame_step K E s
    refine ⟨fun h => by rw [← hsup]; exact hfr.support h, hfr.ctlbuf.trans hctl,
      hfr.cmdbuf.trans hcmd, ?_, ?_, ?_⟩
    · intro p hp
      rw [hfr.payload p (by rw [hctl]; exact hp), hcmb]
    · intro p hp
      obtain ⟨v, hv⟩ := hfr.descriptor p (by rw [hctl]; exact hp)
      obtain ⟨w, hw2⟩ := hstep.descriptor p hp
      exact ⟨v, by rw [hv, hoth p hp, hw2]⟩
    · intro hd hq p hs
      by_cases hp : p = s.ctlbuf
      · subst hp
        have h2 := ctr_wait_retired K E fuel s1 t1 hw hd
        rw [hctl] at h2
        apply h2
        rcases hown with h0 | ⟨τ, hτ⟩
        · exact Or.inl h0
        · exact Or.inr (hd _ _ _ hτ)
      · apply hfr.retired hd hq p
        rw [hoth p hp]
        exact hstep.retired hd hq p hs

theorem waitFrame_erase_loop (K : Consts) (E : Env) :
    ∀ (fuel : Nat) (o : Option Ptr) (s t : State), CB_queue_erase_loop K fuel o s = some t →
      WaitFrame K E s t
  | fuel, none, s, t, h => by
    cases fuel <;> simp only [CB_queue_erase_loop, Option.some.injEq] at h <;>
      (subst h; exact waitFrame_refl K E s)
  | 0, some p, s, t, h => by simp [CB_queue_erase_loop] at h
  | fuel + 1, some p, s, t, h => by
    simp only [CB_queue_erase_loop] at h
    have h2 := waitFrame_erase_loop K E fuel _ _ t h
    exact waitFrame_trans (waitFrame_retire K E s p) h2

theorem waitFrame_erase (K : Consts) (E : Env) (fuel : Nat) (s t : State)
    (h : CB_queue_erase K fuel s = some t) : WaitFrame K E s t := by
  simp only [CB_queue_erase] at h
  cases hl : CB_queue_erase_loop K fuel s.cb_queue_info.first s with
  | none => simp [hl] at h
  | some t1 =>
    simp only [hl, Option.map_some', Option.some.injEq] at h
    subst h
    exact waitFrame_trans (waitFrame_erase_loop K E fuel _ s t1 hl)
      (waitFrame_of_eq K E rfl rfl rfl rfl rfl)

theorem waitFrame_stop (K : Consts) (E : Env) (fuel : Nat) (s t : State)
    (h : SVGA_CB_stop K E fuel s = some t) : WaitFrame K E s t := by
  simp only [SVGA_CB_stop] at h
  split at h
  · cases hc : SVGA_CB_ctr K E fuel K.sizeof_cb_enable_t
        (cb_enable_fill K 0 { s with cb_context0 := false }) with
    | none => simp [hc] at h
    | some r =>
      obtain ⟨st, s2⟩ := r
      simp only [hc] at h
      have h0 : WaitFrame K E s { s with cb_context0 := false } :=
        waitFrame_of_eq K E rfl rfl rfl rfl rfl
      exact waitFrame_trans h0 (waitFrame_trans (waitFrame_fill K E 0 _)
        (waitFrame_trans (waitFrame_ctr K E fuel _ _ s2 st hc)
          (waitFrame_trans (waitFrame_sync K E s2) (waitFrame_erase K E fuel _ t h))))
  · cases h
    exact waitFrame_of_eq K E rfl rfl rfl rfl rfl

theorem waitFrame_start (K : Consts) (E : Env) (fuel : Nat) (s t : State)
    (h : SVGA_CB_start K E fuel s = some t) : WaitFrame K E s t := by
  simp only [SVGA_CB_start] at h
  split at h
  · cases hc : SVGA_CB_ctr K E fuel K.sizeof_cb_enable_t (cb_enable_fill K 1 s) with
    | none => simp [hc] at h
    | some r =>
      obtain ⟨st, s2⟩ := r
      simp only [hc] at h
      have h1 := waitFrame_trans (waitFrame_fill K E 1 s) (waitFrame_ctr K E fuel _ _ s2 st hc)
      split at h
      · cases h
        exact waitFrame_trans h1 (waitFrame_of_eq K E rfl rfl rfl rfl rfl)
      · cases h
        refine waitFrame_trans h1 ⟨fun h => ?_, rfl, rfl, fun _ _ => rfl,
          fun p _ => ⟨(s2.hdr p).status, rfl⟩, fun _ _ _ h => h⟩
        cases h
  · cases h
    exact waitFrame_refl K E s

theorem waitFrame_restart (K : Consts) (E : Env) (fuel : Nat) (s t : State)
    (h : SVGA_CB_restart K E fuel s = some t) : WaitFrame K E s t := by
  simp only [SVGA_CB_restart] at h
  cases hs : SVGA_CB_stop K E fuel s with
  | none => simp [hs] at h
  | some s1 =>
    simp only [hs] at h
    exact waitFrame_trans (waitFrame_stop K E fuel s s1 hs) (waitFrame_start K E fuel s1 t h)

theorem waitFrame_check_loop (K : Consts) (E : Env) (tracked : Option Ptr) :
    ∀ (fuel : Nat) (item last : Option Ptr) (iq nr : Bool) (s t : State)
      (r : Option Ptr × Bool × Bool),
      CB_queue_check_loop K tracked fuel item last iq nr s = some (t, r) → WaitFrame K E s t
  | fuel, none, last, iq, nr, s, t, r, h => by
    cases fuel <;> simp only [CB_queue_check_loop, Option.some.injEq, Prod.mk.injEq] at h <;>
      (obtain ⟨rfl, _⟩ := h; exact waitFrame_refl K E s)
  | 0, some p, last, iq, nr, s, t, r, h => by simp [CB_queue_check_loop] at h
  | fuel + 1, some p, last, iq, nr, s, t, r, h => by
    simp only [CB_queue_check_loop] at h
    split at h
    · cases last with
      | none =>
        have h2 := waitFrame_check_loop K E tracked fuel _ _ _ _ _ t r h
        have h1 : WaitFrame K E s { s with cb_queue_info :=
            { s.cb_queue_info with first := (s.node p).next } } :=
          waitFrame_of_eq K E rfl rfl rfl rfl rfl
        exact waitFrame_trans h1 h2
      | some q =>
        have h2 := waitFrame_check_loop K E tracked fuel _ _ _ _ _ t r h
        have h1 : WaitFrame K E s (s.setNode q { (s.node q) with next := (s.node p).next }) :=
          waitFrame_of_eq K E rfl rfl rfl rfl rfl
        exact waitFrame_trans h1 h2
    · exact waitFrame_check_loop K E tracked fuel _ _ _ _ s t r h

theorem waitFrame_check_inline (K : Consts) (E : Env) (fuel : Nat) (tracked : Option Ptr)
    (s t : State) (b : Bool) (h : CB_queue_check_inline K E fuel tracked s = some (b, t)) :
    WaitFrame K E s t := by
  simp only [CB_queue_check_inline] at h
  cases hl : CB_queue_check_loop K tracked fuel s.cb_queue_info.first none false false s with
  | none => simp [hl] at h
  | some r =>
    obtain ⟨s1, last, iq, nr⟩ := r
    simp only [hl] at h
    have h1 := waitFrame_check_loop K E tracked fuel _ _ _ _ s s1 _ hl
    have h2 : WaitFrame K E s1
        { s1 with cb_queue_info := { s1.cb_queue_info with last := last } } :=
      waitFrame_of_eq K E rfl rfl rfl rfl rfl
    have h12 := waitFrame_trans h1 h2
    split at h
    · cases hr : SVGA_CB_restart K E fuel
          { s1 with cb_queue_info := { s1.cb_queue_info with last := last } } with
      | none => simp [hr] at h
      | some t1 =>
        simp only [hr, Option.map_some', Option.some.injEq, Prod.mk.injEq] at h
        obtain ⟨_, rfl⟩ := h
        exact waitFrame_trans h12 (waitFrame_restart K E fuel _ _ hr)
    · split at h
      · simp only [Option.some.injEq, Prod.mk.injEq] at h
        obtain ⟨_, rfl⟩ := h
        exact h12
      · split at h <;>
        · simp only [Option.some.injEq, Prod.mk.injEq] at h
          obtain ⟨_, rfl⟩ := h
          exact h12

theorem waitFrame_wait_flags (K : Consts) (E : Env) (n flags : Nat) :
    ∀ (fuel : Nat) (s t : State), CB_queue_wait_flags K E n flags fuel s = some t →
      WaitFrame K E s t
  | 0, _, _, h => by simp [CB_queue_wait_flags] at h
  | fuel + 1, s, t, h => by
    simp only [CB_queue_wait_flags] at h
    cases hc : CB_queue_check_inline K E n none s with
    | none => simp [hc] at h
    | some r =>
      obtain ⟨b, s1⟩ := r
      simp only [hc] at h
      have h1 := waitFrame_check_inline K E n none s s1 b hc
      cases hfl : CB_queue_is_flags_set n flags s1 with
      | none => simp [hfl] at h
      | some b2 =>
        cases b2 with
        | true =>
          simp only [hfl] at h
          exact waitFrame_trans h1 (waitFrame_trans (waitFrame_step K E s1)
            (waitFrame_wait_flags K E n flags fuel _ t h))
        | false =>
          simp only [hfl, Option.some.injEq] at h
          subst h
          exact h1

theorem waitFrame_WAIT_FOR_CB (K : Consts) (E : Env) (n : Nat) (cb : Ptr) (forcesync : Bool) :
    ∀ (fuel : Nat) (s t : State), WAIT_FOR_CB K E n cb forcesync fuel s = some t →
      WaitFrame K E s t
  | 0, _, _, h => by simp [WAIT_FOR_CB] at h
  | fuel + 1, s, t, h => by
    simp only [WAIT_FOR_CB] at h
    cases hc : CB_queue_check_inline K E n (some cb) s with
    | none => simp [hc] at h
    | some r =>
      obtain ⟨b, s1⟩ := r
      have h1 := waitFrame_check_inline K E n (some cb) s s1 b hc
      cases b with
      | true =>
        simp only [hc, Option.some.injEq] at h
        subst h
        exact h1
      | false =>
        simp only [hc] at h
        have h2 := waitFrame_WAIT_FOR_CB K E n cb forcesync fuel _ t h
        cases forcesync with
        | true => exact waitFrame_trans h1 (waitFrame_trans (waitFrame_sync K E s1) h2)
        | false => exact waitFrame_trans h1 (waitFrame_trans (waitFrame_step K E s1) h2)

theorem waitFrame_Flush_wait (K : Consts) (E : Env) (n : Nat) :
    ∀ (fuel : Nat) (s t : State), SVGA_Flush_CB_wait K E n fuel s = some t → WaitFrame K E s t
  | 0, _, _, h => by simp [SVGA_Flush_CB_wait] at h
  | fuel + 1, s, t, h => by
    simp only [SVGA_Flush_CB_wait, CB_queue_check] at h
    cases hc : CB_queue_check_inline K E n none s with
    | none => simp [hc] at h
    | some r =>
      obtain ⟨b, s1⟩ := r
      have h1 := waitFrame_check_inline K E n none s s1 b hc
      cases b with
      | true =>
        simp only [hc, Option.some.injEq] at h
        subst h
        exact h1
      | false =>
        simp only [hc] at h
        have h2 := waitFrame_Flush_wait K E n fuel _ t h
        exact waitFrame_trans h1 (waitFrame_trans (waitFrame_sync K E s1) h2)

/-! ## The context life cycle (C12, C13, C14) -/

theorem ctr_wait_exit (K : Consts) (E : Env) :
    ∀ (fuel : Nat) (s t : State), SVGA_CB_ctr_wait K E fuel s = some t →
      (t.hdr s.ctlbuf).status ≠ K.SVGA_CB_STATUS_NONE ∧
      (∃ n, t.trace = List.replicate n Event.Sync ++ s.trace) ∧
      t.cb_next_id = s.cb_next_id ∧
      (∀ p, ∃ v, t.hdr p = { s.hdr p with status := v }) ∧
      (∀ v, (∀ τ w, E.dev_status τ s.ctlbuf = some w → w = v) →
        ((s.hdr s.ctlbuf).status = K.SVGA_CB_STATUS_NONE ∨ (s.hdr s.ctlbuf).status = v) →
        (t.hdr s.ctlbuf).status = v)
  | 0, s, t, h => by
    simp only [SVGA_CB_ctr_wait] at h
    split at h
    · cases h
    · next hst =>
      cases h
      refine ⟨hst, ⟨0, rfl⟩, rfl, fun p => ⟨(s.hdr p).status, rfl⟩, ?_⟩
      intro v _ hv
      rcases hv with hv | hv
      · exact absurd hv hst
      · exact hv
  | fuel + 1, s, t, h => by
    simp only [SVGA_CB_ctr_wait] at h
    split at h
    · obtain ⟨h1, ⟨n, h2⟩, h3, h4, h5⟩ := ctr_wait_exit K E fuel (SVGA_Sync E s) t h
      have hd : ∀ p, ∃ v, (SVGA_Sync E s).hdr p = { s.hdr p with status := v } := by
        intro p
        show ∃ v, (match E.dev_status s.tick p with
          | some v => { s.hdr p with status := v }
          | none => s.hdr p) = _
        cases E.dev_status s.tick p with
        | none => exact ⟨(s.hdr p).status, rfl⟩
        | some v => exact ⟨v, rfl⟩
      refine ⟨h1, ⟨n + 1, ?_⟩, h3, ?_, ?_⟩
      · rw [h2, List.replicate_succ', List.append_assoc]
        rfl
      · intro p
        obtain ⟨v, hv⟩ := h4 p
        obtain ⟨w, hw⟩ := hd p
        exact ⟨v, by rw [hv, hw]⟩
      · intro v hdev hv
        apply h5 v hdev
        show ((match E.dev_status s.tick s.ctlbuf with
          | some v => { s.hdr s.ctlbuf with status := v }
          | none => s.hdr s.ctlbuf).status = _) ∨ ((match E.dev_status s.tick s.ctlbuf with
          | some v => { s.hdr s.ctlbuf with status := v }
          | none => s.hdr s.ctlbuf).status = _)
        cases hw : E.dev_status s.tick s.ctlbuf with
        | none => exact hv
        | some w => exact Or.inr (hdev _ _ hw)
    · next hst =>
      cases h
      refine ⟨hst, ⟨0, rfl⟩, rfl, fun p => ⟨(s.hdr p).status, rfl⟩, ?_⟩
      intro v _ hv
      rcases hv with hv | hv
      · exact absurd hv hst
      · exact hv

theorem ctr_exit (K : Consts) (E : Env) (fuel data_size : Nat) (s t : State) (st : Nat)
    (h : SVGA_CB_ctr K E fuel data_size s = some (st, t)) :
    (t.hdr s.ctlbuf).status = st ∧ st ≠ K.SVGA_CB_STATUS_NONE ∧
    (∃ n, t.trace = List.replicate n Event.Sync ++ Event.Sync ::
      Event.WriteReg K.SVGA_REG_COMMAND_LOW
        ((((s.hdr s.ctlbuf).ptr_pa_low + 2 ^ 32 - K.sizeof_SVGACBHeader % 2 ^ 32) % 2 ^ 32)
          ||| K.SVGA_CB_CONTEXT_DEVICE) ::
      Event.WriteReg K.SVGA_REG_COMMAND_HIGH 0 :: s.trace) ∧
    t.cb_next_id = (SVGA_cb_id_inc (E.carry_flag (s.tick + 1)) s).cb_next_id ∧
    (t.hdr s.ctlbuf).id_low = s.cb_next_id.low ∧ (t.hdr s.ctlbuf).id_hi = s.cb_next_id.hi ∧
    (t.hdr s.ctlbuf).length = data_size ∧
    (∀ v, (∀ τ w, E.dev_status τ s.ctlbuf = some w → w = v) → st = v) := by
  simp only [SVGA_CB_ctr] at h
  generalize hs1 : SVGA_cb_id_inc _ _ = s1 at h
  cases hw : SVGA_CB_ctr_wait K E fuel s1 with
  | none => simp [hw] at h
  | some t1 =>
    simp only [hw, Option.map_some', Option.some.injEq, Prod.mk.injEq] at h
    obtain ⟨hst, rfl⟩ := h
    obtain ⟨h1, ⟨n, h2⟩, h3, h4, h5⟩ := ctr_wait_exit K E fuel s1 t1 hw
    have hctl : s1.ctlbuf = s.ctlbuf := by subst hs1; rfl
    have htr : s1.trace = Event.Sync ::
      Event.WriteReg K.SVGA_REG_COMMAND_LOW
        ((((s.hdr s.ctlbuf).ptr_pa_low + 2 ^ 32 - K.sizeof_SVGACBHeader % 2 ^ 32) % 2 ^ 32)
          ||| K.SVGA_CB_CONTEXT_DEVICE) ::
      Event.WriteReg K.SVGA_REG_COMMAND_HIGH 0 :: s.trace := by
      subst hs1
      simp [SVGA_cb_id_inc, SVGA_Sync, device_step, State.log, SVGA_WriteReg, State.setHdr]
    have hid : s1.cb_next_id = (SVGA_cb_id_inc (E.carry_flag (s.tick + 1)) s).cb_next_id := by
      subst hs1; rfl
    have hh : ∃ v, s1.hdr s.ctlbuf = { (s.hdr s.ctlbuf) with
        status := v, errorOffset := 0, offset := 0, flags := K.SVGA_CB_FLAG_NO_IRQ,
        mustBeZero := 0, dxContext := 0, id_low := s.cb_next_id.low,
        id_hi := s.cb_next_id.hi, length := data_size } ∧
        (v = K.SVGA_CB_STATUS_NONE ∨ ∃ τ, E.dev_status τ s.ctlbuf = some v) := by
      subst hs1
      simp only [SVGA_cb_id_inc, SVGA_Sync, device_step, State.log, SVGA_WriteReg, State.setHdr,
        if_true]
      cases hv : E.dev_status s.tick s.ctlbuf with
      | none => exact ⟨K.SVGA_CB_STATUS_NONE, rfl, Or.inl rfl⟩
      | some v => exact ⟨v, rfl, Or.inr ⟨_, hv⟩⟩
    obtain ⟨v0, hh1, hh2⟩ := hh
    obtain ⟨v1, hv1⟩ := h4 s.ctlbuf
    rw [hctl] at h1 h5
    refine ⟨hst, by rw [← hst]; exact h1, ⟨n, by rw [h2, htr]⟩, by rw [h3, hid],
      by rw [hv1, hh1], by rw [hv1, hh1], by rw [hv1, hh1], ?_⟩
    intro v hdev
    rw [← hst]
    apply h5 v hdev
    rw [hh1]
    rcases hh2 with h0 | ⟨τ, hτ⟩
    · exact Or.inl h0
    · exact Or.inr (hdev _ _ hτ)

theorem fill_payload (K : Consts) (enable : Nat) (s : State) :
    (cb_enable_fill K enable s).cmb s.ctlbuf 0 = K.SVGA_DC_CMD_START_STOP_CONTEXT ∧
      (cb_enable_fill K enable s).cmb s.ctlbuf 1 = enable ∧
      (cb_enable_fill K enable s).cmb s.ctlbuf 2 = K.SVGA_CB_CONTEXT_0 := by
  simp [cb_enable_fill, State.setCmb]

/-- C13: `SVGA_CB_start` acts only when `cb_support` is TRUE and `cb_context0` is
FALSE.  It then (with a device that answers control descriptors) returns after
posting exactly one control descriptor (one write of `SVGA_REG_COMMAND_HIGH`, one of
`SVGA_REG_COMMAND_LOW`, then only `SVGA_Sync` calls) whose payload is
`SVGA_DC_CMD_START_STOP_CONTEXT` with `enable = 1` and context
`SVGA_CB_CONTEXT_0`; if the status the device returned is
`SVGA_CB_STATUS_COMPLETED` then `cb_context0` is TRUE and `cb_support` still TRUE,
otherwise `cb_support` is FALSE and `cb_context0` still FALSE.  In every other
state it returns the state unchanged (no descriptor, no flag, no counter). -/
theorem C13_start (K : Consts) (E : Env) (fuel : Nat) (s : State) :
    (s.cb_support = true → s.cb_context0 = false → ctl_responsive K E s.ctlbuf fuel →
      ∃ st t n v, SVGA_CB_start K E fuel s = some t ∧
        t.trace = List.replicate n Event.Sync ++ Event.Sync ::
          Event.WriteReg K.SVGA_REG_COMMAND_LOW v ::
          Event.WriteReg K.SVGA_REG_COMMAND_HIGH 0 :: s.trace ∧
        t.cmb s.ctlbuf 0 = K.SVGA_DC_CMD_START_STOP_CONTEXT ∧ t.cmb s.ctlbuf 1 = 1 ∧
        t.cmb s.ctlbuf 2 = K.SVGA_CB_CONTEXT_0 ∧
        (t.hdr s.ctlbuf).length = K.sizeof_cb_enable_t ∧
        (t.hdr s.ctlbuf).status = st ∧ st ≠ K.SVGA_CB_STATUS_NONE ∧
        (st = K.SVGA_CB_STATUS_COMPLETED → t.cb_context0 = true ∧ t.cb_support = true) ∧
        (st ≠ K.SVGA_CB_STATUS_COMPLETED → t.cb_support = false ∧ t.cb_context0 = false)) ∧
    (¬ (s.cb_support = true ∧ s.cb_context0 = false) → SVGA_CB_start K E fuel s = some s) := by
  constructor
  · intro hsup hctx hdev
    obtain ⟨st, s2, hctr, hfr⟩ := ctr_spec K E fuel K.sizeof_cb_enable_t
      (cb_enable_fill K 1 s) hdev
    obtain ⟨e1, e2, ⟨n, e3⟩, _, _, _, e7, _⟩ := ctr_exit K E fuel _ _ s2 st hctr
    obtain ⟨p0, p1, p2⟩ := fill_payload K 1 s
    have hc : s.cb_support = true ∧ s.cb_context0 = false := ⟨hsup, hctx⟩
    have hs2 : s2.cb_support = true := by rw [hfr.cb_support]; exact hsup
    have hc2 : s2.cb_context0 = false := by rw [hfr.cb_context0]; exact hctx
    by_cases hst : st = K.SVGA_CB_STATUS_COMPLETED
    · refine ⟨st, { s2 with cb_context0 := true }, n, _, ?_, e3, ?_, ?_, ?_, e7, e1, e2,
        fun _ => ⟨rfl, hs2⟩, fun h => absurd hst h⟩
      · simp only [SVGA_CB_start]
        rw [if_pos hc]
        simp only [hctr, hst, if_true]
      · show s2.cmb s.ctlbuf 0 = _
        rw [hfr.cmb]; exact p0
      · show s2.cmb s.ctlbuf 1 = _
        rw [hfr.cmb]; exact p1
      · show s2.cmb s.ctlbuf 2 = _
        rw [hfr.cmb]; exact p2
    · refine ⟨st, { s2 with cb_support := false }, n, _, ?_, e3, ?_, ?_, ?_, e7, e1, e2,
        fun h => absurd h hst, fun _ => ⟨rfl, hc2⟩⟩
      · simp only [SVGA_CB_start]
        rw [if_pos hc]
        simp only [hctr, hst, if_false]
      · show s2.cmb s.ctlbuf 0 = _
        rw [hfr.cmb]; exact p0
      · show s2.cmb s.ctlbuf 1 = _
        rw [hfr.cmb]; exact p1
      · show s2.cmb s.ctlbuf 2 = _
        rw [hfr.cmb]; exact p2
  · intro hc
    simp only [SVGA_CB_start]
    rw [if_neg hc]

theorem C13_start_witness :
    (∃ st t n v, SVGA_CB_start svga prompt_env 4 disabled_state = some t ∧
        t.trace = List.replicate n Event.Sync ++ Event.Sync ::
          Event.WriteReg svga.SVGA_REG_COMMAND_LOW v ::
          Event.WriteReg svga.SVGA_REG_COMMAND_HIGH 0 :: disabled_state.trace ∧
        t.cmb disabled_state.ctlbuf 0 = svga.SVGA_DC_CMD_START_STOP_CONTEXT ∧
        t.cmb disabled_state.ctlbuf 1 = 1 ∧
        t.cmb disabled_state.ctlbuf 2 = svga.SVGA_CB_CONTEXT_0 ∧
        (t.hdr disabled_state.ctlbuf).length = svga.sizeof_cb_enable_t ∧
        (t.hdr disabled_state.ctlbuf).status = st ∧ st ≠ svga.SVGA_CB_STATUS_NONE ∧
        (st = svga.SVGA_CB_STATUS_COMPLETED → t.cb_context0 = true ∧ t.cb_support = true) ∧
        (st ≠ svga.SVGA_CB_STATUS_COMPLETED → t.cb_support = false ∧ t.cb_context0 = false)) ∧
      SVGA_CB_start svga prompt_env 4 zero_state = some zero_state :=
  ⟨(C13_start svga prompt_env 4 disabled_state).1 rfl rfl
      (fun _ => ⟨0, by decide, 1, rfl, by decide⟩),
    (C13_start svga prompt_env 4 zero_state).2 (by decide)⟩
/-- C14, amended: on a well-formed queue.  With `cb_support` TRUE (and a device that
answers control descriptors, whatever status it returns) `SVGA_CB_stop` returns
with `cb_context0 = FALSE`, the chain empty (`first = last = NULL`), every
descriptor that was in the chain with status `SVGA_CB_STATUS_QUEUE_FULL`, after
posting exactly one control descriptor (payload `SVGA_DC_CMD_START_STOP_CONTEXT`,
`enable = 0`, context `SVGA_CB_CONTEXT_0`) followed by `SVGA_Sync` calls.  With
`cb_support` FALSE it only clears `cb_context0`: no descriptor is posted and the
queue and all descriptors are left as they were. -/
theorem C14_stop (K : Consts) (E : Env) (fuel : Nat) (s : State) (l : List Ptr)
    (hq : QueueIs s l) (hf : l.length ≤ fuel) :
    (s.cb_support = true → ctl_responsive K E s.ctlbuf fuel →
      ∃ t n v, SVGA_CB_stop K E fuel s = some t ∧ t.cb_context0 = false ∧
        t.cb_queue_info = { first := none, last := none } ∧ QueueIs t [] ∧
        (∀ p ∈ l, (t.hdr p).status = K.SVGA_CB_STATUS_QUEUE_FULL) ∧
        t.trace = Event.Sync :: (List.replicate n Event.Sync ++ Event.Sync ::
          Event.WriteReg K.SVGA_REG_COMMAND_LOW v ::
          Event.WriteReg K.SVGA_REG_COMMAND_HIGH 0 :: s.trace) ∧
        t.cmb s.ctlbuf 0 = K.SVGA_DC_CMD_START_STOP_CONTEXT ∧ t.cmb s.ctlbuf 1 = 0 ∧
        t.cmb s.ctlbuf 2 = K.SVGA_CB_CONTEXT_0) ∧
    (s.cb_support = false → SVGA_CB_stop K E fuel s = some { s with cb_context0 := false }) := by
  constructor
  · intro hsup hdev
    obtain ⟨st, s2, hctr, hfr⟩ := ctr_spec K E fuel K.sizeof_cb_enable_t
      (cb_enable_fill K 0 { s with cb_context0 := false }) hdev
    obtain ⟨_, _, ⟨n, e3⟩, _⟩ := ctr_exit K E fuel _ _ s2 st hctr
    have e4 : ∃ v, s2.trace = List.replicate n Event.Sync ++ Event.Sync ::
        Event.WriteReg K.SVGA_REG_COMMAND_LOW v ::
        Event.WriteReg K.SVGA_REG_COMMAND_HIGH 0 :: s.trace := ⟨_, e3⟩
    obtain ⟨v, e5⟩ := e4
    obtain ⟨p0, p1, p2⟩ := fill_payload K 0 { s with cb_context0 := false }
    have hq3 : QueueIs (SVGA_Sync E s2) l :=
      queueIs_congr (s := s) hfr.node hfr.cb_queue_info hq
    have her := erase_spec K fuel (SVGA_Sync E s2) l hq3 hf
    have hstop : SVGA_CB_stop K E fuel s = some { SVGA_Sync E s2 with
        hdr := fun p => if p ∈ l then
            { (SVGA_Sync E s2).hdr p with status := K.SVGA_CB_STATUS_QUEUE_FULL }
          else (SVGA_Sync E s2).hdr p
        cb_queue_info := { first := none, last := none } } := by
      simp only [SVGA_CB_stop]
      rw [if_pos hsup]
      simp only [hctr]
      exact her
    refine ⟨_, n, v, hstop, ?_, rfl, queueIs_empty _ rfl, ?_, ?_, ?_, ?_, ?_⟩
    · exact hfr.cb_context0
    · intro p hp
      simp [hp]
    · show Event.Sync :: s2.trace = _
      rw [e5]
    · show s2.cmb s.ctlbuf 0 = _
      rw [hfr.cmb]; exact p0
    · show s2.cmb s.ctlbuf 1 = _
      rw [hfr.cmb]; exact p1
    · show s2.cmb s.ctlbuf 2 = _
      rw [hfr.cmb]; exact p2
  · intro hsup
    simp only [SVGA_CB_stop]
    rw [if_neg (by simp [hsup])]

theorem C14_stop_witness :
    (∃ t n v, SVGA_CB_stop svga prompt_env 4 fault_state = some t ∧ t.cb_context0 = false ∧
        t.cb_queue_info = { first := none, last := none } ∧ QueueIs t [] ∧
        (∀ p ∈ [10, 11], (t.hdr p).status = svga.SVGA_CB_STATUS_QUEUE_FULL) ∧
        t.trace = Event.Sync :: (List.replicate n Event.Sync ++ Event.Sync ::
          Event.WriteReg svga.SVGA_REG_COMMAND_LOW v ::
          Event.WriteReg svga.SVGA_REG_COMMAND_HIGH 0 :: fault_state.trace) ∧
        t.cmb fault_state.ctlbuf 0 = svga.SVGA_DC_CMD_START_STOP_CONTEXT ∧
        t.cmb fault_state.ctlbuf 1 = 0 ∧
        t.cmb fault_state.ctlbuf 2 = svga.SVGA_CB_CONTEXT_0) ∧
      SVGA_CB_stop svga prompt_env 4 fault_state_unsupported =
        some { fault_state_unsupported with cb_context0 := false } :=
  ⟨(C14_stop svga prompt_env 4 fault_state [10, 11]
      (insert_all_queueIs [(10, 1), (11, 2)] zero_state [] (queueIs_empty _ rfl) (by decide))
      (by decide)).1 rfl (fun _ => ⟨0, by decide, 1, rfl, by decide⟩),
    (C14_stop svga prompt_env 4 fault_state_unsupported [10, 11]
      (insert_all_queueIs [(10, 1), (11, 2)] zero_state [] (queueIs_empty _ rfl) (by decide))
      (by decide)).2 rfl⟩

/-- C14, counterexample: with `cb_support` FALSE and a queue holding blocks 10 and 11,
`SVGA_CB_stop` leaves the chain `[10, 11]` in place and the pending descriptor 11
with status 0, not `SVGA_CB_STATUS_QUEUE_FULL`. -/
theorem C14_unsupported_not_drained :
    queue_chain 4 fault_state_unsupported = some [10, 11] ∧
      (SVGA_CB_stop svga idle_env 4 fault_state_unsupported).map
        (fun t => (t.cb_context0, queue_chain 4 t, (t.hdr 11).status,
          decide ((t.hdr 11).status = svga.SVGA_CB_STATUS_QUEUE_FULL))) =
        some (false, some [10, 11], 0, false) := by
  refine ⟨by decide, by decide⟩

/-- C12, amended: from a state in which the context is disabled
(`cb_context0 = FALSE`), the queue is empty and `cb_support` is TRUE, with a device
that answers every control descriptor and always with
`SVGA_CB_STATUS_COMPLETED`, `SVGA_CB_restart` returns with the context enabled
(`cb_context0 = TRUE`, `cb_support` still TRUE) and the queue empty.  With
`cb_support` FALSE it returns the state unchanged, the context still disabled. -/
theorem C12_restart_from_disabled (K : Consts) (E : Env) (fuel : Nat) (s : State)
    (hctx : s.cb_context0 = false) (hq : QueueIs s []) :
    (s.cb_support = true → ctl_responsive K E s.ctlbuf fuel →
      (∀ τ w, E.dev_status τ s.ctlbuf = some w → w = K.SVGA_CB_STATUS_COMPLETED) →
      ∃ t, SVGA_CB_restart K E fuel s = some t ∧ t.cb_context0 = true ∧
        t.cb_support = true ∧ QueueIs t []) ∧
    (s.cb_support = false → SVGA_CB_restart K E fuel s = some s) := by
  constructor
  · intro hsup hdev hok
    obtain ⟨t1, h1, hfr1, hqi, hsup1, hctx1⟩ := stop_spec K E fuel s [] hq hsup hdev
      (Nat.zero_le _)
    have hctl : t1.ctlbuf = s.ctlbuf := hfr1.stable.ctlbuf
    obtain ⟨st, s2, hctr, hfr⟩ := ctr_spec K E fuel K.sizeof_cb_enable_t
      (cb_enable_fill K 1 t1) (by show ctl_responsive K E t1.ctlbuf fuel; rw [hctl]; exact hdev)
    obtain ⟨_, _, _, _, _, _, _, e8⟩ := ctr_exit K E fuel _ _ s2 st hctr
    have hst : st = K.SVGA_CB_STATUS_COMPLETED :=
      e8 _ (fun τ w hw => hok τ w (by
        have hw2 : E.dev_status τ t1.ctlbuf = some w := hw
        rw [hctl] at hw2
        exact hw2))
    have hstart : SVGA_CB_start K E fuel t1 = some { s2 with cb_context0 := true } := by
      simp only [SVGA_CB_start]
      rw [if_pos ⟨hsup1, hctx1⟩]
      simp only [hctr, hst, if_true]
    have hre : SVGA_CB_restart K E fuel s = some { s2 with cb_context0 := true } := by
      simp only [SVGA_CB_restart, h1, hstart]
    refine ⟨{ s2 with cb_context0 := true }, hre, rfl, ?_, ?_⟩
    · show s2.cb_support = true
      rw [hfr.cb_support]
      exact hsup1
    · apply queueIs_empty
      show s2.cb_queue_info = _
      rw [hfr.cb_queue_info]
      exact hqi
  · intro hsup
    have hs : ({ s with cb_context0 := false } : State) = s := by
      cases s
      simp only at hctx
      subst hctx
      rfl
    have h1 : SVGA_CB_stop K E fuel s = some s := by
      simp only [SVGA_CB_stop]
      rw [if_neg (by simp [hsup]), hs]
    have h2 : SVGA_CB_start K E fuel s = some s := by
      simp only [SVGA_CB_start]
      rw [if_neg (by simp [hsup])]
    simp only [SVGA_CB_restart, h1, h2]

theorem C12_restart_from_disabled_witness :
    (∃ t, SVGA_CB_restart svga prompt_env 4 disabled_state = some t ∧ t.cb_context0 = true ∧
        t.cb_support = true ∧ QueueIs t []) ∧
      SVGA_CB_restart svga prompt_env 4 unsupported_state = some unsupported_state :=
  ⟨(C12_restart_from_disabled svga prompt_env 4 disabled_state rfl (queueIs_empty _ rfl)).1 rfl
      (fun _ => ⟨0, by decide, 1, rfl, by decide⟩)
      (fun _ w h => by
        have h2 : some 1 = some w := h
        cases h2
        rfl),
    (C12_restart_from_disabled svga prompt_env 4 unsupported_state rfl
      (queueIs_empty _ rfl)).2 rfl⟩

/-- C12, counterexample: from a disabled context with an empty queue
`SVGA_CB_restart` leaves the context disabled when `cb_support` is FALSE, and also
when `cb_support` is TRUE but the device answers the enabling control descriptor
with an error (status 3); in the second case `cb_support` is cleared. -/
theorem C12_restart_stays_disabled :
    unsupported_state.cb_context0 = false ∧
      unsupported_state.cb_queue_info = { first := none, last := none } ∧
      (SVGA_CB_restart svga prompt_env 4 unsupported_state).map
        (fun t => (t.cb_context0, t.cb_queue_info)) =
          some (false, { first := none, last := none }) ∧
      disabled_state.cb_context0 = false ∧
      disabled_state.cb_queue_info = { first := none, last := none } ∧
      (SVGA_CB_restart svga rejecting_env 4 disabled_state).map
        (fun t => (t.cb_context0, t.cb_support, t.cb_queue_info)) =
          some (false, false, { first := none, last := none }) := by
  refine ⟨rfl, rfl, by decide, rfl, rfl, by decide⟩

/-! ## Support once lost (C15) -/

theorem submit_critical_support (K : Consts) (E : Env) (fuel cmb cmb_size : Nat)
    (status : Option SVGA_CMB_status_t) (flags dx : Nat) (s : State)
    (st : Option SVGA_CMB_status_t) (t : State) (hoff : s.cb_support = false)
    (h : SVGA_CMB_submit_critical K E fuel cmb cmb_size status flags dx s = some (st, t)) :
    t.cb_support = false := by
  have hc : ¬ (s.cb_support = true ∧ s.cb_context0 = true ∧ flags &&& SVGA_CB_FORCE_FIFO = 0) := by
    simp [hoff]
  rw [submit_critical_fifo_eq K E fuel cmb cmb_size status flags dx s hc] at h
  simp only [Option.some.injEq] at h
  have ht : t = (SVGA_CMB_submit_fifo K E cmb cmb_size (submit_entry K cmb status flags s).1
      flags 0 (submit_entry K cmb status flags s).2).2 :=
    (congrArg Prod.snd h).symm
  rw [ht, (fifoFrame_submit K E cmb cmb_size _ flags 0 _).cb_support,
    (submit_entry_frame K cmb status flags s).1.cb_support]
  exact hoff

theorem alloc_support (K : Consts) (E : Env) (datasize : Nat) (s : State) :
    (SVGA_CMB_alloc_size K E datasize s).2.cb_support = s.cb_support := by
  unfold SVGA_CMB_alloc_size
  simp only [Begin_Critical_Section]
  cases E.page_alloc s.tick with
  | none => rfl
  | some r => rfl

theorem run_op_support (K : Consts) (E : Env) (fuel : Nat) (op : Op) (s t : State)
    (hoff : s.cb_support = false) (h : run_op K E fuel op s = some t) :
    t.cb_support = false := by
  have key : ∀ {a b : State}, WaitFrame K E a b → a.cb_support = false → b.cb_support = false := by
    intro a b hab ha
    cases hb : b.cb_support with
    | false => rfl
    | true => rw [hab.support hb] at ha; exact ha
  cases op with
  | start => exact key (waitFrame_start K E fuel s t h) hoff
  | stop => exact key (waitFrame_stop K E fuel s t h) hoff
  | restart => exact key (waitFrame_restart K E fuel s t h) hoff
  | scan tracked =>
    simp only [run_op] at h
    cases hc : CB_queue_check_inline K E fuel tracked s with
    | none => simp [hc] at h
    | some r =>
      obtain ⟨b, t1⟩ := r
      simp only [hc, Option.map_some', Option.some.injEq] at h
      subst h
      exact key (waitFrame_check_inline K E fuel tracked s t1 b hc) hoff
  | submit_critical cmb cmb_size status flags dx =>
    simp only [run_op] at h
    cases hc : SVGA_CMB_submit_critical K E fuel cmb cmb_size status flags dx s with
    | none => simp [hc] at h
    | some r =>
      obtain ⟨st, t1⟩ := r
      simp only [hc, Option.map_some', Option.some.injEq] at h
      subst h
      exact submit_critical_support K E fuel cmb cmb_size status flags dx s st t1 hoff hc
  | submit cmb cmb_size status flags dx =>
    simp only [run_op, SVGA_CMB_submit] at h
    cases hc : SVGA_CMB_submit_critical K E fuel cmb cmb_size status flags dx
        (Begin_Critical_Section s) with
    | none => simp [hc] at h
    | some r =>
      obtain ⟨st, t1⟩ := r
      simp only [hc, Option.map_some', Option.some.injEq] at h
      subst h
      show t1.cb_support = false
      exact submit_critical_support K E fuel cmb cmb_size status flags dx
        (Begin_Critical_Section s) st t1 hoff hc
  | wait_cmdbuf =>
    simp only [run_op, wait_for_cmdbuf] at h
    exact key (waitFrame_WAIT_FOR_CB K E fuel _ false fuel _ t h) hoff
  | send_cmdbuf cmdsize flags dx =>
    simp only [run_op, submit_cmdbuf] at h
    cases hc : SVGA_CMB_submit_critical K E fuel s.cmdbuf cmdsize none flags dx s with
    | none => simp [hc] at h
    | some r =>
      obtain ⟨st, t1⟩ := r
      simp only [hc, Option.map_some', Option.some.injEq] at h
      subst h
      show t1.cb_support = false
      exact submit_critical_support K E fuel _ cmdsize none flags dx s st t1 hoff hc
  | wait_update =>
    simp only [run_op, SVGA_CMB_wait_update] at h
    split at h
    · exact key (waitFrame_wait_flags K E fuel _ fuel s t h) hoff
    · simp only [Option.some.injEq] at h
      subst h
      rw [(fifoFrame_fence_check K E _ s).cb_support]
      exact hoff
  | flush =>
    simp only [run_op, SVGA_Flush_CB, SVGA_Flush_CB_critical] at h
    cases hc : SVGA_Flush_CB_wait K E fuel fuel (Begin_Critical_Section s) with
    | none => simp [hc] at h
    | some t1 =>
      simp only [hc, Option.map_some', Option.some.injEq] at h
      subst h
      show t1.cb_support = false
      exact key (waitFrame_Flush_wait K E fuel fuel _ t1 hc) hoff
  | alloc datasize =>
    simp only [run_op, Option.some.injEq] at h
    subst h
    rw [alloc_support]
    exact hoff
  | free cmb =>
    simp only [run_op, SVGA_CMB_free] at h
    cases hc : WAIT_FOR_CB K E fuel cmb true fuel (Begin_Critical_Section s) with
    | none => simp [hc] at h
    | some t1 =>
      simp only [hc, Option.map_some', Option.some.injEq] at h
      subst h
      show t1.cb_support = false
      exact key (waitFrame_WAIT_FOR_CB K E fuel cmb true fuel _ t1 hc) hoff

theorem run_ops_support (K : Consts) (E : Env) (fuel : Nat) :
    ∀ (ops : List Op) (s t : State), s.cb_support = false → run_ops K E fuel ops s = some t →
      t.cb_support = false
  | [], s, t, hoff, h => by
    simp only [run_ops, Option.some.injEq] at h
    subst h
    exact hoff
  | op :: ops, s, t, hoff, h => by
    simp only [run_ops] at h
    cases hc : run_op K E fuel op s with
    | none => simp [hc] at h
    | some t1 =>
      simp only [hc] at h
      exact run_ops_support K E fuel ops t1 t (run_op_support K E fuel op s t1 hoff hc) h

/-- C15: once `cb_support` is FALSE, it is FALSE after every sequence of operations
of the engine that returns (start, stop, restart, scan, the three entry points of
submission, the waits, flush, alloc, free); in the state so reached every
`SVGA_CMB_submit_critical` call runs the FIFO branch, returns, and writes no
register, and `SVGA_CB_start` returns the state unchanged (it posts no control
descriptor). -/
theorem C15_support_stays_off (K : Consts) (E : Env) (fuel : Nat) (ops : List Op)
    (s t : State) (hoff : s.cb_support = false) (hrun : run_ops K E fuel ops s = some t) :
    t.cb_support = false ∧
      (∀ cmb cmb_size status flags dx,
        SVGA_CMB_submit_critical K E fuel cmb cmb_size status flags dx t =
            some (submit_exit E (SVGA_CMB_submit_fifo K E cmb cmb_size
              (submit_entry K cmb status flags t).1 flags 0
              (submit_entry K cmb status flags t).2)) ∧
          ∃ st u, SVGA_CMB_submit_critical K E fuel cmb cmb_size status flags dx t =
              some (st, u) ∧ u.cb_support = false ∧
            ∃ ev, u.trace = ev ++ t.trace ∧ ∀ e ∈ ev, e.is_reg = false) ∧
      SVGA_CB_start K E fuel t = some t := by
  have ht := run_ops_support K E fuel ops s t hoff hrun
  refine ⟨ht, ?_, ?_⟩
  · intro cmb cmb_size status flags dx
    have hc : ¬ (t.cb_support = true ∧ t.cb_context0 = true ∧
        flags &&& SVGA_CB_FORCE_FIFO = 0) := by simp [ht]
    have heq := submit_critical_fifo_eq K E fuel cmb cmb_size status flags dx t hc
    refine ⟨heq, _, _, heq, ?_, ?_⟩
    · exact submit_critical_support K E fuel cmb cmb_size status flags dx t _ _ ht heq
    · have h1 := (submit_entry_frame K cmb status flags t).1
      have h2 := fifoFrame_submit K E cmb cmb_size (submit_entry K cmb status flags t).1 flags 0
        (submit_entry K cmb status flags t).2
      obtain ⟨ev, he1, he2⟩ := (fifoFrame_trans h1 h2).trace
      refine ⟨ev, he1, ?_⟩
      intro e he
      have := he2 e he
      simpa using this
  · simp only [SVGA_CB_start]
    rw [if_neg (by simp [ht])]

theorem C15_support_stays_off_witness :
    ∃ t, run_ops svga rejecting_env 4 sample_ops unsupported_state = some t ∧
      t.cb_support = false ∧ SVGA_CB_start svga rejecting_env 4 t = some t := by
  cases h : run_ops svga rejecting_env 4 sample_ops unsupported_state with
  | none =>
    have hrun : (run_ops svga rejecting_env 4 sample_ops unsupported_state).isSome = true := by
      decide
    simp [h] at hrun
  | some t =>
    obtain ⟨h1, _, h3⟩ := C15_support_stays_off svga rejecting_env 4 sample_ops
      unsupported_state t (by decide) h
    exact ⟨t, rfl, h1, h3⟩

/-! ## The submission counter and the result of a scan (C16, C17) -/

/-- C16: the ids of two descriptors dispatched one after the other are not always
`n` and `n + 1`.  With `cb_next_id = 0x00000000FFFFFFFF` and the carry flag clear
on entry to `SVGA_cb_id_inc`, block 10 is stamped with id (low `0xFFFFFFFF`, high 0)
and block 11 with id (low 0, high 0): the carry of the low half is lost.  With
`cb_next_id = 0` and the carry flag set on entry, block 10 is stamped 0 and block 11
with (low 1, high 1), that is `2 ^ 32 + 1`. -/
theorem C16_successive_ids :
    (run_ops svga idle_env 4 two_submissions wrap_state).map
        (fun t => ([(t.hdr 10).id_low, (t.hdr 10).id_hi, (t.hdr 11).id_low, (t.hdr 11).id_hi],
          queue_chain 4 t)) =
        some ([0xFFFFFFFF, 0, 0, 0], some [10, 11]) ∧
      (run_ops svga carry_env 4 two_submissions zero_state).map
        (fun t => ([(t.hdr 10).id_low, (t.hdr 10).id_hi, (t.hdr 11).id_low, (t.hdr 11).id_hi],
          queue_chain 4 t)) =
        some ([0, 0, 1, 1], some [10, 11]) := by
  refine ⟨by decide, by decide⟩

/-- C17: on a well-formed queue in which no chained descriptor has a status above
`SVGA_CB_STATUS_COMPLETED`, for every `tracked`, `CB_queue_check_inline(tracked)`
returns; the chain it leaves holds the descriptors that were pending, in their
order; it returns TRUE if and only if that chain is empty, or `tracked` is not
`NULL` and its block is not in that chain; with `tracked = NULL` it returns TRUE
exactly when that chain is empty. -/
theorem C17_scan_result (K : Consts) (E : Env) (fuel : Nat) (tracked : Option Ptr)
    (s : State) (l : List Ptr) (hq : QueueIs s l) (hnf : ∀ p ∈ l, faulted K s p = false)
    (hf : l.length ≤ fuel) :
    ∃ b t rest, CB_queue_check_inline K E fuel tracked s = some (b, t) ∧
      rest = l.filter (pending K s) ∧ QueueIs t rest ∧ queue_chain fuel t = some rest ∧
      (b = true ↔ rest = [] ∨ ∃ cb, tracked = some cb ∧ cb ∉ rest) ∧
      (tracked = none → (b = true ↔ rest = [])) := by
  obtain ⟨t, ht, hqt, _⟩ := check_inline_no_fault K E fuel tracked s l hq hnf hf
  refine ⟨_, t, _, ht, rfl, hqt,
    queue_chain_of_queueIs hqt fuel (le_trans (List.length_filter_le _ _) hf), ?_, ?_⟩
  · cases tracked with
    | none => simp [scan_result]
    | some c => simp [scan_result, imp_iff_not_or]
  · intro hn
    subst hn
    simp [scan_result]

theorem C17_scan_result_witness :
    ∃ b t rest, CB_queue_check_inline svga idle_env 4 (some 11) busy_state = some (b, t) ∧
      rest = [11, 12].filter (pending svga busy_state) ∧ QueueIs t rest ∧
      queue_chain 4 t = some rest ∧
      (b = true ↔ rest = [] ∨ ∃ cb, some 11 = some cb ∧ cb ∉ rest) ∧
      ((some 11 : Option Ptr) = none → (b = true ↔ rest = [])) :=
  C17_scan_result svga idle_env 4 (some 11) busy_state [11, 12]
    (insert_all_queueIs [(11, 4), (12, 2)] zero_state [] (queueIs_empty _ rfl) (by decide))
    (by decide) (by decide)

/-! ## Exit of the wait (C18) -/

theorem pending_false_iff (K : Consts) (s : State) (p : Ptr) :
    pending K s p = false ↔ K.SVGA_CB_STATUS_COMPLETED ≤ (s.hdr p).status := by
  simp [pending]

theorem ctr_wait_links (K : Consts) (E : Env) :
    ∀ (fuel : Nat) (s t : State), SVGA_CB_ctr_wait K E fuel s = some t →
      t.node = s.node ∧ t.cb_queue_info = s.cb_queue_info ∧ t.cb_support = s.cb_support
  | 0, s, t, h => by
    simp only [SVGA_CB_ctr_wait] at h
    split at h
    · cases h
    · cases h; exact ⟨rfl, rfl, rfl⟩
  | fuel + 1, s, t, h => by
    simp only [SVGA_CB_ctr_wait] at h
    split at h
    · exact ctr_wait_links K E fuel (SVGA_Sync E s) t h
    · cases h; exact ⟨rfl, rfl, rfl⟩

theorem ctr_links (K : Consts) (E : Env) (fuel data_size : Nat) (s t : State) (st : Nat)
    (h : SVGA_CB_ctr K E fuel data_size s = some (st, t)) :
    t.node = s.node ∧ t.cb_queue_info = s.cb_queue_info ∧ t.cb_support = s.cb_support := by
  simp only [SVGA_CB_ctr] at h
  generalize hs1 : SVGA_cb_id_inc _ _ = s1 at h
  cases hw : SVGA_CB_ctr_wait K E fuel s1 with
  | none => simp [hw] at h
  | some t1 =>
    simp only [hw, Option.map_some', Option.some.injEq, Prod.mk.injEq] at h
    obtain ⟨_, rfl⟩ := h
    obtain ⟨h1, h2, h3⟩ := ctr_wait_links K E fuel s1 t1 hw
    subst hs1
    exact ⟨h1, h2, h3⟩

theorem stop_retires (K : Consts) (E : Env) (fuel : Nat) (s t : State) (l : List Ptr)
    (hq : QueueIs s l) (hf : l.length ≤ fuel) (hsup : s.cb_support = true)
    (h : SVGA_CB_stop K E fuel s = some t) :
    ∀ p ∈ l, (t.hdr p).status = K.SVGA_CB_STATUS_QUEUE_FULL := by
  simp only [SVGA_CB_stop] at h
  rw [if_pos hsup] at h
  cases hc : SVGA_CB_ctr K E fuel K.sizeof_cb_enable_t
      (cb_enable_fill K 0 { s with cb_context0 := false }) with
  | none => simp [hc] at h
  | some r =>
    obtain ⟨st, s2⟩ := r
    simp only [hc] at h
    obtain ⟨h1, h2, _⟩ := ctr_links K E fuel _ _ s2 st hc
    have hq3 : QueueIs (SVGA_Sync E s2) l := queueIs_congr (s := s) h1 h2 hq
    rw [erase_spec K fuel (SVGA_Sync E s2) l hq3 hf] at h
    simp only [Option.some.injEq] at h
    subst h
    intro p hp
    simp [hp]

theorem check_inline_fault_eq (K : Consts) (E : Env) (fuel : Nat) (tracked : Option Ptr)
    (s : State) (l : List Ptr) (hq : QueueIs s l) (hfault : ∃ p ∈ l, faulted K s p = true)
    (hf : l.length ≤ fuel) :
    ∃ s1, QueueIs s1 (l.filter (pending K s)) ∧ ScanFrame s s1 ∧
      CB_queue_check_inline K E fuel tracked s =
        (SVGA_CB_restart K E fuel s1).map fun t => (true, t) := by
  obtain ⟨h1, h2, h3⟩ := hq
  obtain ⟨t0, ht0, hseg, hfr⟩ := check_loop_spec K tracked l [] fuel s.cb_queue_info.first none
    false false s rfl rfl h1 (by simpa using h3) hf
  have hany : l.any (faulted K s) = true := by
    rw [List.any_eq_true]
    exact hfault
  simp only [List.nil_append, Bool.false_or, hany] at ht0 hseg
  have hfr1 : ScanFrame s { t0 with cb_queue_info :=
      { t0.cb_queue_info with last := (l.filter (pending K s)).getLast? } } := by
    obtain ⟨a, b⟩ := hfr
    refine ⟨?_, b⟩
    rw [a]
  have hq1 : QueueIs { t0 with cb_queue_info :=
      { t0.cb_queue_info with last := (l.filter (pending K s)).getLast? } }
      (l.filter (pending K s)) := ⟨hseg, rfl, h3.filter _⟩
  refine ⟨_, hq1, hfr1, ?_⟩
  simp only [CB_queue_check_inline, ht0, if_true]

theorem wait_exit_retired (K : Consts) (E : Env) (n : Nat) (cb : Ptr) (forcesync : Bool)
    (hdev : retiring_device K E)
    (hQ : K.SVGA_CB_STATUS_COMPLETED ≤ K.SVGA_CB_STATUS_QUEUE_FULL) :
    ∀ (fuel : Nat) (s t : State) (l : List Ptr), QueueIs s l → l.length ≤ n →
      (s.cb_support = true ∨ ∀ p ∈ l, p = cb) →
      (∀ p, p ∉ l → pending K s p = false) →
      WAIT_FOR_CB K E n cb forcesync fuel s = some t →
      K.SVGA_CB_STATUS_COMPLETED ≤ (t.hdr cb).status
  | 0, _, _, _, _, _, _, _, h => by simp [WAIT_FOR_CB] at h
  | fuel + 1, s, t, l, hq, hf, hsup, hout, h => by
    simp only [WAIT_FOR_CB] at h
    cases hc : CB_queue_check_inline K E n (some cb) s with
    | none => simp [hc] at h
    | some r =>
      obtain ⟨b, s1⟩ := r
      have hwf := waitFrame_check_inline K E n (some cb) s s1 b hc
      by_cases hfault : ∃ p ∈ l, faulted K s p = true
      · -- the pass meets a fault and restarts the context
        obtain ⟨s0, hq0, hfr0, heq⟩ := check_inline_fault_eq K E n (some cb) s l hq hfault hf
        rw [hc] at heq
        cases hre : SVGA_CB_restart K E n s0 with
        | none => simp [hre] at heq
        | some t1 =>
          simp only [hre, Option.map_some', Option.some.injEq, Prod.mk.injEq] at heq
          obtain ⟨rfl, rfl⟩ := heq
          simp only [hc, Option.some.injEq] at h
          subst h
          cases hp : pending K s cb with
          | false => exact hwf.retired hdev hQ cb ((pending_false_iff K s cb).1 hp)
          | true =>
            have hcb : cb ∈ l := by
              by_contra hn
              rw [hout cb hn] at hp
              cases hp
            have hsup1 : s.cb_support = true := by
              rcases hsup with h1 | h1
              · exact h1
              · exfalso
                obtain ⟨p, hpl, hpf⟩ := hfault
                rw [h1 p hpl] at hpf
                simp only [faulted, pending, decide_eq_true_eq] at hpf hp
                omega
            obtain ⟨_, hs0, _, _⟩ := scanFrame_proj hfr0
            simp only [SVGA_CB_restart] at hre
            cases hst : SVGA_CB_stop K E n s0 with
            | none => simp [hst] at hre
            | some s2 =>
              simp only [hst] at hre
              have h2 := stop_retires K E n s0 s2 _ hq0
                (le_trans (List.length_filter_le _ _) hf) (hs0.trans hsup1) hst cb
                (List.mem_filter.2 ⟨hcb, hp⟩)
              have h3 := waitFrame_start K E n s2 s1 hre
              apply h3.retired hdev hQ cb
              rw [h2]
              exact hQ
      · -- the pass meets no fault
        have hnf : ∀ p ∈ l, faulted K s p = false := by
          intro p hp
          cases hfp : faulted K s p with
          | false => rfl
          | true => exact absurd ⟨p, hp, hfp⟩ hfault
        obtain ⟨s0, heq, hq0, hfr0⟩ := check_inline_no_fault K E n (some cb) s l hq hnf hf
        rw [hc] at heq
        simp only [Option.some.injEq, Prod.mk.injEq] at heq
        obtain ⟨hb, rfl⟩ := heq
        obtain ⟨hh, hs0, _, _⟩ := scanFrame_proj hfr0
        have hrest : ∀ p, p ∉ l.filter (pending K s) →
            K.SVGA_CB_STATUS_COMPLETED ≤ (s1.hdr p).status := by
          intro p hp
          rw [hh, ← pending_false_iff]
          by_cases hpl : p ∈ l
          · cases hpp : pending K s p with
            | false => rfl
            | true => exact absurd (List.mem_filter.2 ⟨hpl, hpp⟩) hp
          · exact hout p hpl
        cases b with
        | true =>
          simp only [hc, Option.some.injEq] at h
          subst h
          apply hrest
          have hsr : scan_result (some cb) (l.filter (pending K s)) = true := hb.symm
          simp only [scan_result, Bool.or_eq_true, decide_eq_true_eq, Bool.and_eq_true,
            Option.isSome_some, true_and, Bool.not_eq_true', decide_eq_false_iff_not,
            List.mem_map, Option.some.injEq, exists_eq_right] at hsr
          rcases hsr with h0 | h0
          · rw [h0]; simp
          · exact h0
        | false =>
          simp only [hc] at h
          have hstep : ∀ u : State, (u = SVGA_Sync E s1 ∨ u = device_step E s1) →
              WAIT_FOR_CB K E n cb forcesync fuel u = some t →
              K.SVGA_CB_STATUS_COMPLETED ≤ (t.hdr cb).status := by
            intro u hu hwu
            have hfu : WaitFrame K E s1 u := by
              rcases hu with rfl | rfl
              · exact waitFrame_sync K E s1
              · exact waitFrame_step K E s1
            have hlinks : u.node = s1.node ∧ u.cb_queue_info = s1.cb_queue_info ∧
                u.cb_support = s1.cb_support := by
              rcases hu with rfl | rfl <;> exact ⟨rfl, rfl, rfl⟩
            apply wait_exit_retired K E n cb forcesync hdev hQ fuel u t
              (l.filter (pending K s)) (queueIs_congr hlinks.1 hlinks.2.1 hq0)
              (le_trans (List.length_filter_le _ _) hf) ?_ ?_ hwu
            · rcases hsup with h1 | h1
              · left
                rw [hlinks.2.2, hs0]
                exact h1
              · right
                intro p hp
                exact h1 p (List.mem_filter.1 hp).1
            · intro p hp
              rw [pending_false_iff]
              exact hfu.retired hdev hQ p (hrest p hp)
          cases forcesync with
          | true => exact hstep _ (Or.inl rfl) h
          | false => exact hstep _ (Or.inr rfl) h

/-- The part of C18 that holds: starting from a state with a well-formed queue in
which every descriptor outside the chain has a non-pending status, and in which
`cb_support` is TRUE or the chain holds no descriptor other than `cb`, with a device
that only stores statuses at or above `SVGA_CB_STATUS_COMPLETED` (and
`SVGA_CB_STATUS_QUEUE_FULL` at or above `SVGA_CB_STATUS_COMPLETED`): whenever the
wait `WAIT_FOR_CB(cb)` exits, with either value of its `_forcesync` argument, the
status of `cb` is at least `SVGA_CB_STATUS_COMPLETED`; so it is when
`SVGA_CMB_free(cb)` returns and, for `cb = cmdbuf`, when `wait_for_cmdbuf`
returns. -/
theorem C18_wait_exit (K : Consts) (E : Env) (n : Nat) (cb : Ptr) (s : State) (l : List Ptr)
    (hq : QueueIs s l) (hf : l.length ≤ n)
    (hsup : s.cb_support = true ∨ ∀ p ∈ l, p = cb)
    (hdev : retiring_device K E)
    (hQ : K.SVGA_CB_STATUS_COMPLETED ≤ K.SVGA_CB_STATUS_QUEUE_FULL)
    (hout : ∀ p, p ∉ l → pending K s p = false) :
    (∀ forcesync fuel t, WAIT_FOR_CB K E n cb forcesync fuel s = some t →
      K.SVGA_CB_STATUS_COMPLETED ≤ (t.hdr cb).status) ∧
    (∀ t, SVGA_CMB_free K E n cb s = some t →
      K.SVGA_CB_STATUS_COMPLETED ≤ (t.hdr cb).status) ∧
    (cb = s.cmdbuf → ∀ t, wait_for_cmdbuf K E n s = some t →
      K.SVGA_CB_STATUS_COMPLETED ≤ (t.hdr cb).status) := by
  have hb : QueueIs (Begin_Critical_Section s) l := queueIs_congr (s := s) rfl rfl hq
  refine ⟨?_, ?_, ?_⟩
  · intro forcesync fuel t h
    exact wait_exit_retired K E n cb forcesync hdev hQ fuel s t l hq hf hsup hout h
  · intro t h
    simp only [SVGA_CMB_free] at h
    cases hw : WAIT_FOR_CB K E n cb true n (Begin_Critical_Section s) with
    | none => simp [hw] at h
    | some t1 =>
      simp only [hw, Option.map_some', Option.some.injEq] at h
      subst h
      exact wait_exit_retired K E n cb true hdev hQ n _ t1 l hb hf hsup hout hw
  · intro hcb t h
    subst hcb
    simp only [wait_for_cmdbuf] at h
    exact wait_exit_retired K E n _ false hdev hQ n _ t l hb hf hsup hout h

theorem C18_wait_exit_witness :
    ∃ t, WAIT_FOR_CB svga prompt_env 4 12 true 4 busy_state = some t ∧
      svga.SVGA_CB_STATUS_COMPLETED ≤ (t.hdr 12).status := by
  cases h : WAIT_FOR_CB svga prompt_env 4 12 true 4 busy_state with
  | none =>
    have hrun : (WAIT_FOR_CB svga prompt_env 4 12 true 4 busy_state).isSome = true := by decide
    simp [h] at hrun
  | some t =>
    refine ⟨t, rfl, (C18_wait_exit svga prompt_env 4 12 busy_state [11, 12]
      (insert_all_queueIs [(11, 4), (12, 2)] zero_state [] (queueIs_empty _ rfl) (by decide))
      (by decide) (Or.inl rfl) ?_ (by decide) ?_).1 true 4 t h⟩
    · intro τ p v hv
      have h2 : some 1 = some v := hv
      cases h2
      decide
    · intro p hp
      have hp12 : p ≠ 12 := fun h12 => hp (by rw [h12]; decide)
      simp [pending, busy_state, hp12, svga]

theorem and_or_ne_zero_iff (x a b : Nat) :
    x &&& (a ||| b) ≠ 0 ↔ (x &&& a ≠ 0 ∨ x &&& b ≠ 0) := by
  constructor
  · intro h
    by_contra hn
    simp only [not_or, not_not] at hn
    apply h
    rw [Nat.and_or_distrib_left, hn.1, hn.2]
    rfl
  · intro h hz
    obtain ⟨h1, h2⟩ := and_or_eq_zero hz
    rcases h with h | h
    · exact h h1
    · exact h h2

theorem fifo_need_iff (K : Consts) (flags : Nat) :
    flags_fifo_fence_need K flags = true ↔
      (flags &&& SVGA_CB_SYNC ≠ 0 ∨ flags &&& SVGA_CB_FORCE_FENCE ≠ 0 ∨
        flags &&& K.SVGA_CB_PRESENT ≠ 0 ∨ flags &&& K.SVGA_CB_RENDER ≠ 0 ∨
        flags &&& K.SVGA_CB_UPDATE ≠ 0) := by
  simp only [flags_fifo_fence_need, decide_eq_true_eq, and_or_ne_zero_iff, or_assoc]

theorem fifo_fence_append_cmb (K : Consts) (E : Env) (ptr : Ptr) (dwords flags fence : Nat)
    (s : State) :
    (flags_fifo_fence_need K flags = true →
      fence_appended K dwords (E.fence_get s.tick) (s.cmb ptr)
          ((fifo_fence_append K E ptr dwords flags fence s).2.2.cmb ptr) ∧
        ∀ q, q ≠ ptr → (fifo_fence_append K E ptr dwords flags fence s).2.2.cmb q = s.cmb q) ∧
    (flags_fifo_fence_need K flags = false →
      (fifo_fence_append K E ptr dwords flags fence s).2.2 = s) := by
  constructor
  · intro h
    simp only [fifo_fence_append, h, if_true, fence_appended, State.setCmb, SVGA_fence_get,
      State.log]
    refine ⟨⟨by simp, by simp, ?_⟩, ?_⟩
    · intro i h1 h2
      simp [h1, h2]
    · intro q hq
      funext j
      simp [hq]
  · intro h
    simp [fifo_fence_append, h]

theorem cb_fence_append_cmb (K : Consts) (E : Env) (cmb : Ptr) (cmb_size flags fence : Nat)
    (s : State) :
    (flags &&& SVGA_CB_FORCE_FENCE ≠ 0 →
      fence_appended K (cmb_size / sizeof_DWORD) (E.fence_get s.tick) (s.cmb cmb)
          ((cb_fence_append K E cmb cmb_size flags fence s).2.2.cmb cmb) ∧
        (∀ q, q ≠ cmb → (cb_fence_append K E cmb cmb_size flags fence s).2.2.cmb q = s.cmb q) ∧
        (cb_fence_append K E cmb cmb_size flags fence s).2.2.hdr = s.hdr ∧
        (cb_fence_append K E cmb cmb_size flags fence s).2.2.ctlbuf = s.ctlbuf) ∧
    (flags &&& SVGA_CB_FORCE_FENCE = 0 →
      (cb_fence_append K E cmb cmb_size flags fence s).2.2 = s) := by
  constructor
  · intro h
    have hcb : (cb_fence_append K E cmb cmb_size flags fence s).2.2 =
        ((SVGA_fence_get E s).2.setCmb cmb (cmb_size / sizeof_DWORD) K.SVGA_CMD_FENCE).setCmb
          cmb (cmb_size / sizeof_DWORD + 1) (E.fence_get s.tick) := by
      simp only [cb_fence_append, flags_cb_fence_need, h, ne_eq, not_false_eq_true,
        decide_True, if_true]
      rfl
    rw [hcb]
    refine ⟨⟨?_, ?_, ?_⟩, ?_, rfl, rfl⟩
    · simp [State.setCmb, SVGA_fence_get, State.log]
    · simp [State.setCmb, SVGA_fence_get, State.log]
    · intro i h1 h2
      simp [State.setCmb, SVGA_fence_get, State.log, h1, h2]
    · intro q hq
      funext j
      simp [State.setCmb, SVGA_fence_get, State.log, hq]
  · intro h
    simp [cb_fence_append, flags_cb_fence_need, h]

theorem copy_loop_fields (K : Consts) (cmb max min : Nat) :
    ∀ (dwords ptr nextCmd : Nat) (s : State),
      (fifo_copy_loop K cmb max min dwords ptr nextCmd s).cmb = s.cmb ∧
      (fifo_copy_loop K cmb max min dwords ptr nextCmd s).fence_present = s.fence_present ∧
      (fifo_copy_loop K cmb max min dwords ptr nextCmd s).fence_render = s.fence_render ∧
      (fifo_copy_loop K cmb max min dwords ptr nextCmd s).fence_update = s.fence_update
  | 0, _, _, s => ⟨rfl, rfl, rfl, rfl⟩
  | dwords + 1, ptr, nextCmd, s => by
    simp only [fifo_copy_loop]
    obtain ⟨h1, h2, h3, h4⟩ := copy_loop_fields K cmb max min dwords (ptr + 1)
      (if (nextCmd + sizeof_DWORD) % 2 ^ 32 ≥ max then min
        else (nextCmd + sizeof_DWORD) % 2 ^ 32)
      ((s.fifoStore (nextCmd / sizeof_DWORD) (s.cmb cmb ptr)).fifoStore K.SVGA_FIFO_NEXT_CMD
        (if (nextCmd + sizeof_DWORD) % 2 ^ 32 ≥ max then min
          else (nextCmd + sizeof_DWORD) % 2 ^ 32))
    exact ⟨h1, h2, h3, h4⟩

theorem slotsKept_refl (s : State) : SlotsKept s s := ⟨rfl, Or.inl rfl, Or.inl rfl, Or.inl rfl⟩

theorem slotsKept_trans {s t u : State} (h1 : SlotsKept s t) (h2 : SlotsKept t u) :
    SlotsKept s u := by
  refine ⟨h2.cmb.trans h1.cmb, ?_, ?_, ?_⟩
  · rcases h2.fence_present with h | h
    · rw [h]; exact h1.fence_present
    · exact Or.inr h
  · rcases h2.fence_render with h | h
    · rw [h]; exact h1.fence_render
    · exact Or.inr h
  · rcases h2.fence_update with h | h
    · rw [h]; exact h1.fence_update
    · exact Or.inr h

theorem fence_check_fields (K : Consts) (E : Env) (flags : Nat) (s : State) :
    SlotsKept s (flags_fence_check K E flags s) := by
  have step : ∀ (c : Prop) [Decidable c] (u : State) (get : State → Nat)
      (clear : State → State), (∀ v, SlotsKept v (clear (SVGA_fence_wait E (get v) v))) →
      SlotsKept u (if c then (if get u ≠ 0 then clear (SVGA_fence_wait E (get u) u) else u)
        else u) := by
    intro c _ u get clear hclear
    split
    · split
      · exact hclear u
      · exact slotsKept_refl u
    · exact slotsKept_refl u
  unfold flags_fence_check
  simp only []
  refine slotsKept_trans (slotsKept_trans
    (step _ s (fun u => u.fence_present) (fun u => { u with fence_present := 0 })
      (fun v => ⟨rfl, Or.inr rfl, Or.inl rfl, Or.inl rfl⟩))
    (step _ _ (fun u => u.fence_render) (fun u => { u with fence_render := 0 })
      (fun v => ⟨rfl, Or.inl rfl, Or.inr rfl, Or.inl rfl⟩)))
    (step _ _ (fun u => u.fence_update) (fun u => { u with fence_update := 0 })
      (fun v => ⟨rfl, Or.inl rfl, Or.inl rfl, Or.inr rfl⟩))

theorem fence_insert_eq (K : Consts) (flags token : Nat) (s : State) :
    flags_fence_insert K flags token s =
      { s with
        fence_present := if flags &&& K.SVGA_CB_PRESENT ≠ 0 then token else s.fence_present
        fence_render := if flags &&& K.SVGA_CB_RENDER ≠ 0 then token else s.fence_render
        fence_update := if flags &&& K.SVGA_CB_UPDATE ≠ 0 then token else s.fence_update } := by
  unfold flags_fence_insert
  simp only []
  split_ifs <;> rfl

/-- The payload and the fence slots on return from the FIFO branch: the payload is as
the fence-append block left it, and the slots are as the conflict check left them,
overwritten by `flags_fence_insert` when the submission is asynchronous and not
degenerate. -/
theorem submit_fifo_fields (K : Consts) (E : Env) (cmb cmb_size : Nat)
    (status : Option SVGA_CMB_status_t) (flags fence : Nat) (s : State) :
    ∃ c : State,
      c = flags_fence_check K E flags
        (fifo_fence_append K E cmb (cmb_size / sizeof_DWORD) flags fence s).2.2 ∧
      (SVGA_CMB_submit_fifo K E cmb cmb_size status flags fence s).2.cmb =
        (fifo_fence_append K E cmb (cmb_size / sizeof_DWORD) flags fence s).2.2.cmb ∧
      ∃ r : State,
        r = (if (fifo_fence_append K E cmb (cmb_size / sizeof_DWORD) flags fence s).2.1 ≠ 0 ∧
              flags &&& SVGA_CB_SYNC = 0 then
            flags_fence_insert K flags
              (fifo_fence_append K E cmb (cmb_size / sizeof_DWORD) flags fence s).1 c
          else c) ∧
        (SVGA_CMB_submit_fifo K E cmb cmb_size status flags fence s).2.fence_present =
          r.fence_present ∧
        (SVGA_CMB_submit_fifo K E cmb cmb_size status flags fence s).2.fence_render =
          r.fence_render ∧
        (SVGA_CMB_submit_fifo K E cmb cmb_size status flags fence s).2.fence_update =
          r.fence_update := by
  refine ⟨_, rfl, ?_, _, rfl, ?_⟩
  · unfold SVGA_CMB_submit_fifo
    simp only []
    split
    · exact (fence_check_fields K E flags _).cmb
    · split
      · show (fifo_copy_loop K cmb _ _ _ _ _ _).cmb = _
        rw [(copy_loop_fields K cmb _ _ _ _ _ _).1]
        exact (fence_check_fields K E flags _).cmb
      · have h := fifoFrame_fence_insert K flags
          (fifo_fence_append K E cmb (cmb_size / sizeof_DWORD) flags fence s).1
        simp only [State.setHdr, fence_insert_eq]
        rw [(copy_loop_fields K cmb _ _ _ _ _ _).1]
        exact (fence_check_fields K E flags _).cmb
  · unfold SVGA_CMB_submit_fifo
    simp only []
    split
    · next hz =>
      simp only [hz, ne_eq, not_true_eq_false, false_and, if_false]
      exact ⟨rfl, rfl, rfl⟩
    · next hz =>
      split
      · next hs =>
        have hs2 : ¬ flags &&& SVGA_CB_SYNC = 0 := hs
        simp only [hs2, and_false, if_false]
        obtain ⟨_, h2, h3, h4⟩ := copy_loop_fields K cmb
          ((flags_fence_check K E flags
            (fifo_fence_append K E cmb (cmb_size / sizeof_DWORD) flags fence s).2.2).fifoMem
              K.SVGA_FIFO_MAX)
          ((flags_fence_check K E flags
            (fifo_fence_append K E cmb (cmb_size / sizeof_DWORD) flags fence s).2.2).fifoMem
              K.SVGA_FIFO_MIN)
          (fifo_fence_append K E cmb (cmb_size / sizeof_DWORD) flags fence s).2.1 0
          ((flags_fence_check K E flags
            (fifo_fence_append K E cmb (cmb_size / sizeof_DWORD) flags fence s).2.2).fifoMem
              K.SVGA_FIFO_NEXT_CMD)
          (flags_fence_check K E flags
            (fifo_fence_append K E cmb (cmb_size / sizeof_DWORD) flags fence s).2.2)
        exact ⟨h2, h3, h4⟩
      · next hs =>
        have hs2 : flags &&& SVGA_CB_SYNC = 0 := by simpa using hs
        simp only [hz, hs2, ne_eq, not_false_eq_true, and_self, if_true]
        obtain ⟨_, h2, h3, h4⟩ := copy_loop_fields K cmb
          ((flags_fence_check K E flags
            (fifo_fence_append K E cmb (cmb_size / sizeof_DWORD) flags fence s).2.2).fifoMem
              K.SVGA_FIFO_MAX)
          ((flags_fence_check K E flags
            (fifo_fence_append K E cmb (cmb_size / sizeof_DWORD) flags fence s).2.2).fifoMem
              K.SVGA_FIFO_MIN)
          (fifo_fence_append K E cmb (cmb_size / sizeof_DWORD) flags fence s).2.1 0
          ((flags_fence_check K E flags
            (fifo_fence_append K E cmb (cmb_size / sizeof_DWORD) flags fence s).2.2).fifoMem
              K.SVGA_FIFO_NEXT_CMD)
          (flags_fence_check K E flags
            (fifo_fence_append K E cmb (cmb_size / sizeof_DWORD) flags fence s).2.2)
        simp only [State.setHdr, fence_insert_eq]
        refine ⟨?_, ?_, ?_⟩
        · split_ifs
          · rfl
          · exact h2
        · split_ifs
          · rfl
          · exact h3
        · split_ifs
          · rfl
          · exact h4
theorem submit_fifo_handle (K : Consts) (E : Env) (cmb cmb_size : Nat)
    (st0 : SVGA_CMB_status_t) (flags fence : Nat) (s : State) :
    (SVGA_CMB_submit_fifo K E cmb cmb_size (some st0) flags fence s).1 =
      some { st0 with
        sStatus :=
          if (fifo_fence_append K E cmb (cmb_size / sizeof_DWORD) flags fence s).2.1 ≠ 0 ∧
              flags &&& SVGA_CB_SYNC = 0 then SVGA_PROC_FENCE
          else SVGA_PROC_COMPLETED
        qStatus := none
        fifo_fence_used :=
          if (fifo_fence_append K E cmb (cmb_size / sizeof_DWORD) flags fence s).2.1 ≠ 0 ∧
              flags &&& SVGA_CB_SYNC = 0 then
            (fifo_fence_append K E cmb (cmb_size / sizeof_DWORD) flags fence s).1
          else 0 } := by
  unfold SVGA_CMB_submit_fifo
  simp only []
  split
  · next hz => simp [hz]
  · next hz =>
    split
    · next hs =>
      have hs2 : ¬ flags &&& SVGA_CB_SYNC = 0 := hs
      simp [hs2]
    · next hs =>
      have hs2 : flags &&& SVGA_CB_SYNC = 0 := by simpa using hs
      simp [hz, hs2]

theorem submit_entry_fields (K : Consts) (cmb : Ptr) (status : Option SVGA_CMB_status_t)
    (flags : Nat) (s : State) :
    (submit_entry K cmb status flags s).2.cmb = s.cmb ∧
      ((submit_entry K cmb status flags s).2.hdr cmb).length = (s.hdr cmb).length := by
  unfold submit_entry
  cases status <;> simp only [] <;> split <;> simp [State.setHdr]

theorem insert_fields (cb : Ptr) (f : Nat) (u : State) :
    (CB_queue_insert cb f u).cmb = u.cmb ∧ (CB_queue_insert cb f u).hdr = u.hdr ∧
      (CB_queue_insert cb f u).ctlbuf = u.ctlbuf ∧ (CB_queue_insert cb f u).tick = u.tick := by
  unfold CB_queue_insert
  simp only []
  split <;> exact ⟨rfl, rfl, rfl, rfl⟩

theorem dispatch_fields (K : Consts) (E : Env) (cmb : Ptr) (cmb_size flags dx : Nat)
    (s : State) :
    (cb_dispatch K E cmb cmb_size flags dx s).cmb = s.cmb ∧
      (cb_dispatch K E cmb cmb_size flags dx s).ctlbuf = s.ctlbuf ∧
      ((cb_dispatch K E cmb cmb_size flags dx s).hdr cmb).length = cmb_size := by
  have hif : ∀ u : State, u.cmb = s.cmb → u.ctlbuf = s.ctlbuf →
      (if flags &&& K.SVGA_CB_FLAG_DX_CONTEXT ≠ 0 then
          u.setHdr cmb { (u.hdr cmb) with
            flags := (u.hdr cmb).flags ||| K.SVGA_CB_FLAG_DX_CONTEXT, dxContext := dx }
        else u.setHdr cmb { (u.hdr cmb) with dxContext := 0 }).cmb = s.cmb ∧
      (if flags &&& K.SVGA_CB_FLAG_DX_CONTEXT ≠ 0 then
          u.setHdr cmb { (u.hdr cmb) with
            flags := (u.hdr cmb).flags ||| K.SVGA_CB_FLAG_DX_CONTEXT, dxContext := dx }
        else u.setHdr cmb { (u.hdr cmb) with dxContext := 0 }).ctlbuf = s.ctlbuf := by
    intro u h1 h2
    split <;> exact ⟨h1, h2⟩
  unfold cb_dispatch
  simp only []
  obtain ⟨h1, h2⟩ := hif (s.setHdr cmb { (s.hdr cmb) with
    status := K.SVGA_CB_STATUS_NONE, errorOffset := 0, offset := 0,
    flags := K.SVGA_CB_FLAG_NO_IRQ }) rfl rfl
  generalize (if flags &&& K.SVGA_CB_FLAG_DX_CONTEXT ≠ 0 then _ else _ : State) = u at h1 h2
  obtain ⟨i1, i2, i3, _⟩ := insert_fields cmb (flags_to_cbq K flags) (u.setHdr cmb
    { (u.hdr cmb) with id_low := u.cb_next_id.low, id_hi := u.cb_next_id.hi, length := cmb_size })
  generalize CB_queue_insert cmb (flags_to_cbq K flags) (u.setHdr cmb { (u.hdr cmb) with
    id_low := u.cb_next_id.low, id_hi := u.cb_next_id.hi, length := cmb_size }) = u3
    at i1 i2 i3
  refine ⟨?_, ?_, ?_⟩
  · show u3.cmb = _
    rw [i1]; exact h1
  · show u3.ctlbuf = _
    rw [i3]; exact h2
  · show (match E.dev_status u3.tick cmb with
      | some v => { u3.hdr cmb with status := v }
      | none => u3.hdr cmb).length = _
    have hl : (u3.hdr cmb).length = cmb_size := by
      rw [i2]
      simp [State.setHdr]
    cases E.dev_status u3.tick cmb with
    | none => exact hl
    | some v => exact hl

theorem submit_cb_payload (K : Consts) (E : Env) (fuel cmb cmb_size : Nat)
    (status : Option SVGA_CMB_status_t) (flags dx : Nat) (s : State)
    (st : Option SVGA_CMB_status_t) (t : State) (hctl : cmb ≠ s.ctlbuf)
    (hres : SVGA_CMB_submit_cb K E fuel cmb cmb_size status flags dx 0 s = some (st, t)) :
    t.cmb cmb = (cb_fence_append K E cmb cmb_size flags 0 s).2.2.cmb cmb ∧
      (t.hdr cmb).length =
        if (cb_fence_append K E cmb cmb_size flags 0 s).2.1 = 0 then (s.hdr cmb).length
        else (cb_fence_append K E cmb cmb_size flags 0 s).2.1 := by
  have ha : (cb_fence_append K E cmb cmb_size flags 0 s).2.2.hdr = s.hdr ∧
      (cb_fence_append K E cmb cmb_size flags 0 s).2.2.ctlbuf = s.ctlbuf := by
    by_cases hff : flags &&& SVGA_CB_FORCE_FENCE = 0
    · rw [(cb_fence_append_cmb K E cmb cmb_size flags 0 s).2 hff]
      exact ⟨rfl, rfl⟩
    · obtain ⟨_, _, h3, h4⟩ := (cb_fence_append_cmb K E cmb cmb_size flags 0 s).1 hff
      exact ⟨h3, h4⟩
  simp only [SVGA_CMB_submit_cb] at hres
  cases hw : CB_queue_wait_flags K E fuel (flags_to_cbq_check K flags) fuel
      (cb_fence_append K E cmb cmb_size flags 0 s).2.2 with
  | none => simp [hw] at hres
  | some s1 =>
    simp only [hw] at hres
    have hwf := waitFrame_wait_flags K E fuel _ fuel _ s1 hw
    have hc1 : cmb ≠ (cb_fence_append K E cmb cmb_size flags 0 s).2.2.ctlbuf := by
      rw [ha.2]; exact hctl
    have hp1 := hwf.payload cmb hc1
    obtain ⟨v1, hd1⟩ := hwf.descriptor cmb hc1
    have hl1 : (s1.hdr cmb).length = (s.hdr cmb).length := by
      rw [hd1, ha.1]
    by_cases hz : (cb_fence_append K E cmb cmb_size flags 0 s).2.1 = 0
    · simp only [hz, if_true, Option.some.injEq, Prod.mk.injEq] at hres
      obtain ⟨_, rfl⟩ := hres
      refine ⟨hp1, ?_⟩
      rw [if_pos hz]
      simpa [State.setHdr] using hl1
    · simp only [hz, if_false] at hres
      obtain ⟨g1, g2, g3⟩ := dispatch_fields K E cmb
        (cb_fence_append K E cmb cmb_size flags 0 s).2.1 flags dx s1
      rw [if_neg hz]
      by_cases hsync : flags &&& SVGA_CB_SYNC = 0
      · simp only [hsync, ne_eq, not_true_eq_false, if_false, Option.some.injEq,
          Prod.mk.injEq] at hres
        obtain ⟨_, rfl⟩ := hres
        exact ⟨by rw [g1]; exact hp1, g3⟩
      · simp only [hsync, ne_eq, not_false_eq_true, if_true] at hres
        cases hw2 : WAIT_FOR_CB K E fuel cmb false fuel
            (cb_dispatch K E cmb (cb_fence_append K E cmb cmb_size flags 0 s).2.1 flags dx s1) with
        | none => simp [hw2] at hres
        | some s2 =>
          simp only [hw2, Option.some.injEq, Prod.mk.injEq] at hres
          obtain ⟨_, rfl⟩ := hres
          have hwf2 := waitFrame_WAIT_FOR_CB K E fuel cmb false fuel _ s2 hw2
          have hc2 : cmb ≠ (cb_dispatch K E cmb (cb_fence_append K E cmb cmb_size flags 0 s).2.1
              flags dx s1).ctlbuf := by
            rw [g2, hwf.ctlbuf]; exact hc1
          obtain ⟨v2, hd2⟩ := hwf2.descriptor cmb hc2
          refine ⟨by rw [hwf2.payload cmb hc2, g1]; exact hp1, ?_⟩
          rw [hd2]
          exact g3
/-- C19, amended: for a payload of `cmb_size` bytes, a multiple of 4 with
`cmb_size + 8 < 2 ^ 32`.  The FIFO branch needs a fence exactly when the flags
contain one of `SVGA_CB_SYNC`, `SVGA_CB_FORCE_FENCE`, `SVGA_CB_PRESENT`,
`SVGA_CB_RENDER`, `SVGA_CB_UPDATE`, the command-buffer branch exactly when they
contain `SVGA_CB_FORCE_FENCE`.  On the FIFO path the submission returns; when a
fence is needed the two words `SVGA_CMD_FENCE`, token stand directly after the
payload words (word index `cmb_size / 4`) and every other payload word is
unchanged, otherwise the payload is unchanged.  On the command-buffer path, for a
payload buffer other than the control buffer, whenever the submission returns: with
`SVGA_CB_FORCE_FENCE` the fence stands directly after the payload words, every
other word is unchanged and the descriptor length is `cmb_size + 8`; without it the
payload is unchanged and the descriptor length is `cmb_size` when `cmb_size` is not
0, while for `cmb_size = 0` nothing is dispatched and the descriptor length is left
as it was. -/
theorem C19_fence_append (K : Consts) (E : Env) (fuel cmb cmb_size : Nat)
    (status : Option SVGA_CMB_status_t) (flags dx : Nat) (s : State)
    (h4 : cmb_size % 4 = 0) (hsize : cmb_size + 8 < 2 ^ 32) :
    sizeof_DWORD * (cmb_size / sizeof_DWORD) = cmb_size ∧
    (flags_fifo_fence_need K flags = true ↔
      (flags &&& SVGA_CB_SYNC ≠ 0 ∨ flags &&& SVGA_CB_FORCE_FENCE ≠ 0 ∨
        flags &&& K.SVGA_CB_PRESENT ≠ 0 ∨ flags &&& K.SVGA_CB_RENDER ≠ 0 ∨
        flags &&& K.SVGA_CB_UPDATE ≠ 0)) ∧
    (flags_cb_fence_need flags = true ↔ flags &&& SVGA_CB_FORCE_FENCE ≠ 0) ∧
    (¬ (s.cb_support = true ∧ s.cb_context0 = true ∧ flags &&& SVGA_CB_FORCE_FIFO = 0) →
      ∃ st t, SVGA_CMB_submit_critical K E fuel cmb cmb_size status flags dx s = some (st, t) ∧
        (flags_fifo_fence_need K flags = true →
          fence_appended K (cmb_size / sizeof_DWORD) (E.fence_get s.tick) (s.cmb cmb)
            (t.cmb cmb)) ∧
        (flags_fifo_fence_need K flags = false → t.cmb cmb = s.cmb cmb)) ∧
    ((s.cb_support = true ∧ s.cb_context0 = true ∧ flags &&& SVGA_CB_FORCE_FIFO = 0) →
      cmb ≠ s.ctlbuf →
      ∀ st t, SVGA_CMB_submit_critical K E fuel cmb cmb_size status flags dx s = some (st, t) →
        (flags &&& SVGA_CB_FORCE_FENCE ≠ 0 →
          fence_appended K (cmb_size / sizeof_DWORD) (E.fence_get s.tick) (s.cmb cmb)
            (t.cmb cmb) ∧ (t.hdr cmb).length = cmb_size + 8) ∧
        (flags &&& SVGA_CB_FORCE_FENCE = 0 →
          t.cmb cmb = s.cmb cmb ∧ (cmb_size ≠ 0 → (t.hdr cmb).length = cmb_size) ∧
          (cmb_size = 0 → (t.hdr cmb).length = (s.hdr cmb).length))) := by
  obtain ⟨hecmb, helen⟩ := submit_entry_fields K cmb status flags s
  have hetick := submit_entry_tick K cmb status flags s
  have hectl := (submit_entry_frame K cmb status flags s).1.ctlbuf
  refine ⟨?_, fifo_need_iff K flags, by simp [flags_cb_fence_need], ?_, ?_⟩
  · simp only [sizeof_DWORD]
    omega
  · intro hc
    have heq := submit_critical_fifo_eq K E fuel cmb cmb_size status flags dx s hc
    refine ⟨_, _, heq, ?_, ?_⟩
    · intro hn
      obtain ⟨_, _, hcmb, _⟩ := submit_fifo_fields K E cmb cmb_size
        (submit_entry K cmb status flags s).1 flags 0 (submit_entry K cmb status flags s).2
      have ha := ((fifo_fence_append_cmb K E cmb (cmb_size / sizeof_DWORD) flags 0
        (submit_entry K cmb status flags s).2).1 hn).1
      rw [hetick, hecmb] at ha
      show fence_appended K _ _ _ ((SVGA_CMB_submit_fifo K E cmb cmb_size
        (submit_entry K cmb status flags s).1 flags 0
        (submit_entry K cmb status flags s).2).2.cmb cmb)
      rw [hcmb]
      exact ha
    · intro hn
      obtain ⟨_, _, hcmb, _⟩ := submit_fifo_fields K E cmb cmb_size
        (submit_entry K cmb status flags s).1 flags 0 (submit_entry K cmb status flags s).2
      have ha := (fifo_fence_append_cmb K E cmb (cmb_size / sizeof_DWORD) flags 0
        (submit_entry K cmb status flags s).2).2 hn
      show (SVGA_CMB_submit_fifo K E cmb cmb_size
        (submit_entry K cmb status flags s).1 flags 0
        (submit_entry K cmb status flags s).2).2.cmb cmb = _
      rw [hcmb, ha, hecmb]
  · intro hc hctl st t hres
    rw [submit_critical_cb_eq K E fuel cmb cmb_size status flags dx s hc] at hres
    cases hcbr : SVGA_CMB_submit_cb K E fuel cmb cmb_size (submit_entry K cmb status flags s).1
        flags dx 0 (submit_entry K cmb status flags s).2 with
    | none => simp [hcbr] at hres
    | some r =>
      obtain ⟨st1, t1⟩ := r
      simp only [hcbr, Option.map_some', submit_exit, Option.some.injEq, Prod.mk.injEq] at hres
      obtain ⟨_, rfl⟩ := hres
      obtain ⟨hp, hl⟩ := submit_cb_payload K E fuel cmb cmb_size _ flags dx _ st1 t1
        (by rw [hectl]; exact hctl) hcbr
      have hsz := cb_fence_append_size K E cmb cmb_size flags 0
        (submit_entry K cmb status flags s).2
      constructor
      · intro hff
        obtain ⟨ha, _⟩ := (cb_fence_append_cmb K E cmb cmb_size flags 0
          (submit_entry K cmb status flags s).2).1 hff
        rw [hetick, hecmb] at ha
        have hsz2 : (cb_fence_append K E cmb cmb_size flags 0
            (submit_entry K cmb status flags s).2).2.1 = cmb_size + 8 := by
          rw [hsz]
          simp only [flags_cb_fence_need, ne_eq, hff, not_false_eq_true, decide_True, if_true,
            sizeof_DWORD]
          omega
        refine ⟨by rw [hp]; exact ha, ?_⟩
        rw [hl, hsz2, if_neg (by omega)]
      · intro hff
        have ha := (cb_fence_append_cmb K E cmb cmb_size flags 0
          (submit_entry K cmb status flags s).2).2 hff
        have hsz2 : (cb_fence_append K E cmb cmb_size flags 0
            (submit_entry K cmb status flags s).2).2.1 = cmb_size := by
          rw [hsz]
          simp [flags_cb_fence_need, hff]
        refine ⟨by rw [hp, ha, hecmb], ?_, ?_⟩
        · intro hnz
          rw [hl, hsz2, if_neg hnz]
        · intro hz
          rw [hl, hsz2, if_pos hz, helen]

theorem C19_fence_append_witness :
    (∃ st t, SVGA_CMB_submit_critical svga idle_env 4 5 12 none
          (SVGA_CB_FORCE_FIFO ||| svga.SVGA_CB_RENDER) 0 ring_state = some (st, t) ∧
        fence_appended svga 3 1 (ring_state.cmb 5) (t.cmb 5)) ∧
      ∃ st t, SVGA_CMB_submit_critical svga prompt_env 4 10 16 none SVGA_CB_FORCE_FENCE 0
          zero_state = some (st, t) ∧
        fence_appended svga 4 1 (zero_state.cmb 10) (t.cmb 10) ∧ (t.hdr 10).length = 24 := by
  constructor
  · obtain ⟨st, t, h1, h2, _⟩ := (C19_fence_append svga idle_env 4 5 12 none
      (SVGA_CB_FORCE_FIFO ||| svga.SVGA_CB_RENDER) 0 ring_state (by decide) (by decide)).2.2.2.1
      (by decide)
    exact ⟨st, t, h1, h2 (by decide)⟩
  · cases h : SVGA_CMB_submit_critical svga prompt_env 4 10 16 none SVGA_CB_FORCE_FENCE 0
        zero_state with
    | none =>
      have hrun : (SVGA_CMB_submit_critical svga prompt_env 4 10 16 none SVGA_CB_FORCE_FENCE 0
        zero_state).isSome = true := by decide
      simp [h] at hrun
    | some r =>
      obtain ⟨st, t⟩ := r
      have h2 := ((C19_fence_append svga prompt_env 4 10 16 none SVGA_CB_FORCE_FENCE 0
        zero_state (by decide) (by decide)).2.2.2.2 (by decide) (by decide) st t h).1
        (by decide)
      exact ⟨st, t, rfl, h2⟩

/-- C19, counterexample: on the command-buffer path a submission with `cmb_size = 0`
and without `SVGA_CB_FORCE_FENCE` returns with the descriptor length of block 10
still 99, the value it had at entry, not `cmb_size = 0`. -/
theorem C19_zero_length_keeps_stale_length :
    (stale_state.hdr 10).length = 99 ∧
      (SVGA_CMB_submit_critical svga prompt_env 4 10 0 none 0 0 stale_state).map
        (fun r => ((r.2.hdr 10).length, r.2.trace)) = some (99, []) := by
  refine ⟨by decide, by decide⟩

/-- C20: `flags_fence_insert(flags, token)` stores `token` in the slot of every
category whose flag is set in `flags` and changes nothing else.  On the FIFO path
the submission returns, and: if it is asynchronous and not degenerate, the handle
reports `sStatus = SVGA_PROC_FENCE` with `fifo_fence_used` the token of the fence it
appended (0 when it appended none), every slot whose category flag is set holds
that token, and every other slot keeps its value or was cleared to 0 by the
conflict check; if it is synchronous, the handle reports `SVGA_PROC_COMPLETED` with
`fifo_fence_used = 0` and no slot receives the token: each keeps its value or was
cleared to 0 by the conflict check. -/
theorem C20_fence_record (K : Consts) (E : Env) (fuel cmb cmb_size : Nat)
    (st0 : SVGA_CMB_status_t) (flags dx : Nat) (s : State) :
    (∀ token u, flags_fence_insert K flags token u =
      { u with
        fence_present := if flags &&& K.SVGA_CB_PRESENT ≠ 0 then token else u.fence_present
        fence_render := if flags &&& K.SVGA_CB_RENDER ≠ 0 then token else u.fence_render
        fence_update := if flags &&& K.SVGA_CB_UPDATE ≠ 0 then token else u.fence_update }) ∧
    (¬ (s.cb_support = true ∧ s.cb_context0 = true ∧ flags &&& SVGA_CB_FORCE_FIFO = 0) →
      ∃ st t, SVGA_CMB_submit_critical K E fuel cmb cmb_size (some st0) flags dx s =
          some (some st, t) ∧
        (flags &&& SVGA_CB_SYNC = 0 →
          (cmb_size / sizeof_DWORD ≠ 0 ∨ flags_fifo_fence_need K flags = true) →
          st.sStatus = SVGA_PROC_FENCE ∧
          st.fifo_fence_used =
            (if flags_fifo_fence_need K flags then E.fence_get s.tick else 0) ∧
          (flags &&& K.SVGA_CB_PRESENT ≠ 0 →
            t.fence_present = E.fence_get s.tick ∧ st.fifo_fence_used = E.fence_get s.tick) ∧
          (flags &&& K.SVGA_CB_RENDER ≠ 0 →
            t.fence_render = E.fence_get s.tick ∧ st.fifo_fence_used = E.fence_get s.tick) ∧
          (flags &&& K.SVGA_CB_UPDATE ≠ 0 →
            t.fence_update = E.fence_get s.tick ∧ st.fifo_fence_used = E.fence_get s.tick) ∧
          (flags &&& K.SVGA_CB_PRESENT = 0 →
            t.fence_present = s.fence_present ∨ t.fence_present = 0) ∧
          (flags &&& K.SVGA_CB_RENDER = 0 →
            t.fence_render = s.fence_render ∨ t.fence_render = 0) ∧
          (flags &&& K.SVGA_CB_UPDATE = 0 →
            t.fence_update = s.fence_update ∨ t.fence_update = 0)) ∧
        (flags &&& SVGA_CB_SYNC ≠ 0 →
          st.sStatus = SVGA_PROC_COMPLETED ∧ st.fifo_fence_used = 0 ∧
          (t.fence_present = s.fence_present ∨ t.fence_present = 0) ∧
          (t.fence_render = s.fence_render ∨ t.fence_render = 0) ∧
          (t.fence_update = s.fence_update ∨ t.fence_update = 0))) := by
  refine ⟨fun token u => fence_insert_eq K flags token u, ?_⟩
  intro hc
  have heq := submit_critical_fifo_eq K E fuel cmb cmb_size (some st0) flags dx s hc
  have hentry : (submit_entry K cmb (some st0) flags s).1 =
      some { st0 with sStatus := SVGA_PROC_NONE, qStatus := some cmb } := rfl
  have hetick := submit_entry_tick K cmb (some st0) flags s
  obtain ⟨_, _, _, hep, her, heu⟩ := submit_entry_frame K cmb (some st0) flags s
  rw [hentry] at heq
  have hh := submit_fifo_handle K E cmb cmb_size
    { st0 with sStatus := SVGA_PROC_NONE, qStatus := some cmb } flags 0
    (submit_entry K cmb (some st0) flags s).2
  obtain ⟨c, hc0, _, r, hr, hfp, hfr, hfu⟩ := submit_fifo_fields K E cmb cmb_size
    (some { st0 with sStatus := SVGA_PROC_NONE, qStatus := some cmb }) flags 0
    (submit_entry K cmb (some st0) flags s).2
  obtain ⟨hf1, hf2⟩ := fifo_fence_append_fence K E cmb (cmb_size / sizeof_DWORD) flags 0
    (submit_entry K cmb (some st0) flags s).2
  rw [hetick] at hf1
  have hck := fence_check_fields K E flags
    (fifo_fence_append K E cmb (cmb_size / sizeof_DWORD) flags 0
      (submit_entry K cmb (some st0) flags s).2).2.2
  have hap : (fifo_fence_append K E cmb (cmb_size / sizeof_DWORD) flags 0
        (submit_entry K cmb (some st0) flags s).2).2.2.fence_present = s.fence_present ∧
      (fifo_fence_append K E cmb (cmb_size / sizeof_DWORD) flags 0
        (submit_entry K cmb (some st0) flags s).2).2.2.fence_render = s.fence_render ∧
      (fifo_fence_append K E cmb (cmb_size / sizeof_DWORD) flags 0
        (submit_entry K cmb (some st0) flags s).2).2.2.fence_update = s.fence_update := by
    unfold fifo_fence_append
    split
    · exact ⟨hep, her, heu⟩
    · exact ⟨hep, her, heu⟩
  rw [← hc0] at hck
  have hcp : c.fence_present = s.fence_present ∨ c.fence_present = 0 := by
    rw [← hap.1]; exact hck.fence_present
  have hcr : c.fence_render = s.fence_render ∨ c.fence_render = 0 := by
    rw [← hap.2.1]; exact hck.fence_render
  have hcu : c.fence_update = s.fence_update ∨ c.fence_update = 0 := by
    rw [← hap.2.2]; exact hck.fence_update
  have hst : (submit_exit E (SVGA_CMB_submit_fifo K E cmb cmb_size
      (some { st0 with sStatus := SVGA_PROC_NONE, qStatus := some cmb }) flags 0
      (submit_entry K cmb (some st0) flags s).2)) =
      (some { ({ st0 with
        sStatus :=
          if (fifo_fence_append K E cmb (cmb_size / sizeof_DWORD) flags 0
              (submit_entry K cmb (some st0) flags s).2).2.1 ≠ 0 ∧
              flags &&& SVGA_CB_SYNC = 0 then SVGA_PROC_FENCE
          else SVGA_PROC_COMPLETED
        qStatus := none
        fifo_fence_used :=
          if (fifo_fence_append K E cmb (cmb_size / sizeof_DWORD) flags 0
              (submit_entry K cmb (some st0) flags s).2).2.1 ≠ 0 ∧
              flags &&& SVGA_CB_SYNC = 0 then
            (fifo_fence_append K E cmb (cmb_size / sizeof_DWORD) flags 0
              (submit_entry K cmb (some st0) flags s).2).1
          else 0 } : SVGA_CMB_status_t) with
        fifo_fence_last := SVGA_fence_passed E (SVGA_CMB_submit_fifo K E cmb cmb_size
          (some { st0 with sStatus := SVGA_PROC_NONE, qStatus := some cmb }) flags 0
          (submit_entry K cmb (some st0) flags s).2).2 },
       (SVGA_CMB_submit_fifo K E cmb cmb_size
          (some { st0 with sStatus := SVGA_PROC_NONE, qStatus := some cmb }) flags 0
          (submit_entry K cmb (some st0) flags s).2).2) := by
    simp only [submit_exit, hh, Option.map_some']
  rw [hst] at heq
  refine ⟨_, _, heq, ?_, ?_⟩
  · intro hsync hnd
    have hnz : (fifo_fence_append K E cmb (cmb_size / sizeof_DWORD) flags 0
        (submit_entry K cmb (some st0) flags s).2).2.1 ≠ 0 := by
      rw [hf2]
      rcases hnd with h | h
      · by_cases hn : flags_fifo_fence_need K flags = true
        · rw [if_pos hn]; exact Nat.succ_ne_zero _
        · rw [if_neg hn]; exact h
      · rw [if_pos h]; exact Nat.succ_ne_zero _
    have hcond : (fifo_fence_append K E cmb (cmb_size / sizeof_DWORD) flags 0
        (submit_entry K cmb (some st0) flags s).2).2.1 ≠ 0 ∧ flags &&& SVGA_CB_SYNC = 0 :=
      ⟨hnz, hsync⟩
    rw [if_pos hcond, fence_insert_eq, hf1] at hr
    have hneed : ∀ x, flags &&& x ≠ 0 → (x = K.SVGA_CB_PRESENT ∨ x = K.SVGA_CB_RENDER ∨
        x = K.SVGA_CB_UPDATE) → flags_fifo_fence_need K flags = true := by
      intro x hx hx2
      rw [fifo_need_iff]
      rcases hx2 with rfl | rfl | rfl
      · exact Or.inr (Or.inr (Or.inl hx))
      · exact Or.inr (Or.inr (Or.inr (Or.inl hx)))
      · exact Or.inr (Or.inr (Or.inr (Or.inr hx)))
    have hused : (if (fifo_fence_append K E cmb (cmb_size / sizeof_DWORD) flags 0
          (submit_entry K cmb (some st0) flags s).2).2.1 ≠ 0 ∧ flags &&& SVGA_CB_SYNC = 0 then
        (fifo_fence_append K E cmb (cmb_size / sizeof_DWORD) flags 0
          (submit_entry K cmb (some st0) flags s).2).1 else 0) =
        (if flags_fifo_fence_need K flags then E.fence_get s.tick else 0) := by
      rw [if_pos hcond, hf1]
    refine ⟨by simp only [if_pos hcond], hused, ?_, ?_, ?_, ?_, ?_, ?_⟩
    · intro hP
      have hn := hneed _ hP (Or.inl rfl)
      refine ⟨?_, by rw [hused, if_pos hn]⟩
      rw [hfp, hr]
      simp only [hP, ne_eq, not_false_eq_true, if_true, hn]
    · intro hR
      have hn := hneed _ hR (Or.inr (Or.inl rfl))
      refine ⟨?_, by rw [hused, if_pos hn]⟩
      rw [hfr, hr]
      simp only [hR, ne_eq, not_false_eq_true, if_true, hn]
    · intro hU
      have hn := hneed _ hU (Or.inr (Or.inr rfl))
      refine ⟨?_, by rw [hused, if_pos hn]⟩
      rw [hfu, hr]
      simp only [hU, ne_eq, not_false_eq_true, if_true, hn]
    · intro hP
      rw [hfp, hr]
      simp only [hP, ne_eq, not_true_eq_false, if_false]
      exact hcp
    · intro hR
      rw [hfr, hr]
      simp only [hR, ne_eq, not_true_eq_false, if_false]
      exact hcr
    · intro hU
      rw [hfu, hr]
      simp only [hU, ne_eq, not_true_eq_false, if_false]
      exact hcu
  · intro hsync
    have hcond : ¬ ((fifo_fence_append K E cmb (cmb_size / sizeof_DWORD) flags 0
        (submit_entry K cmb (some st0) flags s).2).2.1 ≠ 0 ∧ flags &&& SVGA_CB_SYNC = 0) :=
      fun h => hsync h.2
    rw [if_neg hcond] at hr
    rw [hr] at hfp hfr hfu
    refine ⟨by simp only [if_neg hcond], by simp only [if_neg hcond], ?_, ?_, ?_⟩
    · rw [hfp]; exact hcp
    · rw [hfr]; exact hcr
    · rw [hfu]; exact hcu

theorem C20_fence_record_witness :
    ∃ st t, SVGA_CMB_submit_critical svga idle_env 4 5 12 (some blank_status)
        (SVGA_CB_FORCE_FIFO ||| svga.SVGA_CB_RENDER) 0 ring_state = some (some st, t) ∧
      st.sStatus = SVGA_PROC_FENCE ∧ t.fence_render = 1 ∧ st.fifo_fence_used = 1 ∧
      (t.fence_present = ring_state.fence_present ∨ t.fence_present = 0) := by
  obtain ⟨st, t, h1, h2, _⟩ := (C20_fence_record svga idle_env 4 5 12 blank_status
    (SVGA_CB_FORCE_FIFO ||| svga.SVGA_CB_RENDER) 0 ring_state).2 (by decide)
  obtain ⟨a1, _, _, a4, _, a6, _⟩ := h2 (by decide) (Or.inl (by decide))
  obtain ⟨b1, b2⟩ := a4 (by decide)
  exact ⟨st, t, h1, a1, b1, b2, a6 (by decide)⟩

/-! ## The counter, the update wait and the cursor rectangle (C23, C27, C28) -/

/-- C23: the result of `SVGA_cb_id_inc` is not `(hi * 2 ^ 32 + low + 1) mod 2 ^ 64` and
depends on the carry flag at entry: the low half becomes `(low + 1) mod 2 ^ 32` and
the high half `(hi + CF) mod 2 ^ 32`, where `CF` is the carry flag the processor had
on entry.  From (low `0xFFFFFFFF`, high 0) with the carry flag clear the counter
becomes (0, 0), not (0, 1); from (0, 0) with the carry flag set it becomes (1, 1),
not (1, 0). -/
theorem C23_id_inc_ignores_low_carry :
    (SVGA_cb_id_inc false wrap_state).cb_next_id = { low := 0, hi := 0 } ∧
      (SVGA_cb_id_inc true zero_state).cb_next_id = { low := 1, hi := 1 } ∧
      ∀ (cf : Bool) (s : State), (SVGA_cb_id_inc cf s).cb_next_id =
        { low := (s.cb_next_id.low + 1) % 2 ^ 32,
          hi := (s.cb_next_id.hi + (if cf then 1 else 0)) % 2 ^ 32 } := by
  refine ⟨by decide, by decide, ?_⟩
  intro cf s
  simp [SVGA_cb_id_inc]

/-- C28: with a cursor taller than the screen, `update_cursor` calls `SVGA_Update`
with a negative `y`: on a 640 x 480 screen, cursor at (100, 100), hotspot (0, 0),
size 32 x 512, the call is `SVGA_Update(100, -32, 32, 512)`. -/
theorem C28_update_rectangle_above_screen :
    update_cursor 32 640 480 100 100 32 512 0 0 = some (100, -32, 32, 512) := by
  decide

theorem tag_and_cbq_update (K : Consts) (flags : Nat)
    (hU : K.SVGA_CB_UPDATE &&& CBQ_UPDATE = 0) :
    flags_to_cbq K flags &&& CBQ_UPDATE = 0 := by
  have h1 : CBQ_PRESENT &&& CBQ_UPDATE = 0 := by decide
  have h2 : CBQ_RENDER &&& CBQ_UPDATE = 0 := by decide
  have h0 : (0 : Nat) &&& CBQ_UPDATE = 0 := Nat.zero_and _
  simp only [flags_to_cbq]
  split_ifs <;> first
    | exact h0
    | exact or_and_eq_zero h0 h1
    | exact or_and_eq_zero h0 h2
    | exact or_and_eq_zero h0 hU

/-- C27, divergence: whenever the wire flag `SVGA_CB_UPDATE` does not contain the bit
of the tag `CBQ_UPDATE`, on a well-formed queue without faulted descriptor whose
nodes carry the tags `flags_to_cbq` gives them: with the command-buffer transport
active `SVGA_CMB_wait_update` returns after its first scan pass, without any
interaction with the device, and every descriptor that was pending, update-tagged
or not, is still in the chain; with the FIFO transport active it returns with
`fence_update` as it found it. -/
theorem C27_wait_update_skips (K : Consts) (E : Env) (fuel : Nat) (s : State) (l : List Ptr)
    (hU : K.SVGA_CB_UPDATE &&& CBQ_UPDATE = 0) (hq : QueueIs s l)
    (htag : ∀ p ∈ l, ∃ f, (s.node p).flags = flags_to_cbq K f)
    (hnf : ∀ p ∈ l, faulted K s p = false) (hf : l.length ≤ fuel) (hfuel : 0 < fuel) :
    ((s.cb_support = true ∧ s.cb_context0 = true) →
      ∃ t, SVGA_CMB_wait_update K E fuel s = some t ∧ QueueIs t (l.filter (pending K s)) ∧
        t.trace = s.trace ∧ t.tick = s.tick ∧ t.hdr = s.hdr) ∧
    (¬ (s.cb_support = true ∧ s.cb_context0 = true) →
      ∃ t, SVGA_CMB_wait_update K E fuel s = some t ∧ t.fence_update = s.fence_update) := by
  constructor
  · intro hc
    obtain ⟨fuel0, rfl⟩ : ∃ f, fuel = f + 1 := ⟨fuel - 1, by omega⟩
    obtain ⟨s1, hci, hq1, hfr⟩ := check_inline_no_fault K E (fuel0 + 1) none s l hq hnf hf
    have hfl : CB_queue_is_flags_set (fuel0 + 1) (CBQ_UPDATE ||| CBQ_UPDATE) s1 = some false := by
      refine is_flags_set_false _ _ hq1 ?_ (le_trans (List.length_filter_le _ _) hf)
      intro p hp
      obtain ⟨f, hfp⟩ := htag p (List.mem_filter.1 hp).1
      rw [(hfr.2 p).1, hfp]
      exact tag_and_cbq_update K f hU
    obtain ⟨hh, _, _, _, _, htr, htk, _⟩ := scanFrame_proj hfr
    refine ⟨s1, ?_, hq1, htr, htk, hh⟩
    simp only [SVGA_CMB_wait_update]
    rw [if_pos (by simpa using hc)]
    simp only [CB_queue_wait_flags, hci, hfl]
  · intro hc
    refine ⟨flags_fence_check K E K.SVGA_CB_UPDATE s, ?_, ?_⟩
    · simp only [SVGA_CMB_wait_update]
      rw [if_neg (by simpa using hc)]
    · have h := check_mask_and_cbq_update K K.SVGA_CB_UPDATE hU
      simp only [flags_fence_check, h, ne_eq, not_true_eq_false, if_false]
      split_ifs <;> rfl

theorem C27_wait_update_skips_witness :
    (∃ t, SVGA_CMB_wait_update svga idle_env 4 update_queued_state = some t ∧
        QueueIs t ([12].filter (pending svga update_queued_state)) ∧
        t.trace = update_queued_state.trace ∧ t.tick = update_queued_state.tick ∧
        t.hdr = update_queued_state.hdr) ∧
      pending svga update_queued_state 12 = true ∧
      (update_queued_state.node 12).flags = flags_to_cbq svga svga.SVGA_CB_UPDATE ∧
      ∃ t, SVGA_CMB_wait_update svga idle_env 4 update_fenced_state = some t ∧
        t.fence_update = 7 :=
  ⟨(C27_wait_update_skips svga idle_env 4 update_queued_state [12] (by decide)
      (insert_all_queueIs [(12, flags_to_cbq svga svga.SVGA_CB_UPDATE)] zero_state []
        (queueIs_empty _ rfl) (by decide))
      (fun p hp => ⟨svga.SVGA_CB_UPDATE, by
        have h12 : p = 12 := by simpa using hp
        subst h12
        decide⟩)
      (fun p hp => by
        have h12 : p = 12 := by simpa using hp
        subst h12
        decide)
      (by decide) (by decide)).1 ⟨rfl, rfl⟩,
    by decide, by decide,
    (C27_wait_update_skips svga idle_env 4 update_fenced_state [] (by decide)
      (queueIs_empty _ rfl) (fun p hp => by simp at hp) (fun p hp => by simp at hp)
      (by decide) (by decide)).2 (by decide)⟩

/-! ## Safety of the ring cursor (C26) -/

theorem ring_next_safe (min max c : Nat) (hmin : 4 ∣ min) (h32 : max + 4 ≤ 2 ^ 32)
    (hc : 4 ∣ c) (hlo : min ≤ c) (hhi : c < max) :
    4 ∣ ring_next min max c ∧ min ≤ ring_next min max c ∧ ring_next min max c < max := by
  unfold ring_next
  simp only [sizeof_DWORD]
  have hmod : (c + 4) % 2 ^ 32 = c + 4 := Nat.mod_eq_of_lt (by omega)
  rw [hmod]
  split
  · exact ⟨hmin, le_refl _, by omega⟩
  · exact ⟨by omega, by omega, by omega⟩

theorem copy_loop_safe (K : Consts) (cmb min max : Nat) (hmin : 4 ∣ min)
    (h32 : max + 4 ≤ 2 ^ 32) :
    ∀ (d ptr c : Nat) (s : State) (ev0 base : List Event), 4 ∣ c → min ≤ c → c < max →
      s.trace = ev0 ++ base → ring_safe K min max ev0 →
      (ev0 = [] ∨ (s.fifoMem K.SVGA_FIFO_NEXT_CMD = c)) →
      ∃ ev, (fifo_copy_loop K cmb max min d ptr c s).trace = ev ++ base ∧
        ring_safe K min max ev ∧ ev.length = ev0.length + 2 * d ∧
        (ev ≠ [] → 4 ∣ (fifo_copy_loop K cmb max min d ptr c s).fifoMem K.SVGA_FIFO_NEXT_CMD ∧
          min ≤ (fifo_copy_loop K cmb max min d ptr c s).fifoMem K.SVGA_FIFO_NEXT_CMD ∧
          (fifo_copy_loop K cmb max min d ptr c s).fifoMem K.SVGA_FIFO_NEXT_CMD < max)
  | 0, ptr, c, s, ev0, base, hc, hlo, hhi, htr, hsafe, hcur => by
    refine ⟨ev0, htr, hsafe, by simp, ?_⟩
    intro hne
    rcases hcur with h | h
    · exact absurd h hne
    · show 4 ∣ s.fifoMem _ ∧ _ ≤ s.fifoMem _ ∧ s.fifoMem _ < _
      rw [h]
      exact ⟨hc, hlo, hhi⟩
  | d + 1, ptr, c, s, ev0, base, hc, hlo, hhi, htr, hsafe, _ => by
    obtain ⟨n1, n2, n3⟩ := ring_next_safe min max c hmin h32 hc hlo hhi
    simp only [fifo_copy_loop]
    obtain ⟨ev, e1, e2, e3, e4⟩ := copy_loop_safe K cmb min max hmin h32 d (ptr + 1)
      (ring_next min max c)
      ((s.fifoStore (c / sizeof_DWORD) (s.cmb cmb ptr)).fifoStore K.SVGA_FIFO_NEXT_CMD
        (ring_next min max c))
      (Event.FifoStore K.SVGA_FIFO_NEXT_CMD (ring_next min max c) ::
        Event.FifoStore (c / sizeof_DWORD) (s.cmb cmb ptr) :: ev0) base n1 n2 n3
      (by simp [State.fifoStore, htr])
      ⟨⟨rfl, n1, n2, n3⟩, ⟨c, rfl, hc, hlo, hhi⟩, hsafe⟩
      (Or.inr (by simp [State.fifoStore]))
    refine ⟨ev, e1, e2, ?_, e4⟩
    rw [e3]
    simp only [List.length_cons]
    omega

/-- C26, amended: in the FIFO copy loop, if `min < max`, `min` is word-aligned,
`max + 4 ≤ 2 ^ 32` (which holds for every word-aligned 32-bit `max`) and the start
cursor is word-aligned with `min ≤ cursor < max`, then the stores of the loop come
in pairs, one pair per payload word: the word is written at a word-aligned byte
offset inside `[min, max)`, then `fifoMem[SVGA_FIFO_NEXT_CMD]` receives a
word-aligned value inside `[min, max)`; and after a copy of at least one word the
value left in `fifoMem[SVGA_FIFO_NEXT_CMD]` is word-aligned and inside
`[min, max)`. -/
theorem C26_ring_safety (K : Consts) (cmb min max c d : Nat) (s : State)
    (hlt : min < max) (hmin : 4 ∣ min) (h32 : max + 4 ≤ 2 ^ 32)
    (hc : 4 ∣ c) (hlo : min ≤ c) (hhi : c < max) :
    ∃ ev, (fifo_copy_loop K cmb max min d 0 c s).trace = ev ++ s.trace ∧
      ev.length = 2 * d ∧ ring_safe K min max ev ∧
      (0 < d → 4 ∣ (fifo_copy_loop K cmb max min d 0 c s).fifoMem K.SVGA_FIFO_NEXT_CMD ∧
        min ≤ (fifo_copy_loop K cmb max min d 0 c s).fifoMem K.SVGA_FIFO_NEXT_CMD ∧
        (fifo_copy_loop K cmb max min d 0 c s).fifoMem K.SVGA_FIFO_NEXT_CMD < max) := by
  have _ := hlt
  obtain ⟨ev, e1, e2, e3, e4⟩ := copy_loop_safe K cmb min max hmin h32 d 0 c s [] s.trace
    hc hlo hhi rfl trivial (Or.inl rfl)
  refine ⟨ev, e1, by simpa using e3, e2, ?_⟩
  intro hd
  apply e4
  intro hnil
  rw [hnil] at e3
  simp at e3
  omega

theorem C26_ring_safety_witness :
    ∃ ev, (fifo_copy_loop svga 5 32 16 3 0 24 ring_state).trace = ev ++ ring_state.trace ∧
      ev.length = 2 * 3 ∧ ring_safe svga 16 32 ev ∧
      (0 < 3 → 4 ∣ (fifo_copy_loop svga 5 32 16 3 0 24 ring_state).fifoMem
          svga.SVGA_FIFO_NEXT_CMD ∧
        16 ≤ (fifo_copy_loop svga 5 32 16 3 0 24 ring_state).fifoMem svga.SVGA_FIFO_NEXT_CMD ∧
        (fifo_copy_loop svga 5 32 16 3 0 24 ring_state).fifoMem svga.SVGA_FIFO_NEXT_CMD < 32) :=
  C26_ring_safety svga 5 16 32 24 3 ring_state (by decide) (by decide) (by decide) (by decide)
    (by decide) (by decide)

/-- C26, counterexample: with `min = 18` (not word-aligned), `max = 32` and the
word-aligned start cursor 28, the loop leaves `fifoMem[SVGA_FIFO_NEXT_CMD] = 18`
after one word, which is not word-aligned; with `min = 16`, `max = 2 ^ 32 - 1` and
the word-aligned start cursor `2 ^ 32 - 4`, the cursor wraps around 32 bits and the
loop leaves `fifoMem[SVGA_FIFO_NEXT_CMD] = 0`, below `min`. -/
theorem C26_cursor_leaves_ring :
    (fifo_copy_loop svga 5 32 18 1 0 28 ring_state).fifoMem svga.SVGA_FIFO_NEXT_CMD = 18 ∧
      ¬ (4 ∣ 18) ∧
      (fifo_copy_loop svga 5 4294967295 16 1 0 4294967292 ring_state).fifoMem
        svga.SVGA_FIFO_NEXT_CMD = 0 := by
  refine ⟨by decide, by decide, by decide⟩

/-! ## Well-formedness of the queue (C24) -/

theorem seg_of_chain_from {nx : Ptr → Option Ptr} :
    ∀ (fuel : Nat) (o : Option Ptr) (l : List Ptr), chain_from nx fuel o = some l →
      Seg nx o l none
  | fuel, none, l, h => by
    cases fuel <;> simp only [chain_from, Option.some.injEq] at h <;> (subst h; rfl)
  | 0, some p, l, h => by simp [chain_from] at h
  | fuel + 1, some p, l, h => by
    simp only [chain_from] at h
    cases hc : chain_from nx fuel (nx p) with
    | none => simp [hc] at h
    | some l1 =>
      simp only [hc, Option.map_some', Option.some.injEq] at h
      subst h
      exact ⟨rfl, seg_of_chain_from fuel (nx p) l1 hc⟩

theorem seg_last_next {nx : Ptr → Option Ptr} :
    ∀ (l : List Ptr) (o : Option Ptr) (q : Ptr), Seg nx o l none → l.getLast? = some q →
      nx q = none
  | [], _, _, _, h => by simp at h
  | [p], o, q, hs, h => by
    have hq : p = q := by simpa using h
    subst hq
    exact hs.2
  | p :: p2 :: l, o, q, hs, h => by
    have h2 : (p2 :: l).getLast? = some q := by
      rw [List.getLast?_cons_cons] at h
      exact h
    exact seg_last_next (p2 :: l) _ q hs.2 h2

theorem seg_first_none {nx : Ptr → Option Ptr} {o : Option Ptr} {l : List Ptr}
    (h : Seg nx o l none) : o = none ↔ l = [] := by
  cases l with
  | nil => exact ⟨fun _ => rfl, fun _ => h⟩
  | cons p l =>
    constructor
    · intro ho
      rw [h.1] at ho
      cases ho
    · intro hl
      cases hl

theorem well_formed_iff (s : State) : well_formed s ↔ ∃ l, QueueIs s l := by
  constructor
  · rintro ⟨fuel, l, hc, hnd, hiff, hlast⟩
    have hseg : Seg s.next s.cb_queue_info.first l none := seg_of_chain_from fuel _ l hc
    refine ⟨l, hseg, ?_, hnd⟩
    cases hl : s.cb_queue_info.last with
    | none =>
      have hl0 := (seg_first_none hseg).1 (hiff.1 hl)
      rw [hl0]
      rfl
    | some q => exact (hlast q hl).1.symm
  · rintro ⟨l, hseg, hlast, hnd⟩
    refine ⟨l.length, l, chain_from_of_seg l _ _ hseg (le_refl _), hnd, ?_, ?_⟩
    · rw [hlast, seg_first_none hseg]
      cases l with
      | nil => simp
      | cons p l => simp [List.getLast?_eq_getLast]
    · intro q hq
      rw [hlast] at hq
      exact ⟨hq, seg_last_next l _ q hseg hq⟩

theorem start_queueIs (K : Consts) (E : Env) (fuel : Nat) (s t : State) (l : List Ptr)
    (hq : QueueIs s l) (h : SVGA_CB_start K E fuel s = some t) : QueueIs t l := by
  simp only [SVGA_CB_start] at h
  split at h
  · cases hc : SVGA_CB_ctr K E fuel K.sizeof_cb_enable_t (cb_enable_fill K 1 s) with
    | none => simp [hc] at h
    | some r =>
      obtain ⟨st, s2⟩ := r
      simp only [hc] at h
      obtain ⟨h1, h2, _⟩ := ctr_links K E fuel _ _ s2 st hc
      have hq2 : QueueIs s2 l := queueIs_congr (s := s) h1 h2 hq
      split at h
      · cases h
        exact queueIs_congr (s := s2) rfl rfl hq2
      · cases h
        exact queueIs_congr (s := s2) rfl rfl hq2
  · cases h
    exact hq

theorem stop_queueIs (K : Consts) (E : Env) (fuel : Nat) (s t : State) (l : List Ptr)
    (hq : QueueIs s l) (hf : l.length ≤ fuel) (h : SVGA_CB_stop K E fuel s = some t) :
    QueueIs t (if s.cb_support then [] else l) := by
  simp only [SVGA_CB_stop] at h
  split at h
  · next hsup =>
    have hsup2 : s.cb_support = true := hsup
    cases hc : SVGA_CB_ctr K E fuel K.sizeof_cb_enable_t
        (cb_enable_fill K 0 { s with cb_context0 := false }) with
    | none => simp [hc] at h
    | some r =>
      obtain ⟨st, s2⟩ := r
      simp only [hc] at h
      obtain ⟨h1, h2, _⟩ := ctr_links K E fuel _ _ s2 st hc
      have hq3 : QueueIs (SVGA_Sync E s2) l := queueIs_congr (s := s) h1 h2 hq
      rw [erase_spec K fuel (SVGA_Sync E s2) l hq3 hf] at h
      simp only [Option.some.injEq] at h
      subst h
      rw [hsup2]
      exact queueIs_empty _ rfl
  · next hsup =>
    have hsup2 : s.cb_support = false := by simpa using hsup
    cases h
    rw [hsup2]
    exact queueIs_congr (s := s) rfl rfl hq

theorem restart_queueIs (K : Consts) (E : Env) (fuel : Nat) (s t : State) (l : List Ptr)
    (hq : QueueIs s l) (hf : l.length ≤ fuel) (h : SVGA_CB_restart K E fuel s = some t) :
    QueueIs t (if s.cb_support then [] else l) := by
  simp only [SVGA_CB_restart] at h
  cases hs : SVGA_CB_stop K E fuel s with
  | none => simp [hs] at h
  | some s1 =>
    simp only [hs] at h
    exact start_queueIs K E fuel s1 t _ (stop_queueIs K E fuel s s1 l hq hf hs) h

theorem check_inline_queueIs (K : Consts) (E : Env) (fuel : Nat) (tracked : Option Ptr)
    (s t : State) (b : Bool) (l : List Ptr) (hq : QueueIs s l) (hf : l.length ≤ fuel)
    (h : CB_queue_check_inline K E fuel tracked s = some (b, t)) :
    ∃ l2, QueueIs t l2 ∧ l2.Sublist l := by
  by_cases hfault : ∃ p ∈ l, faulted K s p = true
  · obtain ⟨s0, hq0, hfr0, heq⟩ := check_inline_fault_eq K E fuel tracked s l hq hfault hf
    rw [h] at heq
    cases hre : SVGA_CB_restart K E fuel s0 with
    | none => simp [hre] at heq
    | some t1 =>
      simp only [hre, Option.map_some', Option.some.injEq, Prod.mk.injEq] at heq
      obtain ⟨_, rfl⟩ := heq
      have h2 := restart_queueIs K E fuel s0 t _ hq0
        (le_trans (List.length_filter_le _ _) hf) hre
      refine ⟨_, h2, ?_⟩
      split
      · exact List.nil_sublist _
      · exact List.filter_sublist l
  · have hnf : ∀ p ∈ l, faulted K s p = false := by
      intro p hp
      cases hfp : faulted K s p with
      | false => rfl
      | true => exact absurd ⟨p, hp, hfp⟩ hfault
    obtain ⟨s0, heq, hq0, _⟩ := check_inline_no_fault K E fuel tracked s l hq hnf hf
    rw [h] at heq
    simp only [Option.some.injEq, Prod.mk.injEq] at heq
    obtain ⟨_, rfl⟩ := heq
    exact ⟨_, hq0, List.filter_sublist l⟩

/-- C24: the queue is well formed (in the sense of `well_formed`, which says the same
as `QueueIs` for some list of blocks) whenever it holds the blocks of a list `l` in
order; from such a state, `CB_queue_insert` of a descriptor that is not in the chain
leaves it well formed (the chain is `l` followed by the descriptor),
`CB_queue_check_inline` leaves it well formed whenever it returns (the chain is a
sublist of `l`) and does return when no descriptor is faulted, and `CB_queue_erase`
returns and leaves it well formed (the chain is empty). -/
theorem C24_well_formed_preserved (K : Consts) (E : Env) (fuel : Nat) (s : State)
    (l : List Ptr) (hq : QueueIs s l) (hf : l.length ≤ fuel) :
    well_formed s ∧ (∀ u, well_formed u ↔ ∃ l2, QueueIs u l2) ∧
    (∀ cb flags, cb ∉ l → well_formed (CB_queue_insert cb flags s) ∧
      QueueIs (CB_queue_insert cb flags s) (l ++ [cb])) ∧
    (∀ tracked b t, CB_queue_check_inline K E fuel tracked s = some (b, t) →
      well_formed t ∧ ∃ l2, QueueIs t l2 ∧ l2.Sublist l) ∧
    ((∀ p ∈ l, faulted K s p = false) →
      ∀ tracked, ∃ b t, CB_queue_check_inline K E fuel tracked s = some (b, t) ∧
        well_formed t) ∧
    (∃ t, CB_queue_erase K fuel s = some t ∧ well_formed t ∧ QueueIs t []) := by
  refine ⟨(well_formed_iff s).2 ⟨l, hq⟩, well_formed_iff, ?_, ?_, ?_, ?_⟩
  · intro cb flags hcb
    have h := insert_queueIs s l cb flags hq hcb
    exact ⟨(well_formed_iff _).2 ⟨_, h⟩, h⟩
  · intro tracked b t h
    obtain ⟨l2, h2, h3⟩ := check_inline_queueIs K E fuel tracked s t b l hq hf h
    exact ⟨(well_formed_iff _).2 ⟨l2, h2⟩, l2, h2, h3⟩
  · intro hnf tracked
    obtain ⟨t, ht, hqt, _⟩ := check_inline_no_fault K E fuel tracked s l hq hnf hf
    exact ⟨_, t, ht, (well_formed_iff _).2 ⟨_, hqt⟩⟩
  · have h := erase_spec K fuel s l hq hf
    have hq2 : QueueIs { s with
        hdr := fun p => if p ∈ l then { s.hdr p with status := K.SVGA_CB_STATUS_QUEUE_FULL }
          else s.hdr p
        cb_queue_info := { first := none, last := none } } [] := queueIs_empty _ rfl
    exact ⟨_, h, (well_formed_iff _).2 ⟨_, hq2⟩, hq2⟩

theorem C24_well_formed_preserved_witness :
    well_formed fault_state ∧ well_formed (CB_queue_insert 12 4 fault_state) ∧
      (∃ b t, CB_queue_check_inline svga prompt_env 4 none fault_state = some (b, t) ∧
        well_formed t) ∧
      ∃ t, CB_queue_erase svga 4 fault_state = some t ∧ well_formed t := by
  obtain ⟨h1, _, h3, h4, _, t, h6, h7, _⟩ := C24_well_formed_preserved svga prompt_env 4
    fault_state [10, 11]
    (insert_all_queueIs [(10, 1), (11, 2)] zero_state [] (queueIs_empty _ rfl) (by decide))
    (by decide)
  refine ⟨h1, (h3 12 4 (by decide)).1, ?_, t, h6, h7⟩
  cases h : CB_queue_check_inline svga prompt_env 4 none fault_state with
  | none =>
    have hrun : (CB_queue_check_inline svga prompt_env 4 none fault_state).isSome = true := by
      decide
    simp [h] at hrun
  | some r =>
    obtain ⟨b, u⟩ := r
    exact ⟨b, u, rfl, (h4 none b u h).1⟩

/-! ## Critical section and allocation (C21, C22) -/

theorem cbFrame_Flush_wait (K : Consts) (E : Env) (n : Nat) :
    ∀ (fuel : Nat) (s t : State), SVGA_Flush_CB_wait K E n fuel s = some t → CBFrame s t
  | 0, _, _, h => by simp [SVGA_Flush_CB_wait] at h
  | fuel + 1, s, t, h => by
    simp only [SVGA_Flush_CB_wait, CB_queue_check] at h
    cases hc : CB_queue_check_inline K E n none s with
    | none => simp [hc] at h
    | some r =>
      obtain ⟨b, s1⟩ := r
      have h1 := cbFrame_check_inline K E n none s s1 b hc
      cases b with
      | true =>
        simp only [hc, Option.some.injEq] at h
        subst h
        exact h1
      | false =>
        simp only [hc] at h
        have h2 := cbFrame_Flush_wait K E n fuel _ t h
        exact cbFrame_trans h1 (cbFrame_trans (cbFrame_sync E s1) h2)

theorem submit_critical_depth (K : Consts) (E : Env) (fuel cmb cmb_size : Nat)
    (status : Option SVGA_CMB_status_t) (flags dx : Nat) (s : State)
    (st : Option SVGA_CMB_status_t) (t : State)
    (h : SVGA_CMB_submit_critical K E fuel cmb cmb_size status flags dx s = some (st, t)) :
    t.critical = s.critical := by
  have he := (submit_entry_frame K cmb status flags s).1.critical
  by_cases hc : s.cb_support = true ∧ s.cb_context0 = true ∧ flags &&& SVGA_CB_FORCE_FIFO = 0
  · rw [submit_critical_cb_eq K E fuel cmb cmb_size status flags dx s hc] at h
    cases hcbr : SVGA_CMB_submit_cb K E fuel cmb cmb_size (submit_entry K cmb status flags s).1
        flags dx 0 (submit_entry K cmb status flags s).2 with
    | none => simp [hcbr] at h
    | some r =>
      obtain ⟨st1, t1⟩ := r
      simp only [hcbr, Option.map_some', submit_exit, Option.some.injEq, Prod.mk.injEq] at h
      obtain ⟨_, rfl⟩ := h
      obtain ⟨hst, _⟩ := submit_cb_frame K E fuel cmb cmb_size _ flags dx 0 _ _ _ hcbr
      rw [hst.critical, he]
  · rw [submit_critical_fifo_eq K E fuel cmb cmb_size status flags dx s hc] at h
    simp only [Option.some.injEq] at h
    have ht : t = (SVGA_CMB_submit_fifo K E cmb cmb_size (submit_entry K cmb status flags s).1
        flags 0 (submit_entry K cmb status flags s).2).2 := (congrArg Prod.snd h).symm
    rw [ht, (fifoFrame_submit K E cmb cmb_size _ flags 0 _).critical, he]

/-- C22, amended: whenever they return, `SVGA_Flush_CB`, `SVGA_CMB_alloc_size`,
`SVGA_CMB_free` and `SVGA_CMB_submit` leave the nesting depth of the critical
section as it was at entry (they enter at entry and leave once); `wait_for_cmdbuf`
enters and does not leave, so it returns with the depth one higher; `submit_cmdbuf`
leaves without entering, so it returns with the depth one lower; only the pair
`wait_for_cmdbuf` followed by `submit_cmdbuf` restores the depth;
`SVGA_CMB_wait_update` neither enters nor leaves and returns with the depth
unchanged. -/
theorem C22_critical_depth (K : Consts) (E : Env) (fuel : Nat) (s : State) :
    (∀ t, SVGA_Flush_CB K E fuel s = some t → t.critical = s.critical) ∧
    (∀ datasize, (SVGA_CMB_alloc_size K E datasize s).2.critical = s.critical) ∧
    (∀ cmb t, SVGA_CMB_free K E fuel cmb s = some t → t.critical = s.critical) ∧
    (∀ cmb cmb_size status flags dx st t,
      SVGA_CMB_submit K E fuel cmb cmb_size status flags dx s = some (st, t) →
      t.critical = s.critical) ∧
    (∀ t, wait_for_cmdbuf K E fuel s = some t → t.critical = s.critical + 1) ∧
    (∀ cmdsize flags dx t, submit_cmdbuf K E fuel cmdsize flags dx s = some t →
      t.critical = s.critical - 1) ∧
    (∀ cmdsize flags dx t u, wait_for_cmdbuf K E fuel s = some t →
      submit_cmdbuf K E fuel cmdsize flags dx t = some u → u.critical = s.critical) ∧
    (∀ t, SVGA_CMB_wait_update K E fuel s = some t → t.critical = s.critical) := by
  have hwait : ∀ t, wait_for_cmdbuf K E fuel s = some t → t.critical = s.critical + 1 := by
    intro t h
    simp only [wait_for_cmdbuf] at h
    rw [(cbFrame_WAIT_FOR_CB K E fuel _ false fuel _ t h).stable.critical]
    rfl
  have hsend : ∀ (v : State) cmdsize flags dx t,
      submit_cmdbuf K E fuel cmdsize flags dx v = some t → t.critical = v.critical - 1 := by
    intro v cmdsize flags dx t h
    simp only [submit_cmdbuf] at h
    cases hc : SVGA_CMB_submit_critical K E fuel v.cmdbuf cmdsize none flags dx v with
    | none => simp [hc] at h
    | some r =>
      obtain ⟨st, t1⟩ := r
      simp only [hc, Option.map_some', Option.some.injEq] at h
      subst h
      show t1.critical - 1 = _
      rw [submit_critical_depth K E fuel _ cmdsize none flags dx v st t1 hc]
  refine ⟨?_, ?_, ?_, ?_, hwait, hsend s, ?_, ?_⟩
  · intro t h
    simp only [SVGA_Flush_CB, SVGA_Flush_CB_critical] at h
    cases hc : SVGA_Flush_CB_wait K E fuel fuel (Begin_Critical_Section s) with
    | none => simp [hc] at h
    | some t1 =>
      simp only [hc, Option.map_some', Option.some.injEq] at h
      subst h
      show t1.critical - 1 = _
      rw [(cbFrame_Flush_wait K E fuel fuel _ t1 hc).stable.critical]
      show s.critical + 1 - 1 = _
      omega
  · intro datasize
    unfold SVGA_CMB_alloc_size
    simp only [Begin_Critical_Section, End_Critical_Section]
    cases E.page_alloc s.tick with
    | none =>
      show s.critical + 1 - 1 = _
      omega
    | some r =>
      show s.critical + 1 - 1 = _
      omega
  · intro cmb t h
    simp only [SVGA_CMB_free] at h
    cases hc : WAIT_FOR_CB K E fuel cmb true fuel (Begin_Critical_Section s) with
    | none => simp [hc] at h
    | some t1 =>
      simp only [hc, Option.map_some', Option.some.injEq] at h
      subst h
      show t1.critical - 1 = _
      rw [(cbFrame_WAIT_FOR_CB K E fuel cmb true fuel _ t1 hc).stable.critical]
      show s.critical + 1 - 1 = _
      omega
  · intro cmb cmb_size status flags dx st t h
    simp only [SVGA_CMB_submit] at h
    cases hc : SVGA_CMB_submit_critical K E fuel cmb cmb_size status flags dx
        (Begin_Critical_Section s) with
    | none => simp [hc] at h
    | some r =>
      obtain ⟨st1, t1⟩ := r
      simp only [hc, Option.map_some', Option.some.injEq, Prod.mk.injEq] at h
      obtain ⟨_, rfl⟩ := h
      show t1.critical - 1 = _
      rw [submit_critical_depth K E fuel cmb cmb_size status flags dx _ st1 t1 hc]
      show s.critical + 1 - 1 = _
      omega
  · intro cmdsize flags dx t u h1 h2
    rw [hsend t cmdsize flags dx u h2, hwait t h1]
    omega
  · intro t h
    simp only [SVGA_CMB_wait_update] at h
    split at h
    · exact (cbFrame_wait_flags K E fuel _ fuel s t h).stable.critical
    · simp only [Option.some.injEq] at h
      subst h
      exact (fifoFrame_fence_check K E _ s).critical

theorem C22_critical_depth_witness :
    (∃ t, SVGA_Flush_CB svga prompt_env 4 zero_state = some t ∧ t.critical = 0) ∧
      (∃ t u, wait_for_cmdbuf svga prompt_env 4 zero_state = some t ∧ t.critical = 1 ∧
        submit_cmdbuf svga prompt_env 4 16 0 0 t = some u ∧ u.critical = 0) := by
  have h := C22_critical_depth svga prompt_env 4 zero_state
  constructor
  · cases h1 : SVGA_Flush_CB svga prompt_env 4 zero_state with
    | none =>
      have hrun : (SVGA_Flush_CB svga prompt_env 4 zero_state).isSome = true := by decide
      simp [h1] at hrun
    | some t => exact ⟨t, rfl, h.1 t h1⟩
  · cases h1 : wait_for_cmdbuf svga prompt_env 4 zero_state with
    | none =>
      have hrun : (wait_for_cmdbuf svga prompt_env 4 zero_state).isSome = true := by decide
      simp [h1] at hrun
    | some t =>
      have hrun2 : ((wait_for_cmdbuf svga prompt_env 4 zero_state).bind
          (submit_cmdbuf svga prompt_env 4 16 0 0)).isSome = true := by decide
      rw [h1] at hrun2
      cases h2 : submit_cmdbuf svga prompt_env 4 16 0 0 t with
      | none => simp [h2] at hrun2
      | some u =>
        exact ⟨t, u, rfl, h.2.2.2.2.1 t h1, h2, h.2.2.2.2.2.2.1 16 0 0 t u h1 h2⟩

/-- C22, counterexample: from depth 0, `wait_for_cmdbuf` returns with the depth of the
critical section at 1, and `submit_cmdbuf` returns with the depth at -1. -/
theorem C22_unbalanced_pair :
    zero_state.critical = 0 ∧
      (wait_for_cmdbuf svga prompt_env 4 zero_state).map (fun t => t.critical) = some 1 ∧
      (submit_cmdbuf svga prompt_env 4 16 0 0 zero_state).map (fun t => t.critical) =
        some (-1) := by
  refine ⟨rfl, by decide, by decide⟩
theorem flagsKept_refl (s : State) : FlagsKept s s := ⟨rfl, rfl, rfl⟩

theorem flagsKept_trans {s t u : State} (h1 : FlagsKept s t) (h2 : FlagsKept t u) :
    FlagsKept s u :=
  ⟨h2.cb_support.trans h1.cb_support, h2.cb_context0.trans h1.cb_context0,
    h2.ctlbuf.trans h1.ctlbuf⟩

theorem flagsKept_ctr_wait (K : Consts) (E : Env) :
    ∀ (fuel : Nat) (s t : State), SVGA_CB_ctr_wait K E fuel s = some t → FlagsKept s t
  | 0, s, t, h => by
    simp only [SVGA_CB_ctr_wait] at h
    split at h
    · cases h
    · cases h; exact flagsKept_refl _
  | fuel + 1, s, t, h => by
    simp only [SVGA_CB_ctr_wait] at h
    split at h
    · have h2 := flagsKept_ctr_wait K E fuel (SVGA_Sync E s) t h
      exact ⟨h2.1, h2.2, h2.3⟩
    · cases h; exact flagsKept_refl _

theorem flagsKept_ctr (K : Consts) (E : Env) (fuel data_size : Nat) (s t : State) (st : Nat)
    (h : SVGA_CB_ctr K E fuel data_size s = some (st, t)) : FlagsKept s t := by
  simp only [SVGA_CB_ctr] at h
  generalize hs1 : SVGA_cb_id_inc _ _ = s1 at h
  cases hw : SVGA_CB_ctr_wait K E fuel s1 with
  | none => simp [hw] at h
  | some t1 =>
    simp only [hw, Option.map_some', Option.some.injEq, Prod.mk.injEq] at h
    obtain ⟨_, rfl⟩ := h
    have h1 := flagsKept_ctr_wait K E fuel s1 t1 hw
    subst hs1
    exact ⟨h1.1, h1.2, h1.3⟩

theorem flagsKept_erase_loop (K : Consts) :
    ∀ (fuel : Nat) (o : Option Ptr) (s t : State), CB_queue_erase_loop K fuel o s = some t →
      FlagsKept s t
  | fuel, none, s, t, h => by
    cases fuel <;> simp only [CB_queue_erase_loop, Option.some.injEq] at h <;>
      (subst h; exact flagsKept_refl s)
  | 0, some p, s, t, h => by simp [CB_queue_erase_loop] at h
  | fuel + 1, some p, s, t, h => by
    simp only [CB_queue_erase_loop] at h
    have h2 := flagsKept_erase_loop K fuel _ _ t h
    exact ⟨h2.1, h2.2, h2.3⟩

theorem flagsKept_check_loop (K : Consts) (tracked : Option Ptr) :
    ∀ (fuel : Nat) (item last : Option Ptr) (iq nr : Bool) (s t : State)
      (r : Option Ptr × Bool × Bool),
      CB_queue_check_loop K tracked fuel item last iq nr s = some (t, r) → FlagsKept s t
  | fuel, none, last, iq, nr, s, t, r, h => by
    cases fuel <;> simp only [CB_queue_check_loop, Option.some.injEq, Prod.mk.injEq] at h <;>
      (obtain ⟨rfl, _⟩ := h; exact flagsKept_refl s)
  | 0, some p, last, iq, nr, s, t, r, h => by simp [CB_queue_check_loop] at h
  | fuel + 1, some p, last, iq, nr, s, t, r, h => by
    simp only [CB_queue_check_loop] at h
    split at h
    · cases last with
      | none =>
        have h2 := flagsKept_check_loop K tracked fuel _ _ _ _ _ t r h
        exact ⟨h2.1, h2.2, h2.3⟩
      | some q =>
        have h2 := flagsKept_check_loop K tracked fuel _ _ _ _ _ t r h
        exact ⟨h2.1, h2.2, h2.3⟩
    · exact flagsKept_check_loop K tracked fuel _ _ _ _ s t r h

theorem stop_flags (K : Consts) (E : Env) (fuel : Nat) (s t : State)
    (h : SVGA_CB_stop K E fuel s = some t) :
    t.cb_support = s.cb_support ∧ t.cb_context0 = false ∧ t.ctlbuf = s.ctlbuf ∧
      (t.cb_queue_info.first = none ∨
        (s.cb_support = false ∧ t.cb_queue_info = s.cb_queue_info)) := by
  simp only [SVGA_CB_stop] at h
  by_cases hsup : s.cb_support = true
  · rw [if_pos hsup] at h
    cases hc : SVGA_CB_ctr K E fuel K.sizeof_cb_enable_t
        (cb_enable_fill K 0 { s with cb_context0 := false }) with
    | none => simp [hc] at h
    | some r =>
      obtain ⟨st, s2⟩ := r
      simp only [hc] at h
      have h1 := flagsKept_ctr K E fuel _ _ s2 st hc
      simp only [CB_queue_erase] at h
      cases he : CB_queue_erase_loop K fuel (SVGA_Sync E s2).cb_queue_info.first
          (SVGA_Sync E s2) with
      | none => simp [he] at h
      | some s3 =>
        simp only [he, Option.map_some', Option.some.injEq] at h
        subst h
        have h2 := flagsKept_erase_loop K fuel _ _ s3 he
        exact ⟨h2.1.trans h1.1, h2.2.trans h1.2, h2.3.trans h1.3, Or.inl rfl⟩
  · rw [if_neg hsup] at h
    cases h
    exact ⟨rfl, rfl, rfl, Or.inr ⟨by simpa using hsup, rfl⟩⟩

theorem start_flags (K : Consts) (E : Env) (fuel : Nat) (s t : State)
    (hok : ctl_confirms K E s.ctlbuf) (h : SVGA_CB_start K E fuel s = some t) :
    t.cb_support = s.cb_support ∧ t.cb_context0 = (s.cb_context0 || s.cb_support) ∧
      t.ctlbuf = s.ctlbuf ∧ t.cb_queue_info = s.cb_queue_info := by
  simp only [SVGA_CB_start] at h
  split at h
  · next hcnd =>
    cases hc : SVGA_CB_ctr K E fuel K.sizeof_cb_enable_t (cb_enable_fill K 1 s) with
    | none => simp [hc] at h
    | some r =>
      obtain ⟨st, s2⟩ := r
      simp only [hc] at h
      have h1 := flagsKept_ctr K E fuel _ _ s2 st hc
      obtain ⟨_, hq, _⟩ := ctr_links K E fuel _ _ s2 st hc
      have hst : st = K.SVGA_CB_STATUS_COMPLETED :=
        (ctr_exit K E fuel _ _ s2 st hc).2.2.2.2.2.2.2 _ hok
      rw [if_pos hst] at h
      cases h
      refine ⟨h1.1, ?_, h1.3, hq⟩
      show true = (s.cb_context0 || s.cb_support)
      rw [hcnd.1, Bool.or_true]
  · next hcnd =>
    cases h
    refine ⟨rfl, ?_, rfl, rfl⟩
    cases h1 : s.cb_context0 <;> cases h2 : s.cb_support <;> simp_all

theorem restart_flags (K : Consts) (E : Env) (fuel : Nat) (s t : State)
    (hok : ctl_confirms K E s.ctlbuf) (h : SVGA_CB_restart K E fuel s = some t) :
    t.cb_support = s.cb_support ∧ t.cb_context0 = s.cb_support ∧ t.ctlbuf = s.ctlbuf ∧
      (t.cb_queue_info.first = none ∨
        (s.cb_support = false ∧ t.cb_queue_info = s.cb_queue_info)) := by
  simp only [SVGA_CB_restart] at h
  cases hs : SVGA_CB_stop K E fuel s with
  | none => simp [hs] at h
  | some s1 =>
    simp only [hs] at h
    obtain ⟨a1, a2, a3, a4⟩ := stop_flags K E fuel s s1 hs
    obtain ⟨b1, b2, b3, b4⟩ := start_flags K E fuel s1 t (by rw [a3]; exact hok) h
    refine ⟨b1.trans a1, ?_, b3.trans a3, ?_⟩
    · rw [b2, a2, a1, Bool.false_or]
    · rw [b4]; exact a4

theorem chain_enabled_of_flags {t : State} (h1 : t.cb_support = true)
    (h2 : t.cb_context0 = true) : chain_enabled t :=
  ⟨fun _ => h1, fun _ => h2⟩

/-- One scan pass with a device that accepts every control descriptor: `cb_support`
and the place of the control buffer are kept, an enabled context stays (or is
again) enabled, and the relation between chain and flags is kept. -/
theorem check_inline_enabled (K : Consts) (E : Env) (fuel : Nat) (tracked : Option Ptr)
    (s t : State) (b : Bool) (hok : ctl_confirms K E s.ctlbuf)
    (h : CB_queue_check_inline K E fuel tracked s = some (b, t)) :
    t.cb_support = s.cb_support ∧ t.ctlbuf = s.ctlbuf ∧
      (s.cb_support = true → s.cb_context0 = true → t.cb_context0 = true) ∧
      (chain_enabled s → chain_enabled t) := by
  simp only [CB_queue_check_inline] at h
  cases hl : CB_queue_check_loop K tracked fuel s.cb_queue_info.first none false false s with
  | none => simp [hl] at h
  | some r =>
    obtain ⟨s1, last, iq, nr⟩ := r
    simp only [hl] at h
    have h1 := flagsKept_check_loop K tracked fuel _ _ _ _ s s1 _ hl
    have hnone : s.cb_queue_info.first = none → s1 = s ∧ nr = false := by
      intro hn
      rw [hn] at hl
      cases fuel <;> simp only [CB_queue_check_loop, Option.some.injEq, Prod.mk.injEq] at hl <;>
        exact ⟨hl.1.symm, hl.2.2.2.symm⟩
    have hkeep : ∀ u : State, FlagsKept s u →
        (s.cb_queue_info.first = none → u.cb_queue_info.first = none) →
        u.cb_support = s.cb_support ∧ u.ctlbuf = s.ctlbuf ∧
          (s.cb_support = true → s.cb_context0 = true → u.cb_context0 = true) ∧
          (chain_enabled s → chain_enabled u) := by
      intro u hu hfirst
      refine ⟨hu.1, hu.3, fun _ hc => hu.2.trans hc, ?_⟩
      intro hce
      refine ⟨fun hc => ?_, fun hne => ?_⟩
      · rw [hu.1]; exact hce.1 (hu.2 ▸ hc)
      · rw [hu.2]; exact hce.2 (fun hn => hne (hfirst hn))
    have h2 : FlagsKept s { s1 with cb_queue_info := { s1.cb_queue_info with last := last } } :=
      ⟨h1.1, h1.2, h1.3⟩
    have hf2 : s.cb_queue_info.first = none →
        ({ s1 with cb_queue_info := { s1.cb_queue_info with last := last } } :
          State).cb_queue_info.first = none := by
      intro hn
      obtain ⟨e1, _⟩ := hnone hn
      show s1.cb_queue_info.first = none
      rw [e1]; exact hn
    split at h
    · next hnr =>
      cases hr : SVGA_CB_restart K E fuel
          { s1 with cb_queue_info := { s1.cb_queue_info with last := last } } with
      | none => simp [hr] at h
      | some t1 =>
        simp only [hr, Option.map_some', Option.some.injEq, Prod.mk.injEq] at h
        obtain ⟨_, rfl⟩ := h
        obtain ⟨r1, r2, r3, r4⟩ := restart_flags K E fuel _ t1
          (by show ctl_confirms K E s1.ctlbuf; rw [h1.3]; exact hok) hr
        have r1s : t1.cb_support = s.cb_support := r1.trans h1.1
        have r2s : t1.cb_context0 = s.cb_support := r2.trans h1.1
        have hne : s.cb_queue_info.first ≠ none := by
          intro hn
          obtain ⟨_, e2⟩ := hnone hn
          rw [e2] at hnr
          exact Bool.false_ne_true hnr
        refine ⟨r1s, r3.trans h1.3, fun hs _ => r2s.trans hs, ?_⟩
        intro hce
        have hs : s.cb_support = true := hce.1 (hce.2 hne)
        exact chain_enabled_of_flags (r1s.trans hs) (r2s.trans hs)
    · split at h
      · simp only [Option.some.injEq, Prod.mk.injEq] at h
        obtain ⟨_, rfl⟩ := h
        exact hkeep _ h2 hf2
      · split at h <;>
        · simp only [Option.some.injEq, Prod.mk.injEq] at h
          obtain ⟨_, rfl⟩ := h
          exact hkeep _ h2 hf2

/-- The three polling loops keep every property that the device's turn and the
scan pass keep. -/
theorem loops_keep (K : Consts) (E : Env) (n : Nat) (P : State → Prop)
    (hdev : ∀ s, P s → P (device_step E s)) (hsync : ∀ s, P s → P (SVGA_Sync E s))
    (hchk : ∀ tracked s b t, P s → CB_queue_check_inline K E n tracked s = some (b, t) → P t) :
    (∀ flags fuel s t, P s → CB_queue_wait_flags K E n flags fuel s = some t → P t) ∧
    (∀ cb fs fuel s t, P s → WAIT_FOR_CB K E n cb fs fuel s = some t → P t) ∧
    (∀ fuel s t, P s → SVGA_Flush_CB_wait K E n fuel s = some t → P t) := by
  refine ⟨?_, ?_, ?_⟩
  · intro flags fuel
    induction fuel with
    | zero => intro s t _ h; simp [CB_queue_wait_flags] at h
    | succ fuel ih =>
      intro s t hp h
      simp only [CB_queue_wait_flags] at h
      cases hc : CB_queue_check_inline K E n none s with
      | none => simp [hc] at h
      | some r =>
        obtain ⟨b, s1⟩ := r
        simp only [hc] at h
        have h1 := hchk none s b s1 hp hc
        cases hfl : CB_queue_is_flags_set n flags s1 with
        | none => simp [hfl] at h
        | some b2 =>
          cases b2 with
          | true =>
            simp only [hfl] at h
            exact ih _ t (hdev _ h1) h
          | false =>
            simp only [hfl, Option.some.injEq] at h
            subst h
            exact h1
  · intro cb fs fuel
    induction fuel with
    | zero => intro s t _ h; simp [WAIT_FOR_CB] at h
    | succ fuel ih =>
      intro s t hp h
      simp only [WAIT_FOR_CB] at h
      cases hc : CB_queue_check_inline K E n (some cb) s with
      | none => simp [hc] at h
      | some r =>
        obtain ⟨b, s1⟩ := r
        have h1 := hchk (some cb) s b s1 hp hc
        cases b with
        | true =>
          simp only [hc, Option.some.injEq] at h
          subst h
          exact h1
        | false =>
          simp only [hc] at h
          refine ih _ t ?_ h
          split
          · exact hsync _ h1
          · exact hdev _ h1
  · intro fuel
    induction fuel with
    | zero => intro s t _ h; simp [SVGA_Flush_CB_wait] at h
    | succ fuel ih =>
      intro s t hp h
      simp only [SVGA_Flush_CB_wait, CB_queue_check] at h
      cases hc : CB_queue_check_inline K E n none s with
      | none => simp [hc] at h
      | some r =>
        obtain ⟨b, s1⟩ := r
        have h1 := hchk none s b s1 hp hc
        cases b with
        | true =>
          simp only [hc, Option.some.injEq] at h
          subst h
          exact h1
        | false =>
          simp only [hc] at h
          exact ih _ t (hsync _ h1) h

/-- With a device that accepts every control descriptor (written at `c`), the polling
loops keep "both context flags are TRUE". -/
theorem loops_flags (K : Consts) (E : Env) (n : Nat) (c : Ptr) (hok : ctl_confirms K E c) :
    (∀ flags fuel s t, (s.ctlbuf = c ∧ s.cb_support = true ∧ s.cb_context0 = true) →
      CB_queue_wait_flags K E n flags fuel s = some t →
      (t.ctlbuf = c ∧ t.cb_support = true ∧ t.cb_context0 = true)) ∧
    (∀ cb fs fuel s t, (s.ctlbuf = c ∧ s.cb_support = true ∧ s.cb_context0 = true) →
      WAIT_FOR_CB K E n cb fs fuel s = some t →
      (t.ctlbuf = c ∧ t.cb_support = true ∧ t.cb_context0 = true)) ∧
    (∀ fuel s t, (s.ctlbuf = c ∧ s.cb_support = true ∧ s.cb_context0 = true) →
      SVGA_Flush_CB_wait K E n fuel s = some t →
      (t.ctlbuf = c ∧ t.cb_support = true ∧ t.cb_context0 = true)) := by
  refine loops_keep K E n (fun s => s.ctlbuf = c ∧ s.cb_support = true ∧ s.cb_context0 = true)
    (fun s hp => hp) (fun s hp => hp) ?_
  intro tracked s b t hp h
  obtain ⟨e1, e2, e3, _⟩ := check_inline_enabled K E n tracked s t b (by rw [hp.1]; exact hok) h
  exact ⟨e2.trans hp.1, e1.trans hp.2.1, e3 hp.2.1 hp.2.2⟩

/-- With a device that accepts every control descriptor (written at `c`), the polling
loops keep the relation between chain and flags. -/
theorem loops_enabled (K : Consts) (E : Env) (n : Nat) (c : Ptr) (hok : ctl_confirms K E c) :
    (∀ flags fuel s t, (s.ctlbuf = c ∧ chain_enabled s) →
      CB_queue_wait_flags K E n flags fuel s = some t → (t.ctlbuf = c ∧ chain_enabled t)) ∧
    (∀ cb fs fuel s t, (s.ctlbuf = c ∧ chain_enabled s) →
      WAIT_FOR_CB K E n cb fs fuel s = some t → (t.ctlbuf = c ∧ chain_enabled t)) ∧
    (∀ fuel s t, (s.ctlbuf = c ∧ chain_enabled s) →
      SVGA_Flush_CB_wait K E n fuel s = some t → (t.ctlbuf = c ∧ chain_enabled t)) := by
  refine loops_keep K E n (fun s => s.ctlbuf = c ∧ chain_enabled s)
    (fun s hp => hp) (fun s hp => hp) ?_
  intro tracked s b t hp h
  obtain ⟨_, e2, _, e4⟩ := check_inline_enabled K E n tracked s t b (by rw [hp.1]; exact hok) h
  exact ⟨e2.trans hp.1, e4 hp.2⟩

theorem flagsKept_fence_append (K : Consts) (E : Env) (cmb : Ptr) (cmb_size flags fence : Nat)
    (s : State) : FlagsKept s (cb_fence_append K E cmb cmb_size flags fence s).2.2 := by
  unfold cb_fence_append
  split <;> exact ⟨rfl, rfl, rfl⟩

theorem flagsKept_dispatch (K : Consts) (E : Env) (cmb : Ptr) (cmb_size flags dx : Nat)
    (s : State) : FlagsKept s (cb_dispatch K E cmb cmb_size flags dx s) := by
  unfold cb_dispatch CB_queue_insert
  simp only []
  split <;> split <;> exact ⟨rfl, rfl, rfl⟩

theorem submit_cb_flags (K : Consts) (E : Env) (fuel cmb cmb_size : Nat)
    (status : Option SVGA_CMB_status_t) (flags dx fence : Nat) (s : State)
    (st : Option SVGA_CMB_status_t) (t : State) (hok : ctl_confirms K E s.ctlbuf)
    (hs : s.cb_support = true) (hc : s.cb_context0 = true)
    (h : SVGA_CMB_submit_cb K E fuel cmb cmb_size status flags dx fence s = some (st, t)) :
    t.ctlbuf = s.ctlbuf ∧ t.cb_support = true ∧ t.cb_context0 = true := by
  have hfa := flagsKept_fence_append K E cmb cmb_size flags fence s
  obtain ⟨L1, L2, _⟩ := loops_flags K E fuel s.ctlbuf hok
  simp only [SVGA_CMB_submit_cb] at h
  cases hw : CB_queue_wait_flags K E fuel (flags_to_cbq_check K flags) fuel
      (cb_fence_append K E cmb cmb_size flags fence s).2.2 with
  | none => simp [hw] at h
  | some s1 =>
    simp only [hw] at h
    have p1 := L1 _ _ _ s1 ⟨hfa.3, hfa.1.trans hs, hfa.2.trans hc⟩ hw
    by_cases hz : (cb_fence_append K E cmb cmb_size flags fence s).2.1 = 0
    · simp only [hz, if_true, Option.some.injEq, Prod.mk.injEq] at h
      obtain ⟨_, rfl⟩ := h
      exact p1
    · simp only [hz, if_false] at h
      have hd := flagsKept_dispatch K E cmb
        (cb_fence_append K E cmb cmb_size flags fence s).2.1 flags dx s1
      have p2 := And.intro (hd.3.trans p1.1) (And.intro (hd.1.trans p1.2.1) (hd.2.trans p1.2.2))
      split at h
      · cases hwc : WAIT_FOR_CB K E fuel cmb false fuel (cb_dispatch K E cmb
            (cb_fence_append K E cmb cmb_size flags fence s).2.1 flags dx s1) with
        | none => simp [hwc] at h
        | some s2 =>
          simp only [hwc, Option.some.injEq, Prod.mk.injEq] at h
          obtain ⟨_, rfl⟩ := h
          exact L2 _ _ _ _ s2 p2 hwc
      · simp only [Option.some.injEq, Prod.mk.injEq] at h
        obtain ⟨_, rfl⟩ := h
        exact p2

theorem submit_critical_flags (K : Consts) (E : Env) (fuel cmb cmb_size : Nat)
    (status : Option SVGA_CMB_status_t) (flags dx : Nat) (s : State)
    (st : Option SVGA_CMB_status_t) (t : State) (hok : ctl_confirms K E s.ctlbuf)
    (hc : s.cb_support = true ∧ s.cb_context0 = true ∧ flags &&& SVGA_CB_FORCE_FIFO = 0)
    (h : SVGA_CMB_submit_critical K E fuel cmb cmb_size status flags dx s = some (st, t)) :
    t.ctlbuf = s.ctlbuf ∧ t.cb_support = true ∧ t.cb_context0 = true := by
  have he := (submit_entry_frame K cmb status flags s).1
  rw [submit_critical_cb_eq K E fuel cmb cmb_size status flags dx s hc] at h
  cases hcbr : SVGA_CMB_submit_cb K E fuel cmb cmb_size (submit_entry K cmb status flags s).1
      flags dx 0 (submit_entry K cmb status flags s).2 with
  | none => simp [hcbr] at h
  | some r =>
    obtain ⟨st1, t1⟩ := r
    simp only [hcbr, Option.map_some', submit_exit, Option.some.injEq, Prod.mk.injEq] at h
    obtain ⟨_, rfl⟩ := h
    obtain ⟨q1, q2, q3⟩ := submit_cb_flags K E fuel cmb cmb_size _ flags dx 0 _ _ _
      (by rw [he.ctlbuf]; exact hok) (he.cb_support.trans hc.1) (he.cb_context0.trans hc.2.1) hcbr
    exact ⟨q1.trans he.ctlbuf, q2, q3⟩

theorem chain_enabled_congr {s t : State} (h1 : t.cb_support = s.cb_support)
    (h2 : t.cb_context0 = s.cb_context0) (h3 : t.cb_queue_info = s.cb_queue_info)
    (hce : chain_enabled s) : chain_enabled t := by
  unfold chain_enabled
  rw [h1, h2, h3]
  exact hce

theorem chain_enabled_drained {s t : State} (h1 : t.cb_support = s.cb_support)
    (h2 : t.cb_context0 = true → s.cb_support = true)
    (h4 : t.cb_queue_info.first = none ∨
      (s.cb_support = false ∧ t.cb_queue_info = s.cb_queue_info))
    (hce : chain_enabled s) : chain_enabled t := by
  refine ⟨fun hc => h1.trans (h2 hc), fun hne => ?_⟩
  rcases h4 with h4 | ⟨h4, h5⟩
  · exact absurd h4 hne
  · rw [h5] at hne
    rw [hce.1 (hce.2 hne)] at h4
    exact absurd h4 (by decide)

theorem submit_critical_enabled (K : Consts) (E : Env) (fuel cmb cmb_size : Nat)
    (status : Option SVGA_CMB_status_t) (flags dx : Nat) (s : State)
    (st : Option SVGA_CMB_status_t) (t : State) (hok : ctl_confirms K E s.ctlbuf)
    (hce : chain_enabled s)
    (h : SVGA_CMB_submit_critical K E fuel cmb cmb_size status flags dx s = some (st, t)) :
    t.ctlbuf = s.ctlbuf ∧ chain_enabled t := by
  by_cases hc : s.cb_support = true ∧ s.cb_context0 = true ∧ flags &&& SVGA_CB_FORCE_FIFO = 0
  · obtain ⟨q1, q2, q3⟩ := submit_critical_flags K E fuel cmb cmb_size status flags dx s st t
      hok hc h
    exact ⟨q1, chain_enabled_of_flags q2 q3⟩
  · have he := (submit_entry_frame K cmb status flags s).1
    rw [submit_critical_fifo_eq K E fuel cmb cmb_size status flags dx s hc] at h
    simp only [Option.some.injEq] at h
    have ht : t = (SVGA_CMB_submit_fifo K E cmb cmb_size (submit_entry K cmb status flags s).1
        flags 0 (submit_entry K cmb status flags s).2).2 := (congrArg Prod.snd h).symm
    have hf := fifoFrame_submit K E cmb cmb_size (submit_entry K cmb status flags s).1 flags 0
      (submit_entry K cmb status flags s).2
    rw [ht]
    exact ⟨hf.ctlbuf.trans he.ctlbuf,
      chain_enabled_congr (hf.cb_support.trans he.cb_support)
        (hf.cb_context0.trans he.cb_context0) (hf.cb_queue_info.trans he.cb_queue_info) hce⟩

theorem alloc_flags (K : Consts) (E : Env) (datasize : Nat) (s : State) :
    (SVGA_CMB_alloc_size K E datasize s).2.cb_support = s.cb_support ∧
      (SVGA_CMB_alloc_size K E datasize s).2.cb_context0 = s.cb_context0 ∧
      (SVGA_CMB_alloc_size K E datasize s).2.cb_queue_info = s.cb_queue_info ∧
      (SVGA_CMB_alloc_size K E datasize s).2.ctlbuf = s.ctlbuf := by
  unfold SVGA_CMB_alloc_size
  simp only [Begin_Critical_Section]
  cases E.page_alloc s.tick with
  | none => exact ⟨rfl, rfl, rfl, rfl⟩
  | some r => exact ⟨rfl, rfl, rfl, rfl⟩

theorem run_op_enabled (K : Consts) (E : Env) (fuel : Nat) (op : Op) (s t : State)
    (hok : ctl_confirms K E s.ctlbuf) (hce : chain_enabled s)
    (h : run_op K E fuel op s = some t) : t.ctlbuf = s.ctlbuf ∧ chain_enabled t := by
  obtain ⟨L1, L2, L3⟩ := loops_enabled K E fuel s.ctlbuf hok
  cases op with
  | start =>
    obtain ⟨b1, b2, b3, b4⟩ := start_flags K E fuel s t hok h
    refine ⟨b3, fun hc => ?_, fun hne => ?_⟩
    · rw [b1]
      rw [b2, Bool.or_eq_true] at hc
      rcases hc with hc | hc
      · exact hce.1 hc
      · exact hc
    · rw [b4] at hne
      rw [b2, hce.2 hne, Bool.true_or]
  | stop =>
    obtain ⟨a1, a2, a3, a4⟩ := stop_flags K E fuel s t h
    exact ⟨a3, chain_enabled_drained a1 (fun hc => by rw [a2] at hc; cases hc) a4 hce⟩
  | restart =>
    obtain ⟨a1, a2, a3, a4⟩ := restart_flags K E fuel s t hok h
    exact ⟨a3, chain_enabled_drained a1 (fun hc => a2.symm.trans hc) a4 hce⟩
  | scan tracked =>
    simp only [run_op] at h
    cases hc : CB_queue_check_inline K E fuel tracked s with
    | none => simp [hc] at h
    | some r =>
      obtain ⟨b, t1⟩ := r
      simp only [hc, Option.map_some', Option.some.injEq] at h
      subst h
      obtain ⟨_, e2, _, e4⟩ := check_inline_enabled K E fuel tracked s t1 b hok hc
      exact ⟨e2, e4 hce⟩
  | submit_critical cmb cmb_size status flags dx =>
    simp only [run_op] at h
    cases hc : SVGA_CMB_submit_critical K E fuel cmb cmb_size status flags dx s with
    | none => simp [hc] at h
    | some r =>
      obtain ⟨st, t1⟩ := r
      simp only [hc, Option.map_some', Option.some.injEq] at h
      subst h
      exact submit_critical_enabled K E fuel cmb cmb_size status flags dx s st t1 hok hce hc
  | submit cmb cmb_size status flags dx =>
    simp only [run_op, SVGA_CMB_submit] at h
    cases hc : SVGA_CMB_submit_critical K E fuel cmb cmb_size status flags dx
        (Begin_Critical_Section s) with
    | none => simp [hc] at h
    | some r =>
      obtain ⟨st, t1⟩ := r
      simp only [hc, Option.map_some', Option.some.injEq] at h
      subst h
      exact submit_critical_enabled K E fuel cmb cmb_size status flags dx
        (Begin_Critical_Section s) st t1 hok hce hc
  | wait_cmdbuf =>
    simp only [run_op, wait_for_cmdbuf] at h
    exact L2 _ false fuel (Begin_Critical_Section s) t ⟨rfl, hce⟩ h
  | send_cmdbuf cmdsize flags dx =>
    simp only [run_op, submit_cmdbuf] at h
    cases hc : SVGA_CMB_submit_critical K E fuel s.cmdbuf cmdsize none flags dx s with
    | none => simp [hc] at h
    | some r =>
      obtain ⟨st, t1⟩ := r
      simp only [hc, Option.map_some', Option.some.injEq] at h
      subst h
      exact submit_critical_enabled K E fuel _ cmdsize none flags dx s st t1 hok hce hc
  | wait_update =>
    simp only [run_op, SVGA_CMB_wait_update] at h
    split at h
    · exact L1 _ fuel s t ⟨rfl, hce⟩ h
    · simp only [Option.some.injEq] at h
      subst h
      have hf := fifoFrame_fence_check K E K.SVGA_CB_UPDATE s
      exact ⟨hf.ctlbuf, chain_enabled_congr hf.cb_support hf.cb_context0 hf.cb_queue_info hce⟩
  | flush =>
    simp only [run_op, SVGA_Flush_CB, SVGA_Flush_CB_critical] at h
    cases hc : SVGA_Flush_CB_wait K E fuel fuel (Begin_Critical_Section s) with
    | none => simp [hc] at h
    | some t1 =>
      simp only [hc, Option.map_some', Option.some.injEq] at h
      subst h
      exact L3 fuel (Begin_Critical_Section s) t1 ⟨rfl, hce⟩ hc
  | alloc datasize =>
    simp only [run_op, Option.some.injEq] at h
    subst h
    obtain ⟨a1, a2, a3, a4⟩ := alloc_flags K E datasize s
    exact ⟨a4, chain_enabled_congr a1 a2 a3 hce⟩
  | free cmb =>
    simp only [run_op, SVGA_CMB_free] at h
    cases hc : WAIT_FOR_CB K E fuel cmb true fuel (Begin_Critical_Section s) with
    | none => simp [hc] at h
    | some t1 =>
      simp only [hc, Option.map_some', Option.some.injEq] at h
      subst h
      exact L2 _ true fuel (Begin_Critical_Section s) t1 ⟨rfl, hce⟩ hc

theorem run_ops_enabled (K : Consts) (E : Env) (fuel : Nat) :
    ∀ (ops : List Op) (s t : State), ctl_confirms K E s.ctlbuf → chain_enabled s →
      run_ops K E fuel ops s = some t → chain_enabled t
  | [], s, t, _, hce, h => by
    simp only [run_ops, Option.some.injEq] at h
    subst h
    exact hce
  | op :: ops, s, t, hok, hce, h => by
    simp only [run_ops] at h
    cases h1 : run_op K E fuel op s with
    | none => simp [h1] at h
    | some s1 =>
      simp only [h1] at h
      obtain ⟨e1, e2⟩ := run_op_enabled K E fuel op s s1 hok hce h1
      exact run_ops_enabled K E fuel ops s1 t (by rw [e1]; exact hok) e2 h

/-- The part of C25 that holds: with a device that answers every control descriptor
with `SVGA_CB_STATUS_COMPLETED` (it never rejects the enabling of context 0), whenever
`SVGA_CMB_submit_critical` takes the command-buffer path and its pre-dispatch loop
returns, `cb_support` and `cb_context0` are both TRUE in the state in which the
dispatch block starts and in the state the dispatch block leaves (after the insertion
into the queue and the write of `SVGA_REG_COMMAND_LOW`), even when the pre-dispatch
scan observed a fault and ran `SVGA_CB_restart`, and on return; and with such a
device every operation, and every sequence of operations, that starts in a state in
which context 0 is enabled only with `cb_support` TRUE and a non-empty chain implies
that context 0 is enabled, returns in such a state. -/
theorem C25_posting_enabled (K : Consts) (E : Env) (fuel cmb cmb_size : Nat)
    (status : Option SVGA_CMB_status_t) (flags dx : Nat) (s : State)
    (hok : ctl_confirms K E s.ctlbuf) :
    (s.cb_support = true ∧ s.cb_context0 = true ∧ flags &&& SVGA_CB_FORCE_FIFO = 0 →
      (∀ s1, CB_queue_wait_flags K E fuel (flags_to_cbq_check K flags) fuel
          (cb_fence_append K E cmb cmb_size flags 0
            (submit_entry K cmb status flags s).2).2.2 = some s1 →
        (s1.cb_support = true ∧ s1.cb_context0 = true) ∧
        ((cb_dispatch K E cmb (cb_fence_append K E cmb cmb_size flags 0
            (submit_entry K cmb status flags s).2).2.1 flags dx s1).cb_support = true ∧
          (cb_dispatch K E cmb (cb_fence_append K E cmb cmb_size flags 0
            (submit_entry K cmb status flags s).2).2.1 flags dx s1).cb_context0 = true)) ∧
      (∀ st t, SVGA_CMB_submit_critical K E fuel cmb cmb_size status flags dx s = some (st, t) →
        t.cb_support = true ∧ t.cb_context0 = true)) ∧
    (chain_enabled s →
      (∀ op t, run_op K E fuel op s = some t → chain_enabled t) ∧
      (∀ ops t, run_ops K E fuel ops s = some t → chain_enabled t)) := by
  refine ⟨fun hc => ⟨?_, ?_⟩, fun hce => ⟨?_, ?_⟩⟩
  · intro s1 hw
    have he := (submit_entry_frame K cmb status flags s).1
    have hfa := flagsKept_fence_append K E cmb cmb_size flags 0
      (submit_entry K cmb status flags s).2
    obtain ⟨L1, _, _⟩ := loops_flags K E fuel s.ctlbuf hok
    have p1 := L1 _ _ _ s1 ⟨hfa.3.trans he.ctlbuf, (hfa.1.trans he.cb_support).trans hc.1,
      (hfa.2.trans he.cb_context0).trans hc.2.1⟩ hw
    have hd := flagsKept_dispatch K E cmb (cb_fence_append K E cmb cmb_size flags 0
      (submit_entry K cmb status flags s).2).2.1 flags dx s1
    exact ⟨⟨p1.2.1, p1.2.2⟩, hd.1.trans p1.2.1, hd.2.trans p1.2.2⟩
  · intro st t h
    exact (submit_critical_flags K E fuel cmb cmb_size status flags dx s st t hok hc h).2
  · intro op t h
    exact (run_op_enabled K E fuel op s t hok hce h).2
  · intro ops t h
    exact run_ops_enabled K E fuel ops s t hok hce h

theorem C25_posting_enabled_witness :
    ctl_confirms svga prompt_env fault_state.ctlbuf ∧
      (fault_state.cb_support = true ∧ fault_state.cb_context0 = true ∧
        0 &&& SVGA_CB_FORCE_FIFO = 0) ∧
      chain_enabled fault_state ∧
      (∃ st t, SVGA_CMB_submit_critical svga prompt_env 4 12 16 none 0 0 fault_state =
          some (st, t) ∧ t.cb_support = true ∧ t.cb_context0 = true) ∧
      (∃ t, run_ops svga prompt_env 4 [Op.submit_critical 12 16 none 0 0, Op.flush]
          fault_state = some t ∧ chain_enabled t) := by
  have hok : ctl_confirms svga prompt_env fault_state.ctlbuf := by
    intro τ w h
    cases h
    rfl
  have hc : fault_state.cb_support = true ∧ fault_state.cb_context0 = true ∧
      0 &&& SVGA_CB_FORCE_FIFO = 0 := ⟨by decide, by decide, by decide⟩
  have hce : chain_enabled fault_state := ⟨fun _ => by decide, fun _ => by decide⟩
  refine ⟨hok, hc, hce, ?_, ?_⟩
  · cases h : SVGA_CMB_submit_critical svga prompt_env 4 12 16 none 0 0 fault_state with
    | none =>
      have hrun : (SVGA_CMB_submit_critical svga prompt_env 4 12 16 none 0 0
          fault_state).isSome = true := by decide
      simp [h] at hrun
    | some r =>
      exact ⟨r.1, r.2, rfl, ((C25_posting_enabled svga prompt_env 4 12 16 none 0 0 fault_state
        hok).1 hc).2 r.1 r.2 h⟩
  · cases h : run_ops svga prompt_env 4 [Op.submit_critical 12 16 none 0 0, Op.flush]
        fault_state with
    | none =>
      have hrun : (run_ops svga prompt_env 4 [Op.submit_critical 12 16 none 0 0, Op.flush]
          fault_state).isSome = true := by decide
      simp [h] at hrun
    | some t =>
      exact ⟨t, rfl, ((C25_posting_enabled svga prompt_env 4 12 16 none 0 0 fault_state
        hok).2 hce).2 _ t h⟩

/-- C25, divergence: from a state with `cb_support` and `cb_context0` TRUE whose
queue holds the faulted block 10 and the pending block 11, with a device that
answers every descriptor with an error, a submission of block 12 takes the
command-buffer path; its pre-dispatch scan runs `SVGA_CB_restart`, the enabling is
rejected, and the pre-dispatch loop returns with `cb_support` and `cb_context0` both
FALSE; the dispatch block nevertheless inserts block 12 and writes
`SVGA_REG_COMMAND_LOW`, and the submission returns with both flags FALSE and the
chain `[12]`. -/
theorem C25_posts_while_disabled :
    (fault_state.cb_support = true ∧ fault_state.cb_context0 = true ∧
      0 &&& SVGA_CB_FORCE_FIFO = 0) ∧
    chain_enabled fault_state ∧
    (CB_queue_wait_flags svga rejecting_env 4 (flags_to_cbq_check svga 0) 4
        (cb_fence_append svga rejecting_env 12 16 0 0
          (submit_entry svga 12 none 0 fault_state).2).2.2).map
      (fun t => (t.cb_support, t.cb_context0)) = some (false, false) ∧
    (SVGA_CMB_submit_critical svga rejecting_env 4 12 16 none 0 0 fault_state).map
      (fun r => (r.2.cb_support, r.2.cb_context0, queue_chain 4 r.2)) =
        some (false, false, some [12]) ∧
    (SVGA_CMB_submit_critical svga rejecting_env 4 12 16 none 0 0 fault_state).map
      (fun r => r.2.trace.take 3) =
        some [Event.Sync, Event.WriteReg svga.SVGA_REG_COMMAND_LOW 4294967232,
          Event.WriteReg svga.SVGA_REG_COMMAND_HIGH 0] ∧
    (∃ t, run_ops svga rejecting_env 4 [Op.submit_critical 12 16 none 0 0] fault_state =
      some t ∧ ¬ chain_enabled t) := by
  refine ⟨⟨by decide, by decide, by decide⟩, ⟨fun _ => by decide, fun _ => by decide⟩,
    by decide, by decide, by decide, ?_⟩
  have h2 : (run_ops svga rejecting_env 4 [Op.submit_critical 12 16 none 0 0]
      fault_state).map (fun t => (t.cb_queue_info.first, t.cb_context0)) =
      some (some 12, false) := by decide
  cases h : run_ops svga rejecting_env 4 [Op.submit_critical 12 16 none 0 0] fault_state with
  | none => simp [h] at h2
  | some t =>
    simp only [h, Option.map_some', Option.some.injEq, Prod.mk.injEq] at h2
    refine ⟨t, rfl, fun hce => ?_⟩
    have h3 := hce.2 (by rw [h2.1]; exact Option.some_ne_none 12)
    rw [h2.2] at h3
    cases h3

/-! ## A fault during the wait of an empty submission (C9) -/

/-- C9, counterexample: the queue holds the completed block 11 and the pending block
12 (tagged rendering), no descriptor is faulted, both context flags are TRUE and the
trace is empty.  A submission of block 10 with `cmb_size = 0` and flags
`SVGA_CB_PRESENT` (no fence is appended) takes the command-buffer branch; its
pre-dispatch loop waits for block 12, the device faults block 12 during that wait,
the next scan pass runs `SVGA_CB_restart`, and the call returns after two control
descriptors: `SVGA_REG_COMMAND_LOW` was written twice (seven events in the trace)
and `cb_next_id` went from 0 to 2. -/
theorem C9_fault_during_wait :
    queue_chain 4 busy_state = some [11, 12] ∧
    (∀ p ∈ [11, 12], faulted svga busy_state p = false) ∧
    cb_transport svga.SVGA_CB_PRESENT busy_state = true ∧
    flags_cb_fence_need svga.SVGA_CB_PRESENT = false ∧
    busy_state.trace = [] ∧ busy_state.cb_next_id = { low := 0, hi := 0 } ∧
    (SVGA_CMB_submit_critical svga late_fault_env 4 10 0 none svga.SVGA_CB_PRESENT 0
        busy_state).map (fun r => r.2.trace) =
      some [Event.Sync, Event.WriteReg svga.SVGA_REG_COMMAND_LOW 4294967295,
        Event.WriteReg svga.SVGA_REG_COMMAND_HIGH 0, Event.Sync, Event.Sync,
        Event.WriteReg svga.SVGA_REG_COMMAND_LOW 4294967295,
        Event.WriteReg svga.SVGA_REG_COMMAND_HIGH 0] ∧
    (SVGA_CMB_submit_critical svga late_fault_env 4 10 0 none svga.SVGA_CB_PRESENT 0
        busy_state).map (fun r => r.2.cb_next_id) = some { low := 2, hi := 0 } := by
  refine ⟨by decide, by decide, by decide, by decide, by decide, by decide, by decide,
    by decide⟩

end Vmdisp9x
